import Mathlib

/-!
# Star Runner: entity model, combat resolution and wave progression

A shallow embedding of the module-based Star Runner game
(`Star Runner/js/GameEntities.js`, `GameEntityFactory.js`, `LevelManager.js`,
`main.js`).  JavaScript numbers are modelled as rationals, objects as
structures, mutation as explicit state passing, `Math.random()` as an explicit
argument and `eventBus.emit` as a returned list of events.  The timers of the
power-ups and the index of a random power-up kind are computed with the
rounding of double arithmetic.  Rendering and DOM updates are left out.
-/

namespace StarRunner

/-! ## Double arithmetic

The language computes on IEEE 754 doubles.  Where a result decides a branch after rounded
arithmetic, the model rounds as the language does: a double is a rational, and an
operation is the exact operation followed by `Double.round`. -/

/-- The number of binary digits of `n`, by halving with `fuel` steps allowed. -/
def Double.bitsAux : ℕ → ℕ → ℕ
  | 0, _ => 0
  | fuel + 1, n => if n = 0 then 0 else Double.bitsAux fuel (n / 2) + 1

/-- The number of binary digits of `n`. -/
def Double.bitLength (n : ℕ) : ℕ := Double.bitsAux n n

/-- The binary exponent of a non-zero rational: the `e` with `2^e ≤ |x| < 2^(e+1)`. -/
def Double.exponent (x : ℚ) : ℤ :=
  let e0 : ℤ := (Double.bitLength x.num.natAbs : ℤ) - (Double.bitLength x.den : ℤ)
  if (2 : ℚ) ^ e0 ≤ |x| then e0 else e0 - 1

/-- Rounding to the nearest integer, a tie going to the even one. -/
def Double.roundHalfEven (q : ℚ) : ℤ :=
  if q - ⌊q⌋ < 1 / 2 then ⌊q⌋
  else if 1 / 2 < q - ⌊q⌋ then ⌊q⌋ + 1
  else if ⌊q⌋ % 2 = 0 then ⌊q⌋ else ⌊q⌋ + 1

/-- The double nearest to `x` (round to nearest, ties to even): 53 significant bits, and
below `2^-1022` the fixed spacing `2^-1074` of the subnormal range.  A magnitude that
rounds to `2^1024` or more stays at `2^1024`, which stands for the infinity that the
language produces there. -/
def Double.round (x : ℚ) : ℚ :=
  if x = 0 then 0
  else
    let ulp := (2 : ℚ) ^ (max (Double.exponent x) (-1022) - 52)
    let magnitude := min ((Double.roundHalfEven (|x| / ulp) : ℚ) * ulp) (2 ^ 1024)
    if x < 0 then -magnitude else magnitude

/-- The double difference `a - b`. -/
def Double.sub (a b : ℚ) : ℚ := Double.round (a - b)

/-- The double sum `a + b`. -/
def Double.add (a b : ℚ) : ℚ := Double.round (a + b)

/-- The double product `a * b`. -/
def Double.mul (a b : ℚ) : ℚ := Double.round (a * b)

/-! ## GameEntities.js -/

/-- The `velocity` object of an entity. -/
structure Velocity where
  x : ℚ
  y : ℚ
  deriving DecidableEq

/-- Fields set by the `GameEntity` constructor. -/
structure GameEntity where
  x : ℚ
  y : ℚ
  width : ℚ
  height : ℚ
  color : String
  velocity : Velocity
  health : ℚ
  active : Bool
  deriving DecidableEq

/-- Constructor `new GameEntity(x, y, width, height, color)`. -/
def GameEntity.new (x y width height : ℚ) (color : String) : GameEntity :=
  { x := x, y := y, width := width, height := height, color := color,
    velocity := { x := 0, y := 0 }, health := 1, active := true }

/-- Method `GameEntity.update(deltaTime)`. -/
def GameEntity.update (e : GameEntity) (deltaTime : ℚ) : GameEntity :=
  { e with x := e.x + e.velocity.x * deltaTime, y := e.y + e.velocity.y * deltaTime }

/-- Method `GameEntity.checkCollision(other)`: the four comparisons in source order. -/
def GameEntity.checkCollision (e other : GameEntity) : Bool :=
  decide (e.x < other.x + other.width) &&
  decide (e.x + e.width > other.x) &&
  decide (e.y < other.y + other.height) &&
  decide (e.y + e.height > other.y)

/-- Method `GameEntity.takeDamage(amount)`; the source default for `amount` is 1. -/
def GameEntity.takeDamage (e : GameEntity) (amount : ℚ) : GameEntity :=
  let health := e.health - amount
  { e with health := health, active := if health ≤ 0 then false else e.active }

/-- Notifications sent through `eventBus.emit`. -/
inductive Event where
  | powerUpActivated (type : String) (duration : ℚ)
  | powerUpExpired (type : String)
  | playerHit (health : ℚ)
  deriving DecidableEq

/-- The entries of the `keys` object that `Player.update` reads. -/
structure Keys where
  ArrowLeft : Bool
  ArrowRight : Bool
  ArrowUp : Bool
  ArrowDown : Bool
  deriving DecidableEq

/-- Class `Player extends GameEntity`; `powerUps` is the insertion-ordered `Map`
from power-up type to its remaining `duration`. -/
structure Player extends GameEntity where
  maxHealth : ℚ
  speed : ℚ
  fireRate : ℚ
  lastShot : ℚ
  powerUps : List (String × ℚ)
  invulnerable : Bool
  invulnerabilityTime : ℚ
  deriving DecidableEq

/-- Constructor `new Player(x, y)`. -/
def Player.new (x y : ℚ) : Player :=
  { toGameEntity := { GameEntity.new x y 30 40 "#00ff88" with health := 3 },
    maxHealth := 3, speed := 300, fireRate := 0.2, lastShot := 0,
    powerUps := [], invulnerable := false, invulnerabilityTime := 0 }

/-- Method `Player.removePowerUp(type)`: `Map.delete` and the emitted event. -/
def Player.removePowerUp (p : Player) (type : String) : Player × List Event :=
  ({ p with powerUps := p.powerUps.filter (fun kv => kv.1 != type) },
   [Event.powerUpExpired type])

/-- The power-up loop of `Player.update`: every entry of the map is visited once in
insertion order, its duration is reduced by the double subtraction
`powerUp.duration -= deltaTime`, and it is deleted when it reaches zero. -/
def Player.tickPowerUps (deltaTime : ℚ) : List (String × ℚ) → List (String × ℚ) × List Event
  | [] => ([], [])
  | (type, duration) :: rest =>
    let r := Player.tickPowerUps deltaTime rest
    if Double.sub duration deltaTime ≤ 0 then (r.1, Event.powerUpExpired type :: r.2)
    else ((type, Double.sub duration deltaTime) :: r.1, r.2)

/-- Method `Player.update(deltaTime, keys)`. -/
def Player.update (p : Player) (deltaTime : ℚ) (keys : Keys) : Player × List Event :=
  let vx0 : ℚ := 0
  let vy0 : ℚ := 0
  let vx1 := if keys.ArrowLeft then -p.speed else vx0
  let vx := if keys.ArrowRight then p.speed else vx1
  let vy1 := if keys.ArrowUp then -p.speed else vy0
  let vy := if keys.ArrowDown then p.speed else vy1
  let moved := ({ p.toGameEntity with velocity := { x := vx, y := vy } }).update deltaTime
  let bounded := { moved with x := max 0 (min 770 moved.x), y := max 0 (min 560 moved.y) }
  let lastShot := p.lastShot + deltaTime
  let time := if p.invulnerable then p.invulnerabilityTime - deltaTime else p.invulnerabilityTime
  let invulnerable := if p.invulnerable then (if time ≤ 0 then false else true) else false
  let ticked := Player.tickPowerUps deltaTime p.powerUps
  ({ p with toGameEntity := bounded, lastShot := lastShot, invulnerable := invulnerable,
            invulnerabilityTime := time, powerUps := ticked.1 }, ticked.2)

/-- Method `Player.addPowerUp(type)`: `Map.set` keeps the position of an existing key. -/
def Player.addPowerUp (p : Player) (type : String) : Player × List Event :=
  let duration : ℚ := 10
  let powerUps :=
    if p.powerUps.any (fun kv => kv.1 == type) then
      p.powerUps.map (fun kv => if kv.1 == type then (type, duration) else kv)
    else p.powerUps ++ [(type, duration)]
  ({ p with powerUps := powerUps }, [Event.powerUpActivated type duration])

/-- Method `Player.takeDamage(amount)`; the source default for `amount` is 1. -/
def Player.takeDamage (p : Player) (amount : ℚ) : Player × List Event :=
  if p.invulnerable then (p, [])
  else
    let base := p.toGameEntity.takeDamage amount
    ({ p with toGameEntity := base, invulnerable := true, invulnerabilityTime := 2.0 },
     [Event.playerHit base.health])

/-- The `health` branch of `collectPowerUp`, the only other write to the player's health. -/
def Player.collectHealth (p : Player) : Player :=
  if p.health < p.maxHealth then { p with health := p.health + 1 } else p

/-- The three enemy classes of `GameEntities.js`. -/
inductive EnemyKind where
  | basic
  | fast
  | boss
  deriving DecidableEq

/-- Fields that only `BossEnemy` adds. -/
structure BossFields where
  direction : ℚ
  lastShot : ℚ
  fireRate : ℚ
  deriving DecidableEq

/-- An instance of `BasicEnemy`, `FastEnemy` or `BossEnemy` (all extend `GameEntity`);
`boss` is present exactly for a `BossEnemy`. -/
structure Enemy extends GameEntity where
  kind : EnemyKind
  speed : ℚ
  points : ℚ
  boss : Option BossFields
  deriving DecidableEq

/-- Constructor `new BasicEnemy(x, y)`. -/
def BasicEnemy.new (x y : ℚ) : Enemy :=
  { toGameEntity := { GameEntity.new x y 25 25 "#ff4444" with velocity := { x := 0, y := 100 } },
    kind := EnemyKind.basic, speed := 100, points := 100, boss := none }

/-- Constructor `new FastEnemy(x, y)`. -/
def FastEnemy.new (x y : ℚ) : Enemy :=
  { toGameEntity := { GameEntity.new x y 20 20 "#ffaa00" with velocity := { x := 0, y := 200 } },
    kind := EnemyKind.fast, speed := 200, points := 200, boss := none }

/-- Constructor `new BossEnemy(x, y)`. -/
def BossEnemy.new (x y : ℚ) : Enemy :=
  { toGameEntity := { GameEntity.new x y 60 60 "#aa00ff" with
      health := 10, velocity := { x := 0, y := 50 } },
    kind := EnemyKind.boss, speed := 50, points := 1000,
    boss := some { direction := 1, lastShot := 0, fireRate := 1.0 } }

/-- Method `takeDamage` of an enemy, inherited from `GameEntity`. -/
def Enemy.takeDamage (e : Enemy) (amount : ℚ) : Enemy :=
  { e with toGameEntity := e.toGameEntity.takeDamage amount }

/-- Method `update(deltaTime)` of an enemy: `BossEnemy.update` for a boss, the inherited
`GameEntity.update` otherwise. -/
def Enemy.update (e : Enemy) (deltaTime : ℚ) : Enemy :=
  match e.boss with
  | none => { e with toGameEntity := e.toGameEntity.update deltaTime }
  | some b =>
    let vx := b.direction * e.speed
    let direction := if e.x ≤ 0 ∨ e.x ≥ 740 then b.direction * -1 else b.direction
    let moved := ({ e.toGameEntity with velocity := { x := vx, y := e.velocity.y } }).update deltaTime
    { e with toGameEntity := moved,
             boss := some { b with direction := direction, lastShot := b.lastShot + deltaTime } }

/-- Class `Projectile extends GameEntity`. -/
structure Projectile extends GameEntity where
  owner : String
  deriving DecidableEq

/-- Constructor `new Projectile(x, y, direction, speed, owner)`. -/
def Projectile.new (x y direction speed : ℚ) (owner : String) : Projectile :=
  { toGameEntity := { GameEntity.new x y 4 10 (if owner = "player" then "#00ffff" else "#ff0000") with
      velocity := { x := direction * |speed|, y := speed } },
    owner := owner }

/-- Method `takeDamage` of a projectile, inherited from `GameEntity`. -/
def Projectile.takeDamage (p : Projectile) (amount : ℚ) : Projectile :=
  { p with toGameEntity := p.toGameEntity.takeDamage amount }

/-- Method `update(deltaTime)` of a projectile, inherited from `GameEntity`. -/
def Projectile.update (p : Projectile) (deltaTime : ℚ) : Projectile :=
  { p with toGameEntity := p.toGameEntity.update deltaTime }

/-- Method `BossEnemy.shoot()`; only a boss has it. -/
def Enemy.shoot (e : Enemy) : Enemy × List Projectile :=
  match e.boss with
  | none => (e, [])
  | some b =>
    if b.lastShot ≥ b.fireRate then
      ({ e with boss := some { b with lastShot := 0 } },
       [Projectile.new (e.x + e.width / 2 - 2) (e.y + e.height) 0 300 "enemy"])
    else (e, [])

/-- Class `PowerUp extends GameEntity`. -/
structure PowerUp extends GameEntity where
  type : String
  bobOffset : ℚ
  deriving DecidableEq

/-- Constructor `new PowerUp(type, x, y)`. -/
def PowerUp.new (type : String) (x y : ℚ) : PowerUp :=
  { toGameEntity := { GameEntity.new x y 20 20 "#ff6b35" with velocity := { x := 0, y := 100 } },
    type := type, bobOffset := 0 }

/-- Method `takeDamage` of a power-up, inherited from `GameEntity`. -/
def PowerUp.takeDamage (p : PowerUp) (amount : ℚ) : PowerUp :=
  { p with toGameEntity := p.toGameEntity.takeDamage amount }

/-- Method `PowerUp.update(deltaTime)`. -/
def PowerUp.update (p : PowerUp) (deltaTime : ℚ) : PowerUp :=
  { p with toGameEntity := p.toGameEntity.update deltaTime,
           bobOffset := p.bobOffset + deltaTime * 5 }

/-- Method `Player.shoot()`. -/
def Player.shoot (p : Player) : Player × List Projectile :=
  let currentFireRate : ℚ := if p.powerUps.any (fun kv => kv.1 == "rapidFire") then 0.1 else p.fireRate
  if p.lastShot ≥ currentFireRate then
    let projectiles :=
      if p.powerUps.any (fun kv => kv.1 == "multiShot") then
        [ Projectile.new (p.x + p.width / 2 - 2) p.y 0 (-500) "player",
          Projectile.new (p.x + p.width / 2 - 2) p.y (-0.3) (-500) "player",
          Projectile.new (p.x + p.width / 2 - 2) p.y 0.3 (-500) "player" ]
      else
        [ Projectile.new (p.x + p.width / 2 - 2) p.y 0 (-500) "player" ]
    ({ p with lastShot := 0 }, projectiles)
  else (p, [])


/-! ## GameEntityFactory.js -/

/-- Static method `GameEntityFactory.createPlayer(x, y)`. -/
def GameEntityFactory.createPlayer (x y : ℚ) : Player := Player.new x y

/-- Static method `GameEntityFactory.createEnemy(type, x, y)`. -/
def GameEntityFactory.createEnemy (type : String) (x y : ℚ) : Enemy :=
  if type = "basic" then BasicEnemy.new x y
  else if type = "fast" then FastEnemy.new x y
  else if type = "boss" then BossEnemy.new x y
  else BasicEnemy.new x y

/-- Static method `GameEntityFactory.createEnemyFormation(pattern, centerX, centerY)`. -/
def GameEntityFactory.createEnemyFormation (pattern : String) (centerX centerY : ℚ) : List Enemy :=
  if pattern = "diamond" then
    [ GameEntityFactory.createEnemy "basic" centerX (centerY - 40),
      GameEntityFactory.createEnemy "basic" (centerX - 30) centerY,
      GameEntityFactory.createEnemy "fast" centerX centerY,
      GameEntityFactory.createEnemy "basic" (centerX + 30) centerY,
      GameEntityFactory.createEnemy "basic" centerX (centerY + 40) ]
  else if pattern = "line" then
    (List.range 5).map (fun (i : ℕ) =>
      GameEntityFactory.createEnemy "basic" (centerX + ((i : ℚ) - 2) * 40) centerY)
  else if pattern = "v-formation" then
    (List.range 5).map (fun (i : ℕ) =>
      let offset := |(i : ℚ) - 2| * 30
      GameEntityFactory.createEnemy "fast" (centerX + ((i : ℚ) - 2) * 40) (centerY + offset))
  else
    [ GameEntityFactory.createEnemy "basic" centerX centerY ]

/-- Player states reachable in play: a new player, then any sequence of `update`,
`takeDamage`, `shoot`, `addPowerUp` and health pick-ups. -/
inductive Player.Reachable : Player → Prop where
  | new (x y : ℚ) : Player.Reachable (Player.new x y)
  | update {p : Player} (deltaTime : ℚ) (keys : Keys) :
      Player.Reachable p → Player.Reachable (p.update deltaTime keys).1
  | takeDamage {p : Player} (amount : ℚ) :
      Player.Reachable p → Player.Reachable (p.takeDamage amount).1
  | shoot {p : Player} :
      Player.Reachable p → Player.Reachable p.shoot.1
  | addPowerUp {p : Player} (type : String) :
      Player.Reachable p → Player.Reachable (p.addPowerUp type).1
  | collectHealth {p : Player} :
      Player.Reachable p → Player.Reachable p.collectHealth


/-! ## LevelManager.js -/

/-- One entry of a level's `waves` array; `formation` and `powerUpChance` may be absent. -/
structure Wave where
  type : String
  count : ℚ
  interval : ℚ
  formation : Option String
  powerUpChance : Option ℚ
  deriving DecidableEq

/-- The level object built by `generateLevelData`. -/
structure LevelData where
  id : ℚ
  name : String
  description : String
  background : String
  music : String
  waves : List Wave
  powerUps : Option (List String)
  difficulty : ℚ
  deriving DecidableEq

/-- A wave literal as written in `generateLevelData`, where all five fields are given. -/
def Wave.mk5 (type : String) (count interval : ℚ) (formation : String) (powerUpChance : ℚ) : Wave :=
  { type := type, count := count, interval := interval, formation := some formation,
    powerUpChance := some powerUpChance }

/-- Entry `1` of the `levels` object in `generateLevelData`. -/
def LevelManager.level1 : LevelData :=
  { id := 1, name := "Asteroid Field", description := "Navigate through dangerous asteroids",
    background := "space", music := "level1_theme.mp3",
    waves := [ Wave.mk5 "basic" 5 2.0 "line" 0.08,
               Wave.mk5 "fast" 5 2.0 "diamond" 0.12,
               Wave.mk5 "basic" 15 0.8 "v-formation" 0.18 ],
    powerUps := some ["rapidFire", "multiShot", "health"], difficulty := 1.0 }

/-- Entry `2` of the `levels` object in `generateLevelData`. -/
def LevelManager.level2 : LevelData :=
  { id := 2, name := "Enemy Squadron", description := "Face organized enemy forces",
    background := "nebula", music := "level2_theme.mp3",
    waves := [ Wave.mk5 "basic" 10 1.0 "line" 0.1,
               Wave.mk5 "basic" 8 1.5 "diamond" 0.15,
               Wave.mk5 "fast" 6 2.5 "v-formation" 0.2,
               Wave.mk5 "heavy" 3 4.0 "line" 0.25 ],
    powerUps := some ["rapidFire", "multiShot", "shield"], difficulty := 1.5 }

/-- Entry `3` of the `levels` object in `generateLevelData`. -/
def LevelManager.level3 : LevelData :=
  { id := 3, name := "Boss Battle", description := "Ultimate challenge against the boss",
    background := "boss_arena", music := "boss_theme.mp3",
    waves := [ Wave.mk5 "basic" 5 1.5 "line" 0.15,
               Wave.mk5 "fast" 8 1.2 "diamond" 0.2,
               Wave.mk5 "heavy" 4 3.0 "v-formation" 0.25,
               Wave.mk5 "boss" 1 5.0 "single" 0.5 ],
    powerUps := some ["rapidFire", "multiShot", "health", "shield", "megaBlast"],
    difficulty := 2.5 }

/-- Entry `4` of the `levels` object in `generateLevelData`. -/
def LevelManager.level4 : LevelData :=
  { id := 4, name := "Alien Invasion", description := "Defend against alien mothership",
    background := "alien_world", music := "level4_theme.mp3",
    waves := [ Wave.mk5 "alien" 12 0.8 "swarm" 0.1,
               Wave.mk5 "fast" 10 1.0 "diamond" 0.15,
               Wave.mk5 "heavy" 6 2.5 "line" 0.2,
               Wave.mk5 "alien" 15 0.6 "chaos" 0.25,
               Wave.mk5 "mothership" 1 8.0 "single" 0.8 ],
    powerUps := some ["rapidFire", "multiShot", "health", "shield", "megaBlast",
                      "timeFreeze"],
    difficulty := 3.0 }

/-- Entry `5` of the `levels` object in `generateLevelData`. -/
def LevelManager.level5 : LevelData :=
  { id := 5, name := "Final Showdown", description := "The ultimate test of survival",
    background := "final_battle", music := "final_boss_theme.mp3",
    waves := [ Wave.mk5 "mixed" 20 0.5 "chaos" 0.12,
               Wave.mk5 "elite" 8 2.0 "diamond" 0.18,
               Wave.mk5 "heavy" 10 1.8 "v-formation" 0.22,
               Wave.mk5 "boss" 2 6.0 "twin" 0.4,
               Wave.mk5 "finalBoss" 1 10.0 "single" 1.0 ],
    powerUps := some ["rapidFire", "multiShot", "health", "shield", "megaBlast",
                      "timeFreeze", "invincibility"],
    difficulty := 4.0 }

/-- Method `LevelManager.generateLevelData(levelNumber)`: the lookup
`levels[levelNumber] || null`; `none` is the source's `null`. -/
def LevelManager.generateLevelData (levelNumber : ℚ) : Option LevelData :=
  if levelNumber = 1 then some LevelManager.level1
  else if levelNumber = 2 then some LevelManager.level2
  else if levelNumber = 3 then some LevelManager.level3
  else if levelNumber = 4 then some LevelManager.level4
  else if levelNumber = 5 then some LevelManager.level5
  else none

/-- Fields set by the `LevelManager` constructor; `levelCache` is the `Map` from level
number to level data, in insertion order. -/
structure LevelManager where
  currentLevel : ℚ
  levelData : Option LevelData
  spawnTimer : ℚ
  waveIndex : ℕ
  enemiesSpawned : ℕ
  levelCache : List (ℚ × LevelData)
  deriving DecidableEq

/-- Constructor `new LevelManager()`. -/
def LevelManager.new : LevelManager :=
  { currentLevel := 1, levelData := none, spawnTimer := 0, waveIndex := 0,
    enemiesSpawned := 0, levelCache := [] }

/-- Method `LevelManager.resetLevelState(levelNumber)`. -/
def LevelManager.resetLevelState (lm : LevelManager) (levelNumber : ℚ) : LevelManager :=
  { lm with currentLevel := levelNumber, spawnTimer := 0, waveIndex := 0, enemiesSpawned := 0 }

/-- Method `LevelManager.spawnWaveEnemies(wave)`; `random` is the value of the one
`Math.random()` call made on either branch. -/
def LevelManager.spawnWaveEnemies (wave : Wave) (random : ℚ) : List Enemy :=
  match wave.formation with
  | some formation =>
    if formation ≠ "" ∧ formation ≠ "single" then
      let centerX := random * 600 + 100
      GameEntityFactory.createEnemyFormation formation centerX (-50)
    else
      let x := random * 750
      [GameEntityFactory.createEnemy wave.type x (-50)]
  | none =>
    let x := random * 750
    [GameEntityFactory.createEnemy wave.type x (-50)]

/-- Method `LevelManager.advanceToNextWave()`. -/
def LevelManager.advanceToNextWave (lm : LevelManager) : LevelManager :=
  { lm with waveIndex := lm.waveIndex + 1, enemiesSpawned := 0, spawnTimer := 0 }

/-- Method `LevelManager.update(deltaTime, enemies)`: the manager after the call and the
returned `newEnemies`. -/
def LevelManager.update (lm : LevelManager) (deltaTime : ℚ) (enemies : List Enemy) (random : ℚ) :
    LevelManager × List Enemy :=
  match lm.levelData with
  | none => (lm, [])
  | some levelData =>
    if h : lm.waveIndex < levelData.waves.length then
      let currentWave := levelData.waves[lm.waveIndex]
      let timed := { lm with spawnTimer := lm.spawnTimer + deltaTime }
      let spawnedEnemies :=
        if timed.spawnTimer ≥ currentWave.interval ∧ (timed.enemiesSpawned : ℚ) < currentWave.count
        then LevelManager.spawnWaveEnemies currentWave random else []
      let spawned :=
        if timed.spawnTimer ≥ currentWave.interval ∧ (timed.enemiesSpawned : ℚ) < currentWave.count
        then { timed with enemiesSpawned := timed.enemiesSpawned + spawnedEnemies.length,
                          spawnTimer := 0 }
        else timed
      let advanced :=
        if (spawned.enemiesSpawned : ℚ) ≥ currentWave.count ∧ enemies.length = 0
        then spawned.advanceToNextWave else spawned
      (advanced, spawnedEnemies)
    else (lm, [])

/-- Method `LevelManager.isLevelComplete()`; the source's `null` result counts as false. -/
def LevelManager.isLevelComplete (lm : LevelManager) : Bool :=
  match lm.levelData with
  | none => false
  | some levelData => decide (lm.waveIndex ≥ levelData.waves.length)

/-- Method `LevelManager.getCurrentPowerUpChance()`; an absent or zero chance gives 0.1. -/
def LevelManager.getCurrentPowerUpChance (lm : LevelManager) : ℚ :=
  match lm.levelData with
  | none => 0
  | some levelData =>
    match levelData.waves[lm.waveIndex]? with
    | none => 0
    | some wave =>
      match wave.powerUpChance with
      | some chance => if chance = 0 then 0.1 else chance
      | none => 0.1

/-- Method `LevelManager.getAvailablePowerUps()`. -/
def LevelManager.getAvailablePowerUps (lm : LevelManager) : List String :=
  match lm.levelData with
  | none => []
  | some levelData => levelData.powerUps.getD []

/-- Static method `GameEntityFactory.getRandomPowerUpType()`; `random` is the value of
its `Math.random()` call, the product with `types.length` is the double product, and an
index outside the list reads `undefined`, written `""`. -/
def GameEntityFactory.getRandomPowerUpType (random : ℚ) : String :=
  (["rapidFire", "multiShot", "health"][(⌊Double.mul random 3⌋).toNat]?).getD ""

/-- Static method `GameEntityFactory.createPowerUp(type, x, y)`. -/
def GameEntityFactory.createPowerUp (type : String) (x y : ℚ) (random : ℚ) : PowerUp :=
  let validTypes := ["rapidFire", "multiShot", "health"]
  let powerUpType :=
    if validTypes.contains type then type else GameEntityFactory.getRandomPowerUpType random
  PowerUp.new powerUpType x y

/-! ## main.js -/

/-- The in-memory statistics object read from `StorageManager.getStatistics()`. -/
structure Statistics where
  gamesPlayed : ℚ
  totalScore : ℚ
  enemiesDefeated : ℚ
  powerUpsCollected : ℚ
  timeSpentPlaying : ℚ
  levelsCompleted : ℚ
  deriving DecidableEq

/-- The values of the `Math.random()` calls one `update` can make, in call order. -/
structure Randoms where
  spawnX : ℚ
  dropRoll : ℚ
  dropType : ℚ
  dropX : ℚ
  fallbackType : ℚ
  deriving DecidableEq

/-- Fields of `StarRunnerGame` during a session (after `startGame`, so `player` is set).
`canvasWidth` and `canvasHeight` are the size of the canvas element and
`powerUpSpawnTimer` is the `spawnTimer` captured by `powerUpSpawnClosure`. -/
structure StarRunnerGame where
  canvasWidth : ℚ
  canvasHeight : ℚ
  gameState : String
  keys : Keys
  score : ℚ
  lives : ℚ
  lastTime : ℚ
  gameTime : ℚ
  player : Player
  enemies : List Enemy
  projectiles : List Projectile
  powerUps : List PowerUp
  levelManager : LevelManager
  statistics : Statistics
  powerUpSpawnTimer : ℚ
  deriving DecidableEq

/-- Method `gameOver(victory)`, without its writes to storage and to the page. -/
def StarRunnerGame.gameOver (g : StarRunnerGame) (_victory : Bool) : StarRunnerGame :=
  { g with gameState := "gameOver",
           statistics := { g.statistics with
             totalScore := g.statistics.totalScore + g.score,
             timeSpentPlaying := g.statistics.timeSpentPlaying + g.gameTime } }

/-- The event-bus subscriptions of `setupEventListeners`: only `playerHit` changes state. -/
def StarRunnerGame.handleEvent (g : StarRunnerGame) : Event → StarRunnerGame
  | Event.playerHit health =>
    let g1 := { g with lives := health }
    if g1.lives ≤ 0 then g1.gameOver false else g1
  | Event.powerUpActivated _ _ => g
  | Event.powerUpExpired _ => g

/-- Delivery of emitted events to the subscriptions, in emission order. -/
def StarRunnerGame.handleEvents (g : StarRunnerGame) (events : List Event) : StarRunnerGame :=
  events.foldl StarRunnerGame.handleEvent g

/-- The call `this.player.takeDamage()` with the listeners it triggers. -/
def StarRunnerGame.playerTakeDamage (g : StarRunnerGame) : StarRunnerGame :=
  let r := g.player.takeDamage 1
  ({ g with player := r.1 }).handleEvents r.2

/-- Inner loop of the first pass of `checkCollisions`,
`for (let j = n - 1; j >= 0; j--)`, for one player projectile: the game and the
projectile after the loop.  It is started with `n = enemies.length`, so the index is
always in range. -/
def StarRunnerGame.projectileVsEnemies :
    StarRunnerGame → Projectile → ℕ → StarRunnerGame × Projectile
  | g, projectile, 0 => (g, projectile)
  | g, projectile, j + 1 =>
    match g.enemies[j]? with
    | none => StarRunnerGame.projectileVsEnemies g projectile j
    | some enemy =>
      if projectile.checkCollision enemy.toGameEntity then
        let hit : Projectile := { projectile with active := false }
        let damaged := enemy.takeDamage 1
        let g1 := { g with enemies := g.enemies.set j damaged }
        let g2 :=
          if !damaged.active then
            { g1 with score := g1.score + damaged.points,
                      statistics := { g1.statistics with
                        enemiesDefeated := g1.statistics.enemiesDefeated + 1 } }
          else g1
        (g2, hit)
      else StarRunnerGame.projectileVsEnemies g projectile j

/-- First pass of `checkCollisions`, `for (let i = n - 1; i >= 0; i--)` over the
projectiles: player projectiles vs enemies. -/
def StarRunnerGame.playerProjectilesVsEnemies : StarRunnerGame → ℕ → StarRunnerGame
  | g, 0 => g
  | g, i + 1 =>
    match g.projectiles[i]? with
    | none => StarRunnerGame.playerProjectilesVsEnemies g i
    | some projectile =>
      if projectile.owner ≠ "player" then StarRunnerGame.playerProjectilesVsEnemies g i
      else
        let r := g.projectileVsEnemies projectile g.enemies.length
        StarRunnerGame.playerProjectilesVsEnemies
          { r.1 with projectiles := r.1.projectiles.set i r.2 } i

/-- Second pass of `checkCollisions`: enemy projectiles vs the player. -/
def StarRunnerGame.enemyProjectilesVsPlayer : StarRunnerGame → ℕ → StarRunnerGame
  | g, 0 => g
  | g, i + 1 =>
    match g.projectiles[i]? with
    | none => StarRunnerGame.enemyProjectilesVsPlayer g i
    | some projectile =>
      if projectile.owner ≠ "enemy" then StarRunnerGame.enemyProjectilesVsPlayer g i
      else if projectile.checkCollision g.player.toGameEntity then
        let hit : Projectile := { projectile with active := false }
        StarRunnerGame.enemyProjectilesVsPlayer
          ({ g with projectiles := g.projectiles.set i hit }).playerTakeDamage i
      else StarRunnerGame.enemyProjectilesVsPlayer g i

/-- Third pass of `checkCollisions`, `this.enemies.forEach(...)`: the game after the
enemies listed have been visited, and those enemies as the visit leaves them. -/
def StarRunnerGame.playerVsEnemies : StarRunnerGame → List Enemy → StarRunnerGame × List Enemy
  | g, [] => (g, [])
  | g, enemy :: rest =>
    if enemy.checkCollision g.player.toGameEntity then
      let r := StarRunnerGame.playerVsEnemies g.playerTakeDamage rest
      (r.1, { enemy with active := false } :: r.2)
    else
      let r := StarRunnerGame.playerVsEnemies g rest
      (r.1, enemy :: r.2)

/-- Method `collectPowerUp(powerUp)`. -/
def StarRunnerGame.collectPowerUp (g : StarRunnerGame) (powerUp : PowerUp) : StarRunnerGame :=
  let g1 := { g with statistics := { g.statistics with
    powerUpsCollected := g.statistics.powerUpsCollected + 1 } }
  if powerUp.type = "health" then
    if g1.player.health < g1.player.maxHealth then
      let player := { g1.player with health := g1.player.health + 1 }
      { g1 with player := player, lives := player.health }
    else g1
  else if powerUp.type = "rapidFire" ∨ powerUp.type = "multiShot" then
    let r := g1.player.addPowerUp powerUp.type
    ({ g1 with player := r.1 }).handleEvents r.2
  else g1

/-- Fourth pass of `checkCollisions`: the player vs power-ups. -/
def StarRunnerGame.playerVsPowerUps : StarRunnerGame → ℕ → StarRunnerGame
  | g, 0 => g
  | g, i + 1 =>
    match g.powerUps[i]? with
    | none => StarRunnerGame.playerVsPowerUps g i
    | some powerUp =>
      if powerUp.checkCollision g.player.toGameEntity then
        let g1 := g.collectPowerUp powerUp
        let collected : PowerUp := { powerUp with active := false }
        StarRunnerGame.playerVsPowerUps { g1 with powerUps := g1.powerUps.set i collected } i
      else StarRunnerGame.playerVsPowerUps g i

/-- Method `checkCollisions()`: the four passes in source order. -/
def StarRunnerGame.checkCollisions (g : StarRunnerGame) : StarRunnerGame :=
  let g1 := g.playerProjectilesVsEnemies g.projectiles.length
  let g2 := g1.enemyProjectilesVsPlayer g1.projectiles.length
  let r := g2.playerVsEnemies g2.enemies
  let g3 := { r.1 with enemies := r.2 }
  g3.playerVsPowerUps g3.powerUps.length

/-- Method `cleanupEntities()`. -/
def StarRunnerGame.cleanupEntities (g : StarRunnerGame) : StarRunnerGame :=
  { g with
    enemies := g.enemies.filter (fun enemy =>
      enemy.active && decide (enemy.y < g.canvasHeight + 50)),
    projectiles := g.projectiles.filter (fun projectile =>
      projectile.active &&
      decide (projectile.y > -50) &&
      decide (projectile.y < g.canvasHeight + 50) &&
      decide (projectile.x > -50) &&
      decide (projectile.x < g.canvasWidth + 50)),
    powerUps := g.powerUps.filter (fun powerUp =>
      powerUp.active && decide (powerUp.y < g.canvasHeight + 50)) }

/-- Method `spawnRandomPowerUp()`; an index outside the list reads `undefined`, which
`createPowerUp` treats like any other invalid type. -/
def StarRunnerGame.spawnRandomPowerUp (g : StarRunnerGame) (rs : Randoms) : StarRunnerGame :=
  let availablePowerUps := g.levelManager.getAvailablePowerUps
  if availablePowerUps.length = 0 then g
  else
    let randomType :=
      (availablePowerUps[(⌊Double.mul rs.dropType availablePowerUps.length⌋).toNat]?).getD ""
    let x := rs.dropX * (g.canvasWidth - 20)
    let powerUp := GameEntityFactory.createPowerUp randomType x (-20) rs.fallbackType
    { g with powerUps := g.powerUps ++ [powerUp] }

/-- Method `managePowerUpSpawning(deltaTime)`. -/
def StarRunnerGame.managePowerUpSpawning (g : StarRunnerGame) (deltaTime : ℚ) (rs : Randoms) :
    StarRunnerGame :=
  let spawnInterval : ℚ := 15
  let g1 := { g with powerUpSpawnTimer := g.powerUpSpawnTimer + deltaTime }
  let currentChance := g1.levelManager.getCurrentPowerUpChance
  if g1.powerUpSpawnTimer ≥ spawnInterval ∧ rs.dropRoll < currentChance then
    { g1.spawnRandomPowerUp rs with powerUpSpawnTimer := 0 }
  else g1

/-- Method `levelComplete()`. -/
def StarRunnerGame.levelComplete (g : StarRunnerGame) : StarRunnerGame :=
  ({ g with statistics := { g.statistics with
      levelsCompleted := g.statistics.levelsCompleted + 1 } }).gameOver true

/-- The `this.enemies.forEach(...)` of `update`: every enemy is updated and a boss may
shoot; the updated enemies and the projectiles pushed, in order. -/
def StarRunnerGame.updateEnemies (deltaTime : ℚ) : List Enemy → List Enemy × List Projectile
  | [] => ([], [])
  | enemy :: rest =>
    let updated := enemy.update deltaTime
    let shot := if updated.kind = EnemyKind.boss then updated.shoot else (updated, [])
    let r := StarRunnerGame.updateEnemies deltaTime rest
    (shot.1 :: r.1, shot.2 ++ r.2)

/-- The first half of `update(deltaTime)`, up to and including
`this.enemies.push(...newEnemies)`. -/
def StarRunnerGame.updateAndSpawn (g : StarRunnerGame) (deltaTime : ℚ) (rs : Randoms) :
    StarRunnerGame :=
  let p := g.player.update deltaTime g.keys
  let g1 := ({ g with player := p.1 }).handleEvents p.2
  let e := StarRunnerGame.updateEnemies deltaTime g1.enemies
  let g2 := { g1 with enemies := e.1, projectiles := g1.projectiles ++ e.2 }
  let g3 := { g2 with projectiles :=
    g2.projectiles.map (fun (projectile : Projectile) => projectile.update deltaTime) }
  let g4 := { g3 with powerUps := g3.powerUps.map (fun (powerUp : PowerUp) => powerUp.update deltaTime) }
  let l := g4.levelManager.update deltaTime g4.enemies rs.spawnX
  { g4 with levelManager := l.1, enemies := g4.enemies ++ l.2 }

/-- Method `update(deltaTime)`. -/
def StarRunnerGame.update (g : StarRunnerGame) (deltaTime : ℚ) (rs : Randoms) : StarRunnerGame :=
  let g5 := g.updateAndSpawn deltaTime rs
  let g6 := g5.checkCollisions
  let g7 := g6.cleanupEntities
  let g8 := g7.managePowerUpSpawning deltaTime rs
  if g8.levelManager.isLevelComplete ∧ g8.enemies.length = 0 then g8.levelComplete else g8

/-! ## LevelManager.js: validation of level data -/

/-- A JavaScript value as `validateLevelData` can receive one.  The entries of `object`
are the properties of a plain object, each name listed once. -/
inductive JSValue where
  | undefined
  | null
  | boolean (value : Bool)
  | number (value : ℚ)
  | string (value : String)
  | array (items : List JSValue)
  | object (properties : List (String × JSValue))

/-- Truthiness of a value, as `!value` tests it. -/
def JSValue.truthy : JSValue → Bool
  | JSValue.undefined => false
  | JSValue.null => false
  | JSValue.boolean value => value
  | JSValue.number value => decide (value ≠ 0)
  | JSValue.string value => decide (value ≠ "")
  | JSValue.array _ => true
  | JSValue.object _ => true

/-- The result of `typeof value`. -/
def JSValue.typeof : JSValue → String
  | JSValue.undefined => "undefined"
  | JSValue.null => "object"
  | JSValue.boolean _ => "boolean"
  | JSValue.number _ => "number"
  | JSValue.string _ => "string"
  | JSValue.array _ => "object"
  | JSValue.object _ => "object"

/-- The result of `Array.isArray(value)`. -/
def JSValue.isArray : JSValue → Bool
  | JSValue.array _ => true
  | _ => false

/-- The property read `value.name` for the names the level code reads (`waves`, `type`,
`count`, `interval`): `none` is the `TypeError` thrown on `undefined` and `null`, a missing
property reads `undefined`, and primitives and arrays have none of these properties. -/
def JSValue.get (value : JSValue) (name : String) : Option JSValue :=
  match value with
  | JSValue.undefined => none
  | JSValue.null => none
  | JSValue.object properties => some ((properties.lookup name).getD JSValue.undefined)
  | _ => some JSValue.undefined

/-- The test `typeof value !== 'number' || value <= 0` of the wave loop. -/
def JSValue.notPositiveNumber : JSValue → Bool
  | JSValue.number value => decide (value ≤ 0)
  | _ => true

/-- The `for (const wave of levelData.waves)` loop of `validateLevelData` with its final
`return true`; `none` is a thrown `TypeError`. -/
def LevelManager.validateWaves : List JSValue → Option Bool
  | [] => some true
  | wave :: rest =>
    match wave.get "type", wave.get "count", wave.get "interval" with
    | some type, some count, some interval =>
      if !type.truthy || !count.truthy || !interval.truthy then some false
      else if count.notPositiveNumber then some false
      else if interval.notPositiveNumber then some false
      else LevelManager.validateWaves rest
    | _, _, _ => none

/-- Method `LevelManager.validateLevelData(levelData)`; `none` is a thrown `TypeError`. -/
def LevelManager.validateLevelData (levelData : JSValue) : Option Bool :=
  if !levelData.truthy || levelData.typeof ≠ "object" then some false
  else
    match levelData.get "waves" with
    | none => none
    | some waves =>
      if !waves.truthy || !waves.isArray then some false
      else
        match waves with
        | JSValue.array items =>
          if items.length = 0 then some false else LevelManager.validateWaves items
        | _ => some false

/-- The object literal of a wave, as a JavaScript value. -/
def Wave.toJS (wave : Wave) : JSValue :=
  JSValue.object
    ([("type", JSValue.string wave.type), ("count", JSValue.number wave.count),
      ("interval", JSValue.number wave.interval)] ++
     (match wave.formation with
      | some formation => [("formation", JSValue.string formation)]
      | none => []) ++
     (match wave.powerUpChance with
      | some chance => [("powerUpChance", JSValue.number chance)]
      | none => []))

/-- The object literal of a level, as a JavaScript value. -/
def LevelData.toJS (levelData : LevelData) : JSValue :=
  JSValue.object
    ([("id", JSValue.number levelData.id), ("name", JSValue.string levelData.name),
      ("description", JSValue.string levelData.description),
      ("background", JSValue.string levelData.background),
      ("music", JSValue.string levelData.music),
      ("waves", JSValue.array (levelData.waves.map Wave.toJS))] ++
     (match levelData.powerUps with
      | some kinds => [("powerUps", JSValue.array (kinds.map JSValue.string))]
      | none => []) ++
     [("difficulty", JSValue.number levelData.difficulty)])

/-- Validity of level data as the specification words it: `waves` is a non-empty list
and every wave has `count > 0` and `interval > 0`. -/
def LevelDataValidBySpec (levelData : JSValue) : Prop :=
  ∃ properties waves, levelData = JSValue.object properties ∧
    (properties.lookup "waves").getD JSValue.undefined = JSValue.array waves ∧ waves ≠ [] ∧
    ∀ wave ∈ waves, ∃ fields count interval, wave = JSValue.object fields ∧
      (fields.lookup "count").getD JSValue.undefined = JSValue.number count ∧ 0 < count ∧
      (fields.lookup "interval").getD JSValue.undefined = JSValue.number interval ∧ 0 < interval

/-! ## LevelManager.js: loading and preloading -/

/-- The errors `loadLevel` can raise: the rejection of `fetchLevelData` for a level that
does not exist, the `Invalid level data` error thrown after a failed validation, and a
`TypeError` thrown inside `validateLevelData`. -/
inductive LoadError where
  | notFound (levelNumber : ℚ)
  | invalidData (levelNumber : ℚ)
  | typeError
  deriving DecidableEq

deriving instance DecidableEq for Except

/-- The call `levelCache.get(levelNumber)`; `none` when `levelCache.has(levelNumber)` is
false. -/
def LevelManager.cacheGet (cache : List (ℚ × LevelData)) (levelNumber : ℚ) : Option LevelData :=
  cache.lookup levelNumber

/-- The call `levelCache.set(levelNumber, levelData)`: an existing key keeps its place, a
new key goes last. -/
def LevelManager.cacheSet (cache : List (ℚ × LevelData)) (levelNumber : ℚ) (levelData : LevelData) :
    List (ℚ × LevelData) :=
  if (cache.lookup levelNumber).isSome then
    cache.map (fun entry => if entry.1 == levelNumber then (levelNumber, levelData) else entry)
  else cache ++ [(levelNumber, levelData)]

/-- What the promise of `fetchLevelData(levelNumber)` settles to once its timer fires. -/
def LevelManager.fetchLevelData (levelNumber : ℚ) : Except LoadError LevelData :=
  match LevelManager.generateLevelData levelNumber with
  | none => Except.error (LoadError.notFound levelNumber)
  | some levelData => Except.ok levelData

/-- The part of `loadLevel` before its `await`: on a cache hit the manager with the
cached level set and the cursor reset (the call then returns `true`), `none` on a miss. -/
def LevelManager.loadLevelCached (lm : LevelManager) (levelNumber : ℚ) : Option LevelManager :=
  match LevelManager.cacheGet lm.levelCache levelNumber with
  | some levelData => some (({ lm with levelData := some levelData }).resetLevelState levelNumber)
  | none => none

/-- The part of `loadLevel` after its `await`, run on the manager as it is when the fetch
settles to `fetched`: the manager afterwards, and the value returned or the error thrown. -/
def LevelManager.loadLevelFetched (lm : LevelManager) (levelNumber : ℚ)
    (fetched : Except LoadError LevelData) : LevelManager × Except LoadError Bool :=
  match fetched with
  | Except.error error => (lm, Except.error error)
  | Except.ok levelData =>
    match LevelManager.validateLevelData levelData.toJS with
    | some true =>
      (({ lm with levelCache := LevelManager.cacheSet lm.levelCache levelNumber levelData,
                  levelData := some levelData }).resetLevelState levelNumber,
       Except.ok true)
    | some false => (lm, Except.error (LoadError.invalidData levelNumber))
    | none => (lm, Except.error LoadError.typeError)

/-- The result of one `loadLevel` call: the manager afterwards, the value returned or the
error thrown, and whether `fetchLevelData` was called. -/
structure LoadResult where
  manager : LevelManager
  outcome : Except LoadError Bool
  fetched : Bool

/-- Method `loadLevel(levelNumber)` run with nothing else in between, where `fetched` is
what `fetchLevelData` would settle to. -/
def LevelManager.loadLevelWith (lm : LevelManager) (levelNumber : ℚ)
    (fetched : Except LoadError LevelData) : LoadResult :=
  match lm.loadLevelCached levelNumber with
  | some loaded => { manager := loaded, outcome := Except.ok true, fetched := false }
  | none =>
    let r := lm.loadLevelFetched levelNumber fetched
    { manager := r.1, outcome := r.2, fetched := true }

/-- Method `loadLevel(levelNumber)` with the repository's own `fetchLevelData`. -/
def LevelManager.loadLevel (lm : LevelManager) (levelNumber : ℚ) : LoadResult :=
  lm.loadLevelWith levelNumber (LevelManager.fetchLevelData levelNumber)

/-- One entry of the list `preloadLevels` returns. -/
structure PreloadResult where
  level : ℚ
  loaded : Bool
  error : Option LoadError
  deriving DecidableEq

/-- The entry `preloadLevels` builds for a level from the outcome of its `loadLevel`. -/
def PreloadResult.ofOutcome (levelNum : ℚ) : Except LoadError Bool → PreloadResult
  | Except.ok _ => { level := levelNum, loaded := true, error := none }
  | Except.error error => { level := levelNum, loaded := false, error := some error }

/-- The synchronous start of `preloadLevels`: `levelNumbers.map` runs every `loadLevel` up
to its `await`, in order.  A cache hit is finished at once; a miss leaves its slot open. -/
def LevelManager.preloadStart (lm : LevelManager) :
    List ℚ → LevelManager × List (Option PreloadResult)
  | [] => (lm, [])
  | levelNum :: rest =>
    match lm.loadLevelCached levelNum with
    | some loaded =>
      let r := LevelManager.preloadStart loaded rest
      (r.1, some (PreloadResult.ofOutcome levelNum (Except.ok true)) :: r.2)
    | none =>
      let r := LevelManager.preloadStart lm rest
      (r.1, none :: r.2)

/-- The continuation of the `loadLevel` of request `index` when its fetch settles. -/
def LevelManager.preloadSettle (levelNumbers : List ℚ)
    (state : LevelManager × List (Option PreloadResult)) (index : ℕ) :
    LevelManager × List (Option PreloadResult) :=
  match levelNumbers[index]? with
  | none => state
  | some levelNum =>
    let r := state.1.loadLevelFetched levelNum (LevelManager.fetchLevelData levelNum)
    (r.1, state.2.set index (some (PreloadResult.ofOutcome levelNum r.2)))

/-- Method `preloadLevels(levelNumbers)`.  `delay index` is the timer delay drawn for the
fetch of request `index`; pending fetches settle by increasing delay, equal delays in
request order, and `Promise.allSettled` then lists the entries in request order. -/
def LevelManager.preloadLevels (lm : LevelManager) (levelNumbers : List ℚ) (delay : ℕ → ℚ) :
    LevelManager × List PreloadResult :=
  let started := lm.preloadStart levelNumbers
  let pending := (List.range levelNumbers.length).filter (fun index =>
    (started.2.getD index none).isNone)
  let order := pending.insertionSort (fun i j => delay i ≤ delay j)
  let settled := order.foldl (LevelManager.preloadSettle levelNumbers) started
  (settled.1, settled.2.reduceOption)

/-- The state of the level cache in every manager the game can reach: each cached level
is the built-in level of its number. -/
def LevelManager.CacheSound (lm : LevelManager) : Prop :=
  ∀ levelNumber levelData, LevelManager.cacheGet lm.levelCache levelNumber = some levelData →
    LevelManager.generateLevelData levelNumber = some levelData

/-- Player states reachable in play, where damage is always the default amount 1: a new
player, then any sequence of `update`, `takeDamage()`, `shoot`, `addPowerUp` and health
pick-ups. -/
inductive Player.InPlay : Player → Prop where
  | new (x y : ℚ) : Player.InPlay (Player.new x y)
  | update {p : Player} (deltaTime : ℚ) (keys : Keys) :
      Player.InPlay p → Player.InPlay (p.update deltaTime keys).1
  | takeDamage {p : Player} : Player.InPlay p → Player.InPlay (p.takeDamage 1).1
  | shoot {p : Player} : Player.InPlay p → Player.InPlay p.shoot.1
  | addPowerUp {p : Player} (type : String) :
      Player.InPlay p → Player.InPlay (p.addPowerUp type).1
  | collectHealth {p : Player} : Player.InPlay p → Player.InPlay p.collectHealth

/-- An enemy placed `dx` further right and `dy` further down, all else equal. -/
def Enemy.moveBy (enemy : Enemy) (dx dy : ℚ) : Enemy :=
  { enemy with x := enemy.x + dx, y := enemy.y + dy }

/-- The entry `preloadLevels` returns for a level number that is not cached beforehand:
loaded when the level exists, failed with `Level not found` otherwise. -/
def PreloadResult.ofLevel (levelNum : ℚ) : PreloadResult :=
  PreloadResult.ofOutcome levelNum
    (match LevelManager.generateLevelData levelNum with
     | some _ => Except.ok true
     | none => Except.error (LoadError.notFound levelNum))

/-! ## EventBus.js -/

/-- Class `EventBus`: the own properties of the `events` object, in insertion order, each
event name with its array of callbacks.  A callback is represented by a number standing
for the identity of the function, which is all that `indexOf` compares. -/
structure EventBus where
  events : List (String × List ℕ)
  deriving DecidableEq

/-- Constructor `new EventBus()`, also the state after `clear()`. -/
def EventBus.new : EventBus := { events := [] }

/-- Method `clear()`. -/
def EventBus.clear (_bus : EventBus) : EventBus := { events := [] }

/-- The property names every plain object inherits from `Object.prototype`: for these
`this.events[event]` is a truthy value that is not an array. -/
def EventBus.objectPrototype : List String :=
  ["constructor", "__defineGetter__", "__defineSetter__", "hasOwnProperty",
   "__lookupGetter__", "__lookupSetter__", "isPrototypeOf", "propertyIsEnumerable",
   "toString", "valueOf", "__proto__", "toLocaleString"]

/-- The assignment `this.events[event] = list` and the in-place mutation of the array
stored under `event`: an existing property keeps its place, a new one goes last. -/
def EventBus.setProperty : List (String × List ℕ) → String → List ℕ → List (String × List ℕ)
  | [], event, list => [(event, list)]
  | (key, value) :: rest, event, list =>
    if key = event then (key, list) :: rest
    else (key, value) :: EventBus.setProperty rest event list

/-- Method `subscribe(event, callback)`: the bus after the `push`; `none` is the
`TypeError` raised when `event` names an inherited member, which has no `push`.  The
function it returns is `EventBus.unsubscribe` with the same `event` and `callback`. -/
def EventBus.subscribe (bus : EventBus) (event : String) (callback : ℕ) : Option EventBus :=
  if event ∈ EventBus.objectPrototype then none
  else
    let current := (bus.events.lookup event).getD []
    some { events := EventBus.setProperty bus.events event (current ++ [callback]) }

/-- A call of the function returned by `subscribe(event, callback)`: `indexOf` finds the
first occurrence of the callback and `splice` removes it; `none` is the `TypeError` raised
when `this.events[event]` is no longer an array (after `clear()`). -/
def EventBus.unsubscribe (bus : EventBus) (event : String) (callback : ℕ) : Option EventBus :=
  if event ∈ EventBus.objectPrototype then none
  else
    match bus.events.lookup event with
    | none => none
    | some list =>
      if callback ∈ list then
        some { events := EventBus.setProperty bus.events event (list.erase callback) }
      else some bus

/-- Method `getSubscriberCount(event)`; `none` for an inherited member, where the source
returns that member's own `length` instead of a count. -/
def EventBus.getSubscriberCount (bus : EventBus) (event : String) : Option ℕ :=
  if event ∈ EventBus.objectPrototype then none
  else
    match bus.events.lookup event with
    | none => some 0
    | some list => some list.length

/-- Method `getEventNames()`. -/
def EventBus.getEventNames (bus : EventBus) : List String := bus.events.map (fun kv => kv.1)

/-! ## script.js: the monolithic variant -/

/-- The `powerUps` object of the monolithic `Player`: seconds left of each timed effect. -/
structure Script.PowerUps where
  rapidFire : ℚ
  multiShot : ℚ
  shield : ℚ
  deriving DecidableEq

/-- Class `Player` of `script.js`, without the shooting fields `fireRate` and `lastShot`. -/
structure Script.Player where
  x : ℚ
  y : ℚ
  width : ℚ
  height : ℚ
  speed : ℚ
  health : ℚ
  maxHealth : ℚ
  powerUps : Script.PowerUps
  deriving DecidableEq

/-- The position and size that the overlap tests of `checkCollisions` read from a bullet,
an enemy or a power-up. -/
structure Script.Box where
  x : ℚ
  y : ℚ
  width : ℚ
  height : ℚ
  deriving DecidableEq

/-- Class `Bullet` of `script.js`. -/
structure Script.Bullet extends Script.Box where
  speed : ℚ
  isEnemy : Bool
  deriving DecidableEq

/-- Class `PowerUp` of `script.js`. -/
structure Script.PowerUp extends Script.Box where
  type : String
  deriving DecidableEq

/-- The global `gameState` object. -/
structure Script.GameState where
  current : String
  score : ℚ
  level : ℚ
  lives : ℤ
  deriving DecidableEq

/-- The global variables of `script.js` that the player-side collision passes read and
write; enemies are kept as the boxes the overlap test reads. -/
structure Script.Game where
  gameState : Script.GameState
  player : Script.Player
  bullets : List Script.Bullet
  enemies : List Script.Box
  powerUps : List Script.PowerUp
  deriving DecidableEq

/-- The `keys` object of `script.js`. -/
structure Script.Keys where
  left : Bool
  right : Bool
  up : Bool
  down : Bool
  space : Bool
  deriving DecidableEq

/-- Constructor `new Player(x, y)` of `script.js`. -/
def Script.Player.new (x y : ℚ) : Script.Player :=
  { x := x, y := y, width := 40, height := 40, speed := 5, health := 100, maxHealth := 100,
    powerUps := { rapidFire := 0, multiShot := 0, shield := 0 } }

/-- Function `initGame()`; it does not write `gameState.current`. -/
def Script.initGame (canvasWidth canvasHeight : ℚ) (g : Script.Game) : Script.Game :=
  { gameState := { g.gameState with score := 0, level := 1, lives := 3 },
    player := Script.Player.new (canvasWidth / 2 - 20) (canvasHeight - 80),
    bullets := [], enemies := [], powerUps := [] }

/-- The last three lines of `script.js`: `initGame()` and the state `menu`. -/
def Script.start (canvasWidth canvasHeight : ℚ) : Script.Game :=
  let g := Script.initGame canvasWidth canvasHeight
    { gameState := { current := "menu", score := 0, level := 1, lives := 3 },
      player := Script.Player.new 0 0, bullets := [], enemies := [], powerUps := [] }
  { g with gameState := { g.gameState with current := "menu" } }

/-- Method `Player.takeDamage(damage)` of `script.js`, which writes the player and the
global `gameState.lives`. -/
def Script.Player.takeDamage (g : Script.Game) (damage : ℚ) : Script.Game :=
  if g.player.powerUps.shield > 0 then g
  else
    let health := g.player.health - damage
    if health ≤ 0 then
      let lives := g.gameState.lives - 1
      if lives > 0 then
        { g with gameState := { g.gameState with lives := lives },
                 player := { g.player with health := g.player.maxHealth,
                                           powerUps := { g.player.powerUps with shield := 2 } } }
      else
        { g with gameState := { g.gameState with lives := lives },
                 player := { g.player with health := 0 } }
    else { g with player := { g.player with health := health } }

/-- Method `PowerUp.applyTo(player)` of `script.js`. -/
def Script.PowerUp.applyTo (powerUp : Script.PowerUp) (player : Script.Player) : Script.Player :=
  if powerUp.type = "health" then
    { player with health := min player.maxHealth (player.health + 30) }
  else if powerUp.type = "rapidFire" then
    { player with powerUps := { player.powerUps with
        rapidFire := max player.powerUps.rapidFire 8 } }
  else if powerUp.type = "multiShot" then
    { player with powerUps := { player.powerUps with
        multiShot := max player.powerUps.multiShot 10 } }
  else if powerUp.type = "shield" then
    { player with powerUps := { player.powerUps with shield := max player.powerUps.shield 6 } }
  else player

/-- The overlap test written out in each pass of `checkCollisions` of `script.js`. -/
def Script.Box.overlaps (box : Script.Box) (player : Script.Player) : Bool :=
  decide (box.x < player.x + player.width) && decide (box.x + box.width > player.x) &&
  decide (box.y < player.y + player.height) && decide (box.y + box.height > player.y)

/-- Method `Player.update(deltaTime)` of `script.js` without its shooting block, which
only pushes bullets and writes `lastShot`. -/
def Script.Player.update (player : Script.Player) (deltaTime : ℚ) (keys : Script.Keys)
    (canvasWidth canvasHeight : ℚ) : Script.Player :=
  let x1 := if keys.left ∧ player.x > 0 then player.x - player.speed else player.x
  let x2 := if keys.right ∧ x1 < canvasWidth - player.width then x1 + player.speed else x1
  let y1 := if keys.up ∧ player.y > 0 then player.y - player.speed else player.y
  let y2 := if keys.down ∧ y1 < canvasHeight - player.height then y1 + player.speed else y1
  let tick := fun (left : ℚ) => if left > 0 then left - deltaTime / 1000 else left
  { player with x := x2, y := y2,
                powerUps := { rapidFire := tick player.powerUps.rapidFire,
                              multiShot := tick player.powerUps.multiShot,
                              shield := tick player.powerUps.shield } }

/-! ## calculator-app/script.js -/

/-- The built-ins of the language that the calculator calls, over a type `α` of number
values that includes `NaN`: `parseFloat`, `isNaN`, the test `b === 0`, the four arithmetic
operators and `Number.prototype.toString`.  The only fact used about them is that
`parseFloat("")` is `NaN`. -/
structure NumberBuiltins (α : Type) where
  parseFloat : String → α
  isNaN : α → Bool
  isZero : α → Bool
  add : α → α → α
  sub : α → α → α
  mul : α → α → α
  div : α → α → α
  toString : α → String
  parseFloat_empty : isNaN (parseFloat "") = true

/-- The fields of the `calculator` object; `operator` is `none` for the source's `null`. -/
structure Calculator where
  currentInput : String
  operator : Option String
  previousInput : String
  deriving DecidableEq

/-- What a function of `calculator.operations` returns: a number, or the string that the
division returns for a zero divisor. -/
inductive Calculator.Result (α : Type) where
  | number (value : α)
  | text (value : String)

/-- The call `result.toString()` in `calculate`. -/
def Calculator.Result.toString {α : Type} (builtins : NumberBuiltins α) :
    Calculator.Result α → String
  | Calculator.Result.number value => builtins.toString value
  | Calculator.Result.text value => value

/-- The look-up `this.operations[this.operator]`: the four own properties of
`operations`; `none` is the source's `undefined`, which `calculate` cannot call. -/
def Calculator.operations {α : Type} (builtins : NumberBuiltins α) (operator : Option String) :
    Option (α → α → Calculator.Result α) :=
  if operator = some "+" then some (fun a b => Calculator.Result.number (builtins.add a b))
  else if operator = some "-" then some (fun a b => Calculator.Result.number (builtins.sub a b))
  else if operator = some "*" then some (fun a b => Calculator.Result.number (builtins.mul a b))
  else if operator = some "/" then
    some (fun a b =>
      if builtins.isZero b then Calculator.Result.text "Error"
      else Calculator.Result.number (builtins.div a b))
  else none

/-- The initial values of the `calculator` object. -/
def Calculator.initial : Calculator := { currentInput := "", operator := none, previousInput := "" }

/-- Method `clear()`. -/
def Calculator.clear (_c : Calculator) : Calculator :=
  { currentInput := "", previousInput := "", operator := none }

/-- Method `appendNumber(num)`. -/
def Calculator.appendNumber (c : Calculator) (num : String) : Calculator :=
  if num = "." ∧ '.' ∈ c.currentInput.toList then c
  else { c with currentInput := c.currentInput ++ num }

/-- Method `calculate()`; `none` is the `TypeError` raised when `operation` is not a
function. -/
def Calculator.calculate {α : Type} (builtins : NumberBuiltins α) (c : Calculator) :
    Option Calculator :=
  let prev := builtins.parseFloat c.previousInput
  let curr := builtins.parseFloat c.currentInput
  if builtins.isNaN prev ∨ builtins.isNaN curr then some c
  else
    match Calculator.operations builtins c.operator with
    | none => none
    | some operation =>
      let result := operation prev curr
      some { currentInput := result.toString builtins, operator := none, previousInput := "" }

/-- Method `chooseOperator(op)`; it fails when its call of `calculate` fails. -/
def Calculator.chooseOperator {α : Type} (builtins : NumberBuiltins α) (c : Calculator)
    (op : String) : Option Calculator :=
  if c.currentInput = "" then some c
  else
    (if c.previousInput ≠ "" then c.calculate builtins else some c).map
      (fun c1 => { operator := some op, previousInput := c1.currentInput, currentInput := "" })

/-- One click on a button of the calculator. -/
inductive CalculatorCall where
  | appendNumber (num : String)
  | chooseOperator (op : String)
  | calculate
  | clear
  deriving DecidableEq

/-- The calculator after one click, `none` when the handler throws. -/
def Calculator.call {α : Type} (builtins : NumberBuiltins α) (c : Calculator) :
    CalculatorCall → Option Calculator
  | CalculatorCall.appendNumber num => some (c.appendNumber num)
  | CalculatorCall.chooseOperator op => c.chooseOperator builtins op
  | CalculatorCall.calculate => c.calculate builtins
  | CalculatorCall.clear => some c.clear

/-- The calculator after a sequence of clicks, first click first, `none` when one of the
handlers throws. -/
def Calculator.run {α : Type} (builtins : NumberBuiltins α) :
    Calculator → List CalculatorCall → Option Calculator
  | c, [] => some c
  | c, call :: rest =>
    match c.call builtins call with
    | none => none
    | some next => Calculator.run builtins next rest

/-! ## Concrete sessions used as inputs -/

/-- A session on built-in level 1 with the fields `startGame` sets (score 0, lives 3, a new
player at (385, 500), empty collections, cursor reset), on an 800 by 600 canvas; the level
cache, which no tick reads, is left empty. -/
def exampleSession : StarRunnerGame :=
  { canvasWidth := 800, canvasHeight := 600, gameState := "playing",
    keys := { ArrowLeft := false, ArrowRight := false, ArrowUp := false, ArrowDown := false },
    score := 0, lives := 3, lastTime := 0, gameTime := 0,
    player := GameEntityFactory.createPlayer 385 500,
    enemies := [], projectiles := [], powerUps := [],
    levelManager :=
      ({ LevelManager.new with levelData := LevelManager.generateLevelData 1 }).resetLevelState 1,
    statistics := { gamesPlayed := 1, totalScore := 0, enemiesDefeated := 0,
                    powerUpsCollected := 0, timeSpentPlaying := 0, levelsCompleted := 0 },
    powerUpSpawnTimer := 0 }

/-- Two player projectiles of one multi-shot volley overlapping the same basic enemy. -/
def doubleHitSession : StarRunnerGame :=
  { exampleSession with
    enemies := [BasicEnemy.new 380 100],
    projectiles := [Projectile.new 390 110 0 (-500) "player",
                    Projectile.new 392 110 (-0.3) (-500) "player"] }

/-- One player projectile overlapping two enemies: a basic enemy inserted first and a fast
enemy inserted second. -/
def twoEnemiesSession : StarRunnerGame :=
  { exampleSession with
    enemies := [BasicEnemy.new 380 100, FastEnemy.new 385 105],
    projectiles := [Projectile.new 390 110 0 (-500) "player"] }

/-- A caller that invokes `update(deltaTime, enemies)` once per entry of `calls` (each
with the value its `Math.random()` call would return): the manager after the calls and,
for each call in order, the wave index at the time of the call and the batch returned. -/
def LevelManager.updates (lm : LevelManager) :
    List (ℚ × List Enemy × ℚ) → LevelManager × List (ℕ × List Enemy)
  | [] => (lm, [])
  | (deltaTime, enemies, random) :: rest =>
    let r := lm.update deltaTime enemies random
    let t := LevelManager.updates r.1 rest
    (t.1, (lm.waveIndex, r.2) :: t.2)

/-- The number of spawn events fired for wave `waveIndex` in a trace of `updates`: the
calls made at that wave index that returned a non-empty batch. -/
def spawnEventsOfWave (waveIndex : ℕ) (trace : List (ℕ × List Enemy)) : ℕ :=
  (trace.filter (fun call => call.1 == waveIndex && !call.2.isEmpty)).length

/-- A level whose only wave is `{count: 5, interval: 1.0, formation: 'line'}` of basic
enemies, loaded into a manager whose cursor is freshly reset. -/
def lineWaveManager : LevelManager :=
  ({ LevelManager.new with
     levelData := some { id := 1, name := "", description := "", background := "", music := "",
                         waves := [Wave.mk5 "basic" 5 1.0 "line" 0.1],
                         powerUps := none, difficulty := 1 } }).resetLevelState 1

/-- The orchestrator calling `update(deltaTime)` `n` times in a row, with the same random
draws each time. -/
def StarRunnerGame.ticks (g : StarRunnerGame) (deltaTime : ℚ) (rs : Randoms) : ℕ → StarRunnerGame
  | 0 => g
  | n + 1 => (StarRunnerGame.ticks g deltaTime rs n).update deltaTime rs

/-- Random draws used in the concrete runs: every `Math.random()` call returns 0.5. -/
def halfRandoms : Randoms :=
  { spawnX := 0.5, dropRoll := 0.5, dropType := 0.5, dropX := 0.5, fallbackType := 0.5 }

/-- Level data whose only wave has a positive count and interval but no `type`. -/
def typelessWaveLevel : JSValue :=
  JSValue.object
    [("waves", JSValue.array
      [JSValue.object [("count", JSValue.number 5), ("interval", JSValue.number 1)]])]

/-- A level literal whose second of three waves has `count: 0`. -/
def zeroCountLevel : LevelData :=
  { LevelManager.level1 with
    waves := [ Wave.mk5 "basic" 5 2.0 "line" 0.08,
               Wave.mk5 "fast" 0 2.0 "diamond" 0.12,
               Wave.mk5 "basic" 15 0.8 "v-formation" 0.18 ] }

/-- A level literal with an empty wave list. -/
def emptyWavesLevel : LevelData :=
  { LevelManager.level1 with waves := [] }

/-- A boss with full health 10 whose box overlaps the player, next to a basic enemy far
from the player. -/
def bossContactSession : StarRunnerGame :=
  { exampleSession with enemies := [BossEnemy.new 370 480, BasicEnemy.new 100 100] }

/-- A player in play with health 2 and rapid fire running with 4 seconds left: hit once,
rapid fire collected, then 6 seconds of updates with no key held. -/
def buffedPlayer : Player :=
  ((((Player.new 385 500).takeDamage 1).1.addPowerUp "rapidFire").1.update 6
    { ArrowLeft := false, ArrowRight := false, ArrowUp := false, ArrowDown := false }).1

/-- A session in which that player overlaps a `rapidFire` and a `health` power-up while a
`multiShot` power-up is far away. -/
def powerUpSession : StarRunnerGame :=
  { exampleSession with
    player := buffedPlayer, lives := 2,
    powerUps := [PowerUp.new "multiShot" 100 100, PowerUp.new "rapidFire" 390 510,
                 PowerUp.new "health" 380 505] }

/-- Level data whose wave list holds `null` before a wave with `count: 0`. -/
def nullEntryLevel : JSValue :=
  JSValue.object
    [("waves", JSValue.array
      [JSValue.null,
       JSValue.object [("type", JSValue.string "basic"), ("count", JSValue.number 0),
                       ("interval", JSValue.number 2)]])]

/-- The example session right after the second wave of level 1 spawned its `diamond`
formation with the draw `1/2` (centre at x = 400). -/
def diamondSpawnSession : StarRunnerGame :=
  { exampleSession with
    enemies := LevelManager.spawnWaveEnemies (Wave.mk5 "fast" 5 2.0 "diamond" 0.12) (1 / 2) }

/-- One call made on the player object between two collections of a power-up. -/
inductive PlayerCall where
  | update (deltaTime : ℚ) (keys : Keys)
  | takeDamage (amount : ℚ)
  | shoot
  | collectHealth
  | addPowerUp (type : String)
  deriving DecidableEq

/-- The player after one call; emitted events and returned projectiles are dropped. -/
def Player.call (p : Player) : PlayerCall → Player
  | PlayerCall.update deltaTime keys => (p.update deltaTime keys).1
  | PlayerCall.takeDamage amount => (p.takeDamage amount).1
  | PlayerCall.shoot => p.shoot.1
  | PlayerCall.collectHealth => p.collectHealth
  | PlayerCall.addPowerUp type => (p.addPowerUp type).1

/-- The player after a sequence of calls, first call first. -/
def Player.calls (p : Player) (calls : List PlayerCall) : Player :=
  calls.foldl Player.call p

/-- The remaining duration of one buff followed through a sequence of calls that do not
collect it again: each `update` subtracts its delta-time in double arithmetic, and the
buff is gone for good once the difference is at or below zero. -/
def Player.buffAfter : Option ℚ → List PlayerCall → Option ℚ
  | left, [] => left
  | left, PlayerCall.update deltaTime _ :: rest =>
    Player.buffAfter
      (left.bind (fun duration =>
        if Double.sub duration deltaTime ≤ 0 then none
        else some (Double.sub duration deltaTime))) rest
  | left, _ :: rest => Player.buffAfter left rest

/-- State of the entries stored under `type` when the buff has `left` remaining: with
`some duration` there is an entry and every entry carries that duration, with `none`
there is no entry. -/
def Player.BuffLeft (powerUps : List (String × ℚ)) (type : String) : Option ℚ → Prop
  | some duration =>
    (∃ kv ∈ powerUps, kv.1 = type) ∧ ∀ kv ∈ powerUps, kv.1 = type → kv.2 = duration
  | none => ∀ kv ∈ powerUps, kv.1 ≠ type

/-- The double nearest to 0.1. -/
def Double.oneTenth : ℚ := 3602879701896397 / 2 ^ 55

/-- The double nearest to 10/47. -/
def Double.tenFortySevenths : ℚ := 7665701493396589 / 2 ^ 55

/-- Managers in use after a level was loaded: the manager a successful `loadLevel` leaves
behind (from the cache, or fetched and validated), then any number of `update` calls. -/
inductive LevelManager.Running : LevelManager → Prop where
  | loaded (lm : LevelManager) (levelNumber : ℚ) (fetched : Except LoadError LevelData) :
      (lm.loadLevelWith levelNumber fetched).outcome = Except.ok true →
      LevelManager.Running (lm.loadLevelWith levelNumber fetched).manager
  | update {lm : LevelManager} (deltaTime : ℚ) (enemies : List Enemy) (random : ℚ) :
      LevelManager.Running lm → LevelManager.Running (lm.update deltaTime enemies random).1

/-- Method `getCurrentWaveProgress()`; `Math.round` rounds to the nearest integer with
halves going up, and `none` stands for the non-finite result of a wave whose `count` is 0. -/
def LevelManager.getCurrentWaveProgress (lm : LevelManager) : Option ℤ :=
  match lm.levelData with
  | none => some 100
  | some levelData =>
    if h : lm.waveIndex < levelData.waves.length then
      let currentWave := levelData.waves[lm.waveIndex]
      if currentWave.count = 0 then none
      else some ⌊((lm.enemiesSpawned : ℚ) / currentWave.count) * 100 + 1 / 2⌋
    else some 100

/-- Built-in level 2 loaded into a new manager and driven through its first wave (two
batches of five, then a call with no live enemy) and two spawn batches of its second wave,
`{count: 8, interval: 1.5, formation: 'diamond'}`, while an enemy is alive. -/
def overshootManager : LevelManager :=
  ((LevelManager.new.loadLevel 2).manager.updates
    [(1, [BasicEnemy.new 400 100], 0.5), (1, [BasicEnemy.new 400 100], 0.5), (0, [], 0.5),
     (1.5, [BasicEnemy.new 400 100], 0.5), (1.5, [BasicEnemy.new 400 100], 0.5)]).1

/-- Method `gameLoop(currentTime)`: the game after the call and the delta-time it passed
to `update`, `none` when it returned at once because the state is not `playing`.  The
frame it requests is the next call, made by the browser with that frame's timestamp. -/
def StarRunnerGame.gameLoop (g : StarRunnerGame) (currentTime : ℚ) (rs : Randoms) :
    StarRunnerGame × Option ℚ :=
  if g.gameState ≠ "playing" then (g, none)
  else
    let deltaTime := min ((currentTime - g.lastTime) / 1000) 0.016
    let g1 := { g with lastTime := currentTime, gameTime := g.gameTime + deltaTime }
    (g1.update deltaTime rs, some deltaTime)

/-- Method `pauseGame()`. -/
def StarRunnerGame.pauseGame (g : StarRunnerGame) : StarRunnerGame :=
  if g.gameState = "playing" then { g with gameState := "paused" } else g

/-- Method `resumeGame()`, where `now` is the value of `performance.now()`; the call
`this.gameLoop()` passes no argument, so `currentTime` takes its default 0. -/
def StarRunnerGame.resumeGame (g : StarRunnerGame) (now : ℚ) (rs : Randoms) :
    StarRunnerGame × Option ℚ :=
  if g.gameState = "paused" then
    ({ g with gameState := "playing", lastTime := now }).gameLoop 0 rs
  else (g, none)

/-- Method `goToMainMenu()`. -/
def StarRunnerGame.goToMainMenu (g : StarRunnerGame) : StarRunnerGame :=
  { g with gameState := "menu" }

/-- Method `startGame()` with nothing else run during its `await`: `selectedLevel` is the
parsed level selection, `fetched` what `fetchLevelData` would settle to and `now` the value
of `performance.now()`.  When `loadLevel` throws (or returns a falsy value) the error path
is taken, whose timer calls `goToMainMenu`. -/
def StarRunnerGame.startGame (g : StarRunnerGame) (selectedLevel : ℚ)
    (fetched : Except LoadError LevelData) (now : ℚ) (rs : Randoms) :
    StarRunnerGame × Option ℚ :=
  let loaded := g.levelManager.loadLevelWith selectedLevel fetched
  let g1 := { g with levelManager := loaded.manager }
  match loaded.outcome with
  | Except.ok true =>
    let g2 := { g1 with gameState := "playing", score := 0, lives := 3, gameTime := 0,
                        player := GameEntityFactory.createPlayer 385 500,
                        enemies := [], projectiles := [], powerUps := [],
                        statistics := { g1.statistics with
                          gamesPlayed := g1.statistics.gamesPlayed + 1 },
                        lastTime := now }
    g2.gameLoop 0 rs
  | _ => (g1.goToMainMenu, none)

/-- One call of a transition of the session state machine. -/
inductive SessionCall where
  | startGame (selectedLevel : ℚ) (fetched : Except LoadError LevelData) (now : ℚ)
      (rs : Randoms)
  | pauseGame
  | resumeGame (now : ℚ) (rs : Randoms)
  | gameOver (victory : Bool)
  | goToMainMenu

/-- The game after one transition call. -/
def StarRunnerGame.session (g : StarRunnerGame) : SessionCall → StarRunnerGame
  | SessionCall.startGame selectedLevel fetched now rs =>
    (g.startGame selectedLevel fetched now rs).1
  | SessionCall.pauseGame => g.pauseGame
  | SessionCall.resumeGame now rs => (g.resumeGame now rs).1
  | SessionCall.gameOver victory => g.gameOver victory
  | SessionCall.goToMainMenu => g.goToMainMenu

/-- Relation between the game before and after a stretch of `update`: the session state
is as before, or `gameOver` was called. -/
def StarRunnerGame.StateKept (g after : StarRunnerGame) : Prop :=
  after.gameState = g.gameState ∨ after.gameState = "gameOver"

/-- The example session after the player pressed the pause key. -/
def pausedSession : StarRunnerGame := exampleSession.pauseGame

/-- A new bus on which the same callback, numbered 7, was subscribed twice to `playerHit`. -/
def doubleSubscription : Option EventBus :=
  (EventBus.new.subscribe "playerHit" 7).bind (fun bus => bus.subscribe "playerHit" 7)

/-- Second pass of `checkCollisions` of `script.js`, `for (let i = n - 1; i >= 0; i--)`:
every enemy bullet that overlaps the player is spliced out and deals 15 damage. -/
def Script.enemyBulletsVsPlayer : Script.Game → ℕ → Script.Game
  | g, 0 => g
  | g, i + 1 =>
    match g.bullets[i]? with
    | none => Script.enemyBulletsVsPlayer g i
    | some bullet =>
      if !bullet.isEnemy then Script.enemyBulletsVsPlayer g i
      else if bullet.toBox.overlaps g.player then
        Script.enemyBulletsVsPlayer
          (Script.Player.takeDamage { g with bullets := g.bullets.eraseIdx i } 15) i
      else Script.enemyBulletsVsPlayer g i

/-- Third pass of `checkCollisions` of `script.js`: every enemy that overlaps the player
is spliced out and deals 25 damage. -/
def Script.playerVsEnemies : Script.Game → ℕ → Script.Game
  | g, 0 => g
  | g, i + 1 =>
    match g.enemies[i]? with
    | none => Script.playerVsEnemies g i
    | some enemy =>
      if enemy.overlaps g.player then
        Script.playerVsEnemies
          (Script.Player.takeDamage { g with enemies := g.enemies.eraseIdx i } 25) i
      else Script.playerVsEnemies g i

/-- Fourth pass of `checkCollisions` of `script.js`: every power-up that overlaps the
player is applied to it and spliced out. -/
def Script.playerVsPowerUps : Script.Game → ℕ → Script.Game
  | g, 0 => g
  | g, i + 1 =>
    match g.powerUps[i]? with
    | none => Script.playerVsPowerUps g i
    | some powerUp =>
      if powerUp.toBox.overlaps g.player then
        Script.playerVsPowerUps
          { g with player := powerUp.applyTo g.player, powerUps := g.powerUps.eraseIdx i } i
      else Script.playerVsPowerUps g i

/-- The passes of `checkCollisions` of `script.js` that involve the player, in source
order, run on the collections as the bullet-versus-enemy pass left them. -/
def Script.checkCollisions (g : Script.Game) : Script.Game :=
  let g2 := Script.enemyBulletsVsPlayer g g.bullets.length
  let g3 := Script.playerVsEnemies g2 g2.enemies.length
  Script.playerVsPowerUps g3 g3.powerUps.length

/-- Function `update(deltaTime)` of `script.js`.  The movement of bullets, enemies and
power-ups, the spawning and the bullet-versus-enemy pass touch neither the player nor the
lives; `bullets`, `enemies` and `powerUps` are the collections as those steps leave them. -/
def Script.update (g : Script.Game) (deltaTime : ℚ) (keys : Script.Keys)
    (canvasWidth canvasHeight : ℚ) (bullets : List Script.Bullet) (enemies : List Script.Box)
    (powerUps : List Script.PowerUp) : Script.Game :=
  if g.gameState.current ≠ "playing" then g
  else
    let g1 := { g with player := g.player.update deltaTime keys canvasWidth canvasHeight,
                       bullets := bullets, enemies := enemies, powerUps := powerUps }
    let g2 := Script.checkCollisions g1
    if g2.gameState.lives ≤ 0 then
      { g2 with gameState := { g2.gameState with current := "gameOver" } }
    else g2

/-- The `Space` case of the `keydown` listener of `script.js`. -/
def Script.pressSpace (g : Script.Game) (canvasWidth canvasHeight : ℚ) : Script.Game :=
  if g.gameState.current = "menu" ∨ g.gameState.current = "gameOver" then
    let g1 := Script.initGame canvasWidth canvasHeight g
    { g1 with gameState := { g1.gameState with current := "playing" } }
  else g

/-- The states of the monolithic game: the state the script starts in, then any sequence
of `Space` presses and `update` ticks. -/
inductive Script.Reachable (canvasWidth canvasHeight : ℚ) : Script.Game → Prop where
  | start : Script.Reachable canvasWidth canvasHeight (Script.start canvasWidth canvasHeight)
  | pressSpace {g : Script.Game} : Script.Reachable canvasWidth canvasHeight g →
      Script.Reachable canvasWidth canvasHeight (Script.pressSpace g canvasWidth canvasHeight)
  | update {g : Script.Game} (deltaTime : ℚ) (keys : Script.Keys)
      (bullets : List Script.Bullet) (enemies : List Script.Box)
      (powerUps : List Script.PowerUp) :
      Script.Reachable canvasWidth canvasHeight g →
      Script.Reachable canvasWidth canvasHeight
        (Script.update g deltaTime keys canvasWidth canvasHeight bullets enemies powerUps)

/-- No key held. -/
def Script.noKeys : Script.Keys :=
  { left := false, right := false, up := false, down := false, space := false }

/-- An enemy of 30 by 30 on top of the starting place of the player on the 800 by 600
canvas. -/
def Script.rammingEnemy : Script.Box := { x := 385, y := 525, width := 30, height := 30 }

/-- A game started with `Space` on an 800 by 600 canvas in which four enemies ram the
player in each of two ticks three seconds apart, costing a life each time, and five
enemies ram it in a third tick. -/
def Script.rammedGame : Script.Game :=
  Script.update
    (Script.update
      (Script.update (Script.pressSpace (Script.start 800 600) 800 600) 16 Script.noKeys 800 600
        [] [Script.rammingEnemy, Script.rammingEnemy, Script.rammingEnemy, Script.rammingEnemy]
        [])
      3000 Script.noKeys 800 600
      [] [Script.rammingEnemy, Script.rammingEnemy, Script.rammingEnemy, Script.rammingEnemy] [])
    3000 Script.noKeys 800 600
    [] [Script.rammingEnemy, Script.rammingEnemy, Script.rammingEnemy, Script.rammingEnemy,
        Script.rammingEnemy] []

/-- The leading decimal digits of a character list: their value, their number, and the
characters after them. -/
def Decimal.takeDigits : List Char → ℕ → ℕ → ℕ × ℕ × List Char
  | [], value, count => (value, count, [])
  | ch :: rest, value, count =>
    if ch.isDigit then Decimal.takeDigits rest (value * 10 + (ch.toNat - 48)) (count + 1)
    else (value, count, ch :: rest)

/-- The built-in `parseFloat` on plain decimal text: an optional sign, digits, and an
optional point with more digits, read from the start of the string; `none` is `NaN`, the
result when no digit is found. -/
def Decimal.parseFloat (s : String) : Option ℚ :=
  let signed : Bool × List Char :=
    match s.toList with
    | '-' :: rest => (true, rest)
    | '+' :: rest => (false, rest)
    | chars => (false, chars)
  let whole := Decimal.takeDigits signed.2 0 0
  let fraction : ℕ × ℕ × List Char :=
    match whole.2.2 with
    | '.' :: rest => Decimal.takeDigits rest 0 0
    | _ => (0, 0, [])
  if whole.2.1 + fraction.2.1 = 0 then none
  else
    let magnitude : ℚ := (whole.1 : ℚ) + (fraction.1 : ℚ) / 10 ^ fraction.2.1
    some (if signed.1 then -magnitude else magnitude)

/-- The digits after the point of `remainder / denominator`, at most `fuel` of them. -/
def Decimal.fractionDigits : ℕ → ℕ → ℕ → List Char
  | 0, _, _ => []
  | fuel + 1, remainder, denominator =>
    if remainder = 0 then []
    else
      Char.ofNat (48 + remainder * 10 / denominator) ::
        Decimal.fractionDigits fuel (remainder * 10 % denominator) denominator

/-- The built-in `toString` on exact decimal numbers, with at most 16 digits after the
point; `NaN` prints as `NaN`. -/
def Decimal.toString : Option ℚ → String
  | none => "NaN"
  | some q =>
    let sign := if q < 0 then "-" else ""
    let whole := q.num.natAbs / q.den
    let digits := Decimal.fractionDigits 16 (q.num.natAbs % q.den) q.den
    sign ++ (Nat.repr whole) ++ (if digits = [] then "" else "." ++ String.mk digits)

/-- The built-ins on exact decimal numbers: rationals stand in for the doubles, which
agrees with the language on the sums, differences and products of short decimal inputs. -/
def exactDecimals : NumberBuiltins (Option ℚ) :=
  { parseFloat := Decimal.parseFloat,
    isNaN := fun a => a.isNone,
    isZero := fun b => b == some 0,
    add := fun a b => a.bind (fun x => b.map (fun y => x + y)),
    sub := fun a b => a.bind (fun x => b.map (fun y => x - y)),
    mul := fun a b => a.bind (fun x => b.map (fun y => x * y)),
    div := fun a b => a.bind (fun x => b.bind (fun y => if y = 0 then none else some (x / y))),
    toString := Decimal.toString,
    parseFloat_empty := rfl }

/-- The clicks `8`, `/`, `0`, `=`. -/
def divisionByZeroClicks : List CalculatorCall :=
  [CalculatorCall.appendNumber "8", CalculatorCall.chooseOperator "/",
   CalculatorCall.appendNumber "0", CalculatorCall.calculate]

/-! ## Entity lifecycle -/

/-- `Player.update` leaves health and the active flag alone. -/
theorem Player.update_health_active (p : Player) (deltaTime : ℚ) (keys : Keys) :
    (p.update deltaTime keys).1.health = p.health ∧
    (p.update deltaTime keys).1.active = p.active := ⟨rfl, rfl⟩

/-- `Player.shoot` changes `lastShot` only. -/
theorem Player.shoot_fields (p : Player) :
    p.shoot.1.toGameEntity = p.toGameEntity ∧ p.shoot.1.invulnerable = p.invulnerable ∧
    p.shoot.1.invulnerabilityTime = p.invulnerabilityTime := by
  simp only [Player.shoot]
  split_ifs <;> exact ⟨rfl, rfl, rfl⟩

/-- `Player.takeDamage` of an invulnerable player returns the player and no event. -/
theorem Player.takeDamage_invulnerable (p : Player) (amount : ℚ) (h : p.invulnerable = true) :
    p.takeDamage amount = (p, []) := by
  simp [Player.takeDamage, h]

/-- `Player.takeDamage` of a vulnerable player applies the inherited `takeDamage`, starts
the two-second invulnerability and emits `playerHit` with the new health. -/
theorem Player.takeDamage_vulnerable (p : Player) (amount : ℚ) (h : p.invulnerable = false) :
    p.takeDamage amount =
      ({ p with toGameEntity := p.toGameEntity.takeDamage amount, invulnerable := true,
                invulnerabilityTime := 2.0 },
       [Event.playerHit (p.toGameEntity.takeDamage amount).health]) := by
  simp [Player.takeDamage, h]

/-- The inherited `takeDamage` never reactivates and deactivates at health zero or less. -/
theorem GameEntity.takeDamage_active (e : GameEntity) (amount : ℚ) :
    (e.active = false → (e.takeDamage amount).active = false) ∧
    ((e.takeDamage amount).health ≤ 0 → (e.takeDamage amount).active = false) := by
  constructor
  · intro h
    simp [GameEntity.takeDamage, h]
  · intro h
    simp only [GameEntity.takeDamage] at h ⊢
    simp [h]

/-- In every reachable player state a health of zero or less means the player is inactive. -/
theorem Player.Reachable.inactive_of_health_nonpos {p : Player} (h : p.Reachable) :
    p.health ≤ 0 → p.active = false := by
  induction h with
  | new x y =>
    intro h0
    have h3 : (3 : ℚ) ≤ 0 := h0
    norm_num at h3
  | @update q deltaTime keys _ ih =>
    rw [(q.update_health_active deltaTime keys).1, (q.update_health_active deltaTime keys).2]
    exact ih
  | @takeDamage q amount _ ih =>
    cases hinv : q.invulnerable
    · rw [q.takeDamage_vulnerable amount hinv]
      exact (q.toGameEntity.takeDamage_active amount).2
    · rw [q.takeDamage_invulnerable amount hinv]
      exact ih
  | @shoot q _ ih =>
    rw [q.shoot_fields.1]
    exact ih
  | @addPowerUp q type _ ih => exact ih
  | @collectHealth q _ ih =>
    unfold Player.collectHealth
    split
    · intro h0
      have h1 : q.health + 1 ≤ 0 := h0
      exact ih (by linarith)
    · exact ih

/-- In every reachable player state a positive invulnerability timer means the
invulnerable flag is set. -/
theorem Player.Reachable.invulnerable_of_timer_pos {p : Player} (h : p.Reachable) :
    0 < p.invulnerabilityTime → p.invulnerable = true := by
  induction h with
  | new x y =>
    intro h0
    have h3 : (0 : ℚ) < 0 := h0
    norm_num at h3
  | @update q deltaTime keys _ ih =>
    intro h0
    cases hinv : q.invulnerable
    · have h1 : 0 < q.invulnerabilityTime := by
        simpa [Player.update, hinv] using h0
      rw [ih h1] at hinv
      exact absurd hinv (by decide)
    · have h1 : 0 < q.invulnerabilityTime - deltaTime := by
        simpa [Player.update, hinv] using h0
      simp [Player.update, hinv, not_le.mpr h1]
  | @takeDamage q amount _ ih =>
    cases hinv : q.invulnerable
    · rw [q.takeDamage_vulnerable amount hinv]
      intro _
      rfl
    · rw [q.takeDamage_invulnerable amount hinv]
      exact ih
  | @shoot q _ ih =>
    rw [q.shoot_fields.2.1, q.shoot_fields.2.2]
    exact ih
  | @addPowerUp q type _ ih => exact ih
  | @collectHealth q _ ih =>
    unfold Player.collectHealth
    split
    · exact ih
    · exact ih

/-- C1: `checkCollision` is symmetric: for all entities `a` and `b`, of any position and
size, `a.checkCollision(b)` equals `b.checkCollision(a)`. -/
theorem checkCollision_symmetric (a b : GameEntity) :
    a.checkCollision b = b.checkCollision a := by
  rw [Bool.eq_iff_iff]
  simp only [GameEntity.checkCollision, gt_iff_lt, Bool.and_eq_true, decide_eq_true_eq]
  tauto

/-- C2: for a base entity, an enemy, a projectile, a power-up and every reachable player,
and for every damage amount, `takeDamage` never turns `active` from false to true, and
when the health after the call is at most zero the entity is inactive after the call. -/
theorem takeDamage_never_reactivates (e : GameEntity) (enemy : Enemy) (projectile : Projectile)
    (powerUp : PowerUp) (player : Player) (amount : ℚ) (hplayer : player.Reachable) :
    ((e.active = false → (e.takeDamage amount).active = false) ∧
      ((e.takeDamage amount).health ≤ 0 → (e.takeDamage amount).active = false)) ∧
    ((enemy.active = false → (enemy.takeDamage amount).active = false) ∧
      ((enemy.takeDamage amount).health ≤ 0 → (enemy.takeDamage amount).active = false)) ∧
    ((projectile.active = false → (projectile.takeDamage amount).active = false) ∧
      ((projectile.takeDamage amount).health ≤ 0 →
        (projectile.takeDamage amount).active = false)) ∧
    ((powerUp.active = false → (powerUp.takeDamage amount).active = false) ∧
      ((powerUp.takeDamage amount).health ≤ 0 → (powerUp.takeDamage amount).active = false)) ∧
    ((player.active = false → (player.takeDamage amount).1.active = false) ∧
      ((player.takeDamage amount).1.health ≤ 0 → (player.takeDamage amount).1.active = false)) := by
  refine ⟨e.takeDamage_active amount, enemy.toGameEntity.takeDamage_active amount,
    projectile.toGameEntity.takeDamage_active amount,
    powerUp.toGameEntity.takeDamage_active amount, ?_⟩
  cases hinv : player.invulnerable
  · rw [player.takeDamage_vulnerable amount hinv]
    exact player.toGameEntity.takeDamage_active amount
  · rw [player.takeDamage_invulnerable amount hinv]
    exact ⟨id, hplayer.inactive_of_health_nonpos⟩

/-- C2 at a concrete input: a new player hit for 3 ends with health 0 and is inactive. -/
theorem takeDamage_never_reactivates_witness :
    (Player.new 385 500).Reachable ∧
    ((Player.new 385 500).takeDamage 3).1.health ≤ 0 ∧
    ((Player.new 385 500).takeDamage 3).1.active = false :=
  ⟨Player.Reachable.new 385 500, by norm_num [Player.takeDamage, Player.new, GameEntity.new, GameEntity.takeDamage],
   (takeDamage_never_reactivates (GameEntity.new 0 0 1 1 "#fff") (BasicEnemy.new 0 0)
      (Projectile.new 0 0 0 (-500) "player") (PowerUp.new "health" 0 0) (Player.new 385 500) 3
      (Player.Reachable.new 385 500)).2.2.2.2.2
      (by norm_num [Player.takeDamage, Player.new, GameEntity.new, GameEntity.takeDamage])⟩

/-- C3: in every reachable player state whose invulnerability timer is positive,
`takeDamage(amount)` changes nothing for every amount: the player (health, active flag,
invulnerable flag, timer and every other field) is returned as it was and no event, so no
`playerHit`, is emitted. -/
theorem takeDamage_noop_while_timer_positive (p : Player) (amount : ℚ) (hreach : p.Reachable)
    (htimer : 0 < p.invulnerabilityTime) : p.takeDamage amount = (p, []) := by
  exact p.takeDamage_invulnerable amount (hreach.invulnerable_of_timer_pos htimer)

/-- C3 at a concrete input: a player that was just hit ignores a further hit of 5. -/
theorem takeDamage_noop_while_timer_positive_witness :
    0 < ((Player.new 385 500).takeDamage 1).1.invulnerabilityTime ∧
    ((Player.new 385 500).takeDamage 1).1.takeDamage 5 =
      (((Player.new 385 500).takeDamage 1).1, []) :=
  ⟨by norm_num [Player.takeDamage, Player.new],
   takeDamage_noop_while_timer_positive _ 5
     (Player.Reachable.takeDamage 1 (Player.Reachable.new 385 500))
     (by norm_num [Player.takeDamage, Player.new])⟩

/-! ## Collision resolution: player projectiles vs enemies -/

/-- What the inner loop of the first pass does for one projectile when it visits the
indices `n - 1, ..., 0`: either no visited enemy overlaps and nothing changes, or the
visited overlapping enemy of highest index `j` takes one unit of damage, the projectile is
deactivated, and the score and the defeated counter grow when that enemy is inactive
afterwards. -/
theorem StarRunnerGame.projectileVsEnemies_spec (g : StarRunnerGame) (projectile : Projectile)
    (n : ℕ) :
    ((∀ k enemy, k < n → g.enemies[k]? = some enemy →
        projectile.checkCollision enemy.toGameEntity = false) ∧
      g.projectileVsEnemies projectile n = (g, projectile)) ∨
    (∃ j enemy, j < n ∧ g.enemies[j]? = some enemy ∧
      projectile.checkCollision enemy.toGameEntity = true ∧
      (∀ k other, j < k → k < n → g.enemies[k]? = some other →
        projectile.checkCollision other.toGameEntity = false) ∧
      g.projectileVsEnemies projectile n =
        (if (enemy.takeDamage 1).active = true then
           { g with enemies := g.enemies.set j (enemy.takeDamage 1) }
         else
           { g with enemies := g.enemies.set j (enemy.takeDamage 1),
                    score := g.score + (enemy.takeDamage 1).points,
                    statistics := { g.statistics with
                      enemiesDefeated := g.statistics.enemiesDefeated + 1 } },
         { projectile with active := false })) := by
  induction n with
  | zero =>
    left
    exact ⟨fun k _ hk => absurd hk (Nat.not_lt_zero k), rfl⟩
  | succ n ih =>
    cases hn : g.enemies[n]? with
    | none =>
      have hstep : g.projectileVsEnemies projectile (n + 1) = g.projectileVsEnemies projectile n := by
        simp only [StarRunnerGame.projectileVsEnemies, hn]
      rw [hstep]
      rcases ih with ⟨hno, hres⟩ | ⟨j, enemy, hj, hget, hcol, hlast, hres⟩
      · left
        refine ⟨fun k enemy hk hget => ?_, hres⟩
        rcases Nat.lt_succ_iff_lt_or_eq.mp hk with hlt | heq
        · exact hno k enemy hlt hget
        · rw [heq, hn] at hget
          exact absurd hget (by simp)
      · right
        refine ⟨j, enemy, Nat.lt_succ_of_lt hj, hget, hcol, fun k other hjk hk hgetk => ?_, hres⟩
        rcases Nat.lt_succ_iff_lt_or_eq.mp hk with hlt | heq
        · exact hlast k other hjk hlt hgetk
        · rw [heq, hn] at hgetk
          exact absurd hgetk (by simp)
    | some current =>
      cases hc : projectile.checkCollision current.toGameEntity with
      | true =>
        right
        refine ⟨n, current, Nat.lt_succ_self n, hn, hc, fun k other hjk hk _ => ?_, ?_⟩
        · exact absurd hk (by omega)
        · simp only [StarRunnerGame.projectileVsEnemies, hn, hc, if_true]
          cases hact : (current.takeDamage 1).active <;> simp
      | false =>
        have hstep : g.projectileVsEnemies projectile (n + 1) =
            g.projectileVsEnemies projectile n := by
          simp only [StarRunnerGame.projectileVsEnemies, hn, hc]
          simp
        rw [hstep]
        rcases ih with ⟨hno, hres⟩ | ⟨j, enemy, hj, hget, hcol, hlast, hres⟩
        · left
          refine ⟨fun k enemy hk hget => ?_, hres⟩
          rcases Nat.lt_succ_iff_lt_or_eq.mp hk with hlt | heq
          · exact hno k enemy hlt hget
          · rw [heq, hn] at hget
            cases hget
            exact hc
        · right
          refine ⟨j, enemy, Nat.lt_succ_of_lt hj, hget, hcol, fun k other hjk hk hgetk => ?_, hres⟩
          rcases Nat.lt_succ_iff_lt_or_eq.mp hk with hlt | heq
          · exact hlast k other hjk hlt hgetk
          · rw [heq, hn] at hgetk
            cases hgetk
            exact hc

/-- C4, the code at the failing input: two player projectiles overlap one basic enemy
(100 points, health 1) in the same call of `checkCollisions`; the enemy and both
projectiles end inactive, but the score grows by 200 and the defeated counter by 2. -/
theorem checkCollisions_awards_twice :
    doubleHitSession.score = 0 ∧ doubleHitSession.statistics.enemiesDefeated = 0 ∧
    doubleHitSession.enemies.map (fun enemy => enemy.points) = [100] ∧
    doubleHitSession.checkCollisions.score = 200 ∧
    doubleHitSession.checkCollisions.statistics.enemiesDefeated = 2 ∧
    doubleHitSession.checkCollisions.enemies.map (fun enemy => enemy.active) = [false] ∧
    doubleHitSession.checkCollisions.projectiles.map (fun projectile => projectile.active) =
      [false, false] := by
  decide!

/-- C5: in the first pass of `checkCollisions` one projectile damages at most one enemy:
after its inner loop at most one index of the enemy list differs from before, an enemy
that differs has taken exactly one unit of damage, the list keeps its length, and when
the projectile overlaps no enemy the game and the projectile (so its active flag) are
unchanged. -/
theorem projectile_damages_at_most_one_enemy (g : StarRunnerGame) (projectile : Projectile) :
    (∃ j : ℕ, ∀ k : ℕ, k ≠ j →
      (g.projectileVsEnemies projectile g.enemies.length).1.enemies[k]? = g.enemies[k]?) ∧
    (∀ (k : ℕ) (enemy : Enemy), g.enemies[k]? = some enemy →
      (g.projectileVsEnemies projectile g.enemies.length).1.enemies[k]? = some enemy ∨
      (g.projectileVsEnemies projectile g.enemies.length).1.enemies[k]? =
        some (enemy.takeDamage 1)) ∧
    (g.projectileVsEnemies projectile g.enemies.length).1.enemies.length = g.enemies.length ∧
    ((∀ enemy ∈ g.enemies, projectile.checkCollision enemy.toGameEntity = false) →
      g.projectileVsEnemies projectile g.enemies.length = (g, projectile)) := by
  rcases g.projectileVsEnemies_spec projectile g.enemies.length with
    ⟨_, hres⟩ | ⟨j, enemy, hj, hget, hcol, _, hres⟩
  · rw [hres]
    exact ⟨⟨0, fun _ _ => rfl⟩, fun k enemy h => Or.inl h, rfl, fun _ => rfl⟩
  · have henemies : (g.projectileVsEnemies projectile g.enemies.length).1.enemies =
        g.enemies.set j (enemy.takeDamage 1) := by
      rw [hres]
      split <;> rfl
    rw [henemies]
    refine ⟨⟨j, fun k hk => ?_⟩, fun k other hk => ?_, List.length_set _ _ _, fun hno => ?_⟩
    · exact List.getElem?_set_ne (Ne.symm hk)
    · by_cases hkj : j = k
      · subst hkj
        rw [hget] at hk
        cases hk
        right
        rw [List.getElem?_set_self hj]
      · left
        rw [List.getElem?_set_ne hkj]
        exact hk
    · have hmem : enemy ∈ g.enemies := List.getElem?_mem hget
      rw [hno enemy hmem] at hcol
      exact absurd hcol (by decide)

/-- C6 as stated fails: the projectile overlaps both enemies, and the one left damaged is
not the first-inserted enemy (index 0) but the one inserted after it. -/
theorem first_inserted_overlapping_enemy_not_damaged :
    (Projectile.new 390 110 0 (-500) "player").checkCollision
      (BasicEnemy.new 380 100).toGameEntity = true ∧
    (Projectile.new 390 110 0 (-500) "player").checkCollision
      (FastEnemy.new 385 105).toGameEntity = true ∧
    (twoEnemiesSession.projectileVsEnemies (Projectile.new 390 110 0 (-500) "player")
      twoEnemiesSession.enemies.length).1.enemies ≠
      [(BasicEnemy.new 380 100).takeDamage 1, FastEnemy.new 385 105] ∧
    (twoEnemiesSession.projectileVsEnemies (Projectile.new 390 110 0 (-500) "player")
      twoEnemiesSession.enemies.length).1.enemies =
      [BasicEnemy.new 380 100, (FastEnemy.new 385 105).takeDamage 1] := by
  decide!

/-- C6 amended: when a player projectile overlaps several enemies, the enemy damaged is the
last overlapping one in insertion order (the inner loop scans the list from its end): if
the enemy at index `j` overlaps and no enemy at a higher index does, the enemy list
afterwards is the old one with exactly that enemy damaged by one unit.  Distance plays
no part. -/
theorem projectile_damages_last_overlapping_enemy (g : StarRunnerGame) (projectile : Projectile)
    (j : ℕ) (enemy : Enemy) (hj : g.enemies[j]? = some enemy)
    (hc : projectile.checkCollision enemy.toGameEntity = true)
    (hlast : ∀ k other, j < k → g.enemies[k]? = some other →
      projectile.checkCollision other.toGameEntity = false) :
    (g.projectileVsEnemies projectile g.enemies.length).1.enemies =
      g.enemies.set j (enemy.takeDamage 1) := by
  have hjlen : j < g.enemies.length := by
    rcases List.getElem?_eq_some.mp hj with ⟨h, _⟩
    exact h
  rcases g.projectileVsEnemies_spec projectile g.enemies.length with
    ⟨hno, _⟩ | ⟨i, other, hi, hget, hcol, hafter, hres⟩
  · rw [hno j enemy hjlen hj] at hc
    exact absurd hc (by decide)
  · have hij : i = j := by
      rcases Nat.lt_trichotomy i j with hlt | heq | hgt
      · rw [hafter j enemy hlt hjlen hj] at hc
        exact absurd hc (by decide)
      · exact heq
      · rw [hlast i other hgt hget] at hcol
        exact absurd hcol (by decide)
    subst hij
    rw [hj] at hget
    cases hget
    rw [hres]
    split <;> rfl

/-- C6 amended at a concrete input: of a basic enemy at index 0 and a fast enemy at index
1 that both overlap the projectile, the fast enemy is the one damaged. -/
theorem projectile_damages_last_overlapping_enemy_witness :
    (twoEnemiesSession.projectileVsEnemies (Projectile.new 390 110 0 (-500) "player")
      twoEnemiesSession.enemies.length).1.enemies =
      twoEnemiesSession.enemies.set 1 ((FastEnemy.new 385 105).takeDamage 1) :=
  projectile_damages_last_overlapping_enemy twoEnemiesSession
    (Projectile.new 390 110 0 (-500) "player") 1 (FastEnemy.new 385 105) (by decide!)
    (by decide!)
    (fun k other hk hget => by
      have hlen : k < twoEnemiesSession.enemies.length := by
        rcases List.getElem?_eq_some.mp hget with ⟨h, _⟩
        exact h
      have h2 : twoEnemiesSession.enemies.length = 2 := rfl
      omega)

/-! ## Wave progression -/

/-- `LevelManager.update` on an active cursor, with the current wave named: the timer is
advanced, at most one batch is spawned, and the wave advances when the quota is met and
the caller's list is empty. -/
theorem LevelManager.update_active (lm : LevelManager) (levelData : LevelData) (wave : Wave)
    (deltaTime : ℚ) (enemies : List Enemy) (random : ℚ)
    (hdata : lm.levelData = some levelData) (hwave : levelData.waves[lm.waveIndex]? = some wave) :
    lm.update deltaTime enemies random =
      (if lm.spawnTimer + deltaTime ≥ wave.interval ∧ (lm.enemiesSpawned : ℚ) < wave.count then
         (if ((lm.enemiesSpawned + (LevelManager.spawnWaveEnemies wave random).length : ℕ) : ℚ)
               ≥ wave.count ∧ enemies.length = 0 then
            { lm with waveIndex := lm.waveIndex + 1, enemiesSpawned := 0, spawnTimer := 0 }
          else
            { lm with enemiesSpawned :=
                        lm.enemiesSpawned + (LevelManager.spawnWaveEnemies wave random).length,
                      spawnTimer := 0 },
          LevelManager.spawnWaveEnemies wave random)
       else
         (if (lm.enemiesSpawned : ℚ) ≥ wave.count ∧ enemies.length = 0 then
            { lm with waveIndex := lm.waveIndex + 1, enemiesSpawned := 0, spawnTimer := 0 }
          else { lm with spawnTimer := lm.spawnTimer + deltaTime },
          [])) := by
  rcases List.getElem?_eq_some.mp hwave with ⟨hlt, hget⟩
  unfold LevelManager.update
  simp only [hdata, hlt, dif_pos, hget, LevelManager.advanceToNextWave]
  by_cases hspawn : lm.spawnTimer + deltaTime ≥ wave.interval ∧ (lm.enemiesSpawned : ℚ) < wave.count
  · simp only [hspawn, and_self, if_true]
  · simp only [hspawn, if_false]

/-- `LevelManager.update` with no level loaded or with all waves done returns the manager
unchanged and no enemies. -/
theorem LevelManager.update_inactive (lm : LevelManager) (deltaTime : ℚ) (enemies : List Enemy)
    (random : ℚ)
    (h : lm.levelData = none ∨
      ∃ levelData, lm.levelData = some levelData ∧ levelData.waves.length ≤ lm.waveIndex) :
    lm.update deltaTime enemies random = (lm, []) := by
  unfold LevelManager.update
  rcases h with hnone | ⟨levelData, hdata, hlen⟩
  · simp [hnone]
  · simp [hdata, not_lt.mpr hlen]

/-- One call of `spawnWaveEnemies` yields between one and five enemies. -/
theorem LevelManager.spawnWaveEnemies_length (wave : Wave) (random : ℚ) :
    1 ≤ (LevelManager.spawnWaveEnemies wave random).length ∧
    (LevelManager.spawnWaveEnemies wave random).length ≤ 5 := by
  unfold LevelManager.spawnWaveEnemies GameEntityFactory.createEnemyFormation
  split
  · split
    · split
      · simp only [List.length_cons, List.length_nil]
        omega
      · split
        · simp only [List.length_map, List.length_range]
          omega
        · split
          · simp only [List.length_map, List.length_range]
            omega
          · simp only [List.length_cons, List.length_nil]
            omega
    · simp only [List.length_cons, List.length_nil]
      omega
  · simp only [List.length_cons, List.length_nil]
    omega

/-- A `line` formation wave spawns five enemies per batch. -/
theorem LevelManager.spawnWaveEnemies_line (wave : Wave) (random : ℚ)
    (h : wave.formation = some "line") :
    (LevelManager.spawnWaveEnemies wave random).length = 5 := by
  unfold LevelManager.spawnWaveEnemies GameEntityFactory.createEnemyFormation
  rw [h]
  simp only [List.length_map, List.length_range, ne_eq, String.reduceEq, not_false_eq_true,
    and_self, if_true, if_false]

/-- The `update` call never changes the loaded level data. -/
theorem LevelManager.update_levelData (lm : LevelManager) (deltaTime : ℚ) (enemies : List Enemy)
    (random : ℚ) : (lm.update deltaTime enemies random).1.levelData = lm.levelData := by
  cases hdata : lm.levelData with
  | none => rw [lm.update_inactive deltaTime enemies random (Or.inl hdata)]; exact hdata
  | some levelData =>
    cases hwave : levelData.waves[lm.waveIndex]? with
    | none =>
      rw [lm.update_inactive deltaTime enemies random
        (Or.inr ⟨levelData, hdata, List.getElem?_eq_none_iff.mp hwave⟩)]
      exact hdata
    | some wave =>
      rw [lm.update_active levelData wave deltaTime enemies random hdata hwave]
      split <;> split <;> exact hdata

/-- The wave index changes in a call of `update` only by growing by one, and only when
the caller's enemy list is empty. -/
theorem LevelManager.update_waveIndex (lm : LevelManager) (deltaTime : ℚ) (enemies : List Enemy)
    (random : ℚ) :
    (lm.update deltaTime enemies random).1.waveIndex = lm.waveIndex ∨
    ((lm.update deltaTime enemies random).1.waveIndex = lm.waveIndex + 1 ∧ enemies = []) := by
  cases hdata : lm.levelData with
  | none => rw [lm.update_inactive deltaTime enemies random (Or.inl hdata)]; exact Or.inl rfl
  | some levelData =>
    cases hwave : levelData.waves[lm.waveIndex]? with
    | none =>
      rw [lm.update_inactive deltaTime enemies random
        (Or.inr ⟨levelData, hdata, List.getElem?_eq_none_iff.mp hwave⟩)]
      exact Or.inl rfl
    | some wave =>
      rw [lm.update_active levelData wave deltaTime enemies random hdata hwave]
      split
      · split
        · rename_i h
          exact Or.inr ⟨rfl, List.length_eq_zero.mp h.2⟩
        · exact Or.inl rfl
      · split
        · rename_i h
          exact Or.inr ⟨rfl, List.length_eq_zero.mp h.2⟩
        · exact Or.inl rfl

/-- Every call recorded in a trace of `updates` was made at a wave index at least as
large as the one the run started from. -/
theorem LevelManager.updates_waveIndex_ge (calls : List (ℚ × List Enemy × ℚ)) :
    ∀ (lm : LevelManager), ∀ call ∈ (lm.updates calls).2, lm.waveIndex ≤ call.1 := by
  induction calls with
  | nil => intro lm call h; simp [LevelManager.updates] at h
  | cons c rest ih =>
    intro lm call h
    obtain ⟨deltaTime, enemies, random⟩ := c
    simp only [LevelManager.updates, List.mem_cons] at h
    rcases h with h | h
    · rw [h]
    · have h1 := ih _ call h
      rcases lm.update_waveIndex deltaTime enemies random with h2 | ⟨h2, _⟩ <;> omega

/-- C7 as stated fails: on a level whose wave is `{count: 5, interval: 1.0, formation:
'line'}`, five calls `update(1.0, [])` from a fresh cursor fire one spawn event for that
wave, not five. -/
theorem line_wave_does_not_fire_five_spawn_events :
    spawnEventsOfWave 0
      (lineWaveManager.updates
        [(1, [], 0.5), (1, [], 0.5), (1, [], 0.5), (1, [], 0.5), (1, [], 0.5)]).2 ≠ 5 ∧
    spawnEventsOfWave 0
      (lineWaveManager.updates
        [(1, [], 0.5), (1, [], 0.5), (1, [], 0.5), (1, [], 0.5), (1, [], 0.5)]).2 = 1 := by
  decide!

/-- C7 amended: for a level whose first wave has count 5, interval 1.0 and formation
`line`, with the cursor freshly reset, five calls `update(1.0, [])` fire exactly one spawn
event for that wave; it is fired by the first call and holds the five enemies of the line
formation, which fill the quota.  In every call of `update` the wave index stays as it is
unless the caller reports zero live enemies. -/
theorem line_wave_of_five_spawns_once (lm : LevelManager) (levelData : LevelData) (wave : Wave)
    (r1 r2 r3 r4 r5 : ℚ)
    (hdata : lm.levelData = some levelData) (hwave : levelData.waves[0]? = some wave)
    (hcount : wave.count = 5) (hinterval : wave.interval = 1)
    (hformation : wave.formation = some "line")
    (htimer : lm.spawnTimer = 0) (hindex : lm.waveIndex = 0) (hspawned : lm.enemiesSpawned = 0) :
    spawnEventsOfWave 0
      (lm.updates [(1, [], r1), (1, [], r2), (1, [], r3), (1, [], r4), (1, [], r5)]).2 = 1 ∧
    (lm.update 1 [] r1).2.length = 5 ∧
    (∀ (m : LevelManager) (deltaTime : ℚ) (enemies : List Enemy) (random : ℚ),
      enemies ≠ [] → (m.update deltaTime enemies random).1.waveIndex = m.waveIndex) := by
  have hwave0 : levelData.waves[lm.waveIndex]? = some wave := by rw [hindex]; exact hwave
  have hline := LevelManager.spawnWaveEnemies_line wave r1 hformation
  have hfirst := lm.update_active levelData wave 1 [] r1 hdata hwave0
  have hdue : lm.spawnTimer + 1 ≥ wave.interval ∧ (lm.enemiesSpawned : ℚ) < wave.count := by
    rw [htimer, hinterval, hspawned, hcount]
    norm_num
  have hfull : ((lm.enemiesSpawned + (LevelManager.spawnWaveEnemies wave r1).length : ℕ) : ℚ)
      ≥ wave.count ∧ ([] : List Enemy).length = 0 := by
    rw [hline, hspawned, hcount]
    norm_num
  rw [if_pos hdue, if_pos hfull] at hfirst
  have hbatch : (lm.update 1 [] r1).2.length = 5 := by rw [hfirst]; exact hline
  have hnext : (lm.update 1 [] r1).1.waveIndex = 1 := by rw [hfirst, hindex]
  refine ⟨?_, hbatch, fun m deltaTime enemies random hne => ?_⟩
  · have hrest : ∀ call ∈ ((lm.update 1 [] r1).1.updates
        [(1, [], r2), (1, [], r3), (1, [], r4), (1, [], r5)]).2,
        ¬ ((call.1 == 0 && !call.2.isEmpty) = true) := by
      intro call hmem
      have hge := LevelManager.updates_waveIndex_ge _ _ call hmem
      rw [hnext] at hge
      have hne0 : (call.1 == 0) = false := by
        rw [beq_eq_false_iff_ne]
        omega
      rw [hne0]
      simp
    have hnonempty : (lm.update 1 [] r1).2.isEmpty = false := by
      cases hb : (lm.update 1 [] r1).2 with
      | nil => rw [hb] at hbatch; simp at hbatch
      | cons _ _ => rfl
    have htrace : (lm.updates [(1, [], r1), (1, [], r2), (1, [], r3), (1, [], r4), (1, [], r5)]).2 =
        (lm.waveIndex, (lm.update 1 [] r1).2) ::
          ((lm.update 1 [] r1).1.updates [(1, [], r2), (1, [], r3), (1, [], r4), (1, [], r5)]).2 :=
      rfl
    rw [htrace, spawnEventsOfWave, List.filter_cons, hindex, hnonempty,
      List.filter_eq_nil_iff.mpr hrest]
    rfl
  · rcases m.update_waveIndex deltaTime enemies random with h | ⟨_, h⟩
    · exact h
    · exact absurd h hne

/-- C7 amended at a concrete input: the single-wave level with the line wave of five. -/
theorem line_wave_of_five_spawns_once_witness :
    spawnEventsOfWave 0
      (lineWaveManager.updates
        [(1, [], 0.1), (1, [], 0.2), (1, [], 0.3), (1, [], 0.4), (1, [], 0.5)]).2 = 1 ∧
    (lineWaveManager.update 1 [] 0.1).2.length = 5 :=
  ⟨(line_wave_of_five_spawns_once lineWaveManager
      { id := 1, name := "", description := "", background := "", music := "",
        waves := [Wave.mk5 "basic" 5 1.0 "line" 0.1], powerUps := none, difficulty := 1 }
      (Wave.mk5 "basic" 5 1.0 "line" 0.1) 0.1 0.2 0.3 0.4 0.5
      rfl rfl (by decide!) (by decide!) rfl rfl rfl rfl).1,
   (line_wave_of_five_spawns_once lineWaveManager
      { id := 1, name := "", description := "", background := "", music := "",
        waves := [Wave.mk5 "basic" 5 1.0 "line" 0.1], powerUps := none, difficulty := 1 }
      (Wave.mk5 "basic" 5 1.0 "line" 0.1) 0.1 0.2 0.3 0.4 0.5
      rfl rfl (by decide!) (by decide!) rfl rfl rfl rfl).2.1⟩

/-- C8: on an active cursor one call of `update` returns exactly one spawn batch, the
non-empty result of a single `spawnWaveEnemies` call (at most one formation of five),
when the timer after adding `deltaTime` has reached the wave's interval and the quota is
not yet met, whatever the size of `deltaTime`; the timer is then 0.  Otherwise it
returns no enemies. -/
theorem update_emits_one_batch_when_due (lm : LevelManager) (levelData : LevelData) (wave : Wave)
    (deltaTime : ℚ) (enemies : List Enemy) (random : ℚ)
    (hdata : lm.levelData = some levelData) (hwave : levelData.waves[lm.waveIndex]? = some wave) :
    (lm.spawnTimer + deltaTime ≥ wave.interval ∧ (lm.enemiesSpawned : ℚ) < wave.count →
      (lm.update deltaTime enemies random).2 = LevelManager.spawnWaveEnemies wave random ∧
      (lm.update deltaTime enemies random).2 ≠ [] ∧
      (lm.update deltaTime enemies random).2.length ≤ 5 ∧
      (lm.update deltaTime enemies random).1.spawnTimer = 0) ∧
    (¬ (lm.spawnTimer + deltaTime ≥ wave.interval ∧ (lm.enemiesSpawned : ℚ) < wave.count) →
      (lm.update deltaTime enemies random).2 = []) := by
  have hupdate := lm.update_active levelData wave deltaTime enemies random hdata hwave
  have hlen := LevelManager.spawnWaveEnemies_length wave random
  constructor
  · intro hdue
    rw [if_pos hdue] at hupdate
    rw [hupdate]
    refine ⟨rfl, ?_, hlen.2, ?_⟩
    · intro hnil
      have h0 : (LevelManager.spawnWaveEnemies wave random).length = 0 := by
        rw [show LevelManager.spawnWaveEnemies wave random = [] from hnil]
        rfl
      omega
    · show (if _ then _ else _ : LevelManager).spawnTimer = 0
      split <;> rfl
  · intro hnot
    rw [if_neg hnot] at hupdate
    rw [hupdate]

/-- C8 at its concrete input: level 1, wave 0, timer 0; one tick of 2.0 seconds returns
one batch, the five enemies of one line formation, and leaves the timer at 0. -/
theorem update_emits_one_batch_when_due_witness :
    (exampleSession.levelManager.update 2.0 [] 0.5).2 =
      LevelManager.spawnWaveEnemies (Wave.mk5 "basic" 5 2.0 "line" 0.08) 0.5 ∧
    (exampleSession.levelManager.update 2.0 [] 0.5).2 ≠ [] ∧
    (exampleSession.levelManager.update 2.0 [] 0.5).2.length ≤ 5 ∧
    (exampleSession.levelManager.update 2.0 [] 0.5).1.spawnTimer = 0 :=
  (update_emits_one_batch_when_due exampleSession.levelManager LevelManager.level1
    (Wave.mk5 "basic" 5 2.0 "line" 0.08) 2.0 [] 0.5 (by decide!) rfl).1 (by decide!)

/-- C9: on an active cursor `update` raises the wave index by exactly one and resets
`enemiesSpawned` and `spawnTimer` to 0 if and only if, after the spawn step of that call,
`enemiesSpawned` has reached the wave's count and the reported enemy list is empty;
otherwise the wave index is unchanged.  With a level loaded, `isLevelComplete` is true
exactly when the wave index has reached the number of waves. -/
theorem update_advances_wave_iff (lm : LevelManager) (levelData : LevelData) (wave : Wave)
    (deltaTime : ℚ) (enemies : List Enemy) (random : ℚ)
    (hdata : lm.levelData = some levelData) (hwave : levelData.waves[lm.waveIndex]? = some wave) :
    (((lm.update deltaTime enemies random).1.waveIndex = lm.waveIndex + 1 ∧
        (lm.update deltaTime enemies random).1.enemiesSpawned = 0 ∧
        (lm.update deltaTime enemies random).1.spawnTimer = 0) ↔
      (((lm.enemiesSpawned + (lm.update deltaTime enemies random).2.length : ℕ) : ℚ)
          ≥ wave.count ∧ enemies = [])) ∧
    (¬ (((lm.enemiesSpawned + (lm.update deltaTime enemies random).2.length : ℕ) : ℚ)
          ≥ wave.count ∧ enemies = []) →
      (lm.update deltaTime enemies random).1.waveIndex = lm.waveIndex) ∧
    (∀ (m : LevelManager) (loaded : LevelData), m.levelData = some loaded →
      (m.isLevelComplete = true ↔ loaded.waves.length ≤ m.waveIndex)) := by
  have hupdate := lm.update_active levelData wave deltaTime enemies random hdata hwave
  have hkey : ((lm.update deltaTime enemies random).1.waveIndex = lm.waveIndex + 1 ∧
        (lm.update deltaTime enemies random).1.enemiesSpawned = 0 ∧
        (lm.update deltaTime enemies random).1.spawnTimer = 0) ∨
      (lm.update deltaTime enemies random).1.waveIndex = lm.waveIndex := by
    rcases lm.update_waveIndex deltaTime enemies random with h | ⟨_, _⟩
    · exact Or.inr h
    · rw [hupdate]
      split <;> split <;> first | exact Or.inl ⟨rfl, rfl, rfl⟩ | exact Or.inr rfl
  have hcond : (lm.update deltaTime enemies random).1.waveIndex = lm.waveIndex + 1 ↔
      (((lm.enemiesSpawned + (lm.update deltaTime enemies random).2.length : ℕ) : ℚ)
          ≥ wave.count ∧ enemies = []) := by
    rw [hupdate]
    split
    · split
      · rename_i h
        exact ⟨fun _ => ⟨h.1, List.length_eq_zero.mp h.2⟩, fun _ => rfl⟩
      · rename_i h
        refine ⟨fun hidx => ?_, fun hc => absurd ⟨hc.1, List.length_eq_zero.mpr hc.2⟩ h⟩
        have : lm.waveIndex = lm.waveIndex + 1 := hidx
        omega
    · split
      · rename_i h
        refine ⟨fun _ => ⟨?_, List.length_eq_zero.mp h.2⟩, fun _ => rfl⟩
        simpa using h.1
      · rename_i h
        refine ⟨fun hidx => ?_, fun hc => ?_⟩
        · have : lm.waveIndex = lm.waveIndex + 1 := hidx
          omega
        · refine absurd ⟨?_, List.length_eq_zero.mpr hc.2⟩ h
          simpa using hc.1
  refine ⟨⟨fun h => hcond.mp h.1, fun hc => ?_⟩, fun hnot => ?_, fun m loaded hm => ?_⟩
  · rcases hkey with h | h
    · exact h
    · have := hcond.mpr hc
      omega
  · rcases hkey with h | h
    · exact absurd (hcond.mp h.1) hnot
    · exact h
  · simp [LevelManager.isLevelComplete, hm]

/-- C9 at a concrete input: on level 1 a call `update(2.0, [])` from the fresh cursor
spawns the five enemies of wave 0, which meets its count, and advances to wave 1. -/
theorem update_advances_wave_iff_witness :
    (exampleSession.levelManager.update 2.0 [] 0.5).1.waveIndex =
        exampleSession.levelManager.waveIndex + 1 ∧
      (exampleSession.levelManager.update 2.0 [] 0.5).1.enemiesSpawned = 0 ∧
      (exampleSession.levelManager.update 2.0 [] 0.5).1.spawnTimer = 0 :=
  (update_advances_wave_iff exampleSession.levelManager LevelManager.level1
    (Wave.mk5 "basic" 5 2.0 "line" 0.08) 2.0 [] 0.5 (by decide!) rfl).1.mpr (by decide!)

/-- C10, the code at the failing input: in a session on level 1, after 124 ticks of
0.016 s with no enemy yet, tick 125 spawns the five enemies of wave 0 and advances the
wave index in the same call, so the wave index advances although the enemy collection
after the spawn step, and after the whole tick, holds five enemies. -/
theorem wave_advances_with_live_enemies :
    (exampleSession.ticks 0.016 halfRandoms 124).enemies = [] ∧
    (exampleSession.ticks 0.016 halfRandoms 124).levelManager.waveIndex = 0 ∧
    ((exampleSession.ticks 0.016 halfRandoms 124).updateAndSpawn
      0.016 halfRandoms).levelManager.waveIndex = 1 ∧
    ((exampleSession.ticks 0.016 halfRandoms 124).updateAndSpawn
      0.016 halfRandoms).enemies.length = 5 ∧
    (exampleSession.ticks 0.016 halfRandoms 125).levelManager.waveIndex = 1 ∧
    (exampleSession.ticks 0.016 halfRandoms 125).enemies.length = 5 := by
  decide!

/-! ## Entity factory -/

/-- Moving a basic enemy is the same as constructing it at the moved place. -/
theorem BasicEnemy.moveBy_basic (x y dx dy : ℚ) :
    (BasicEnemy.new x y).moveBy dx dy = BasicEnemy.new (x + dx) (y + dy) := rfl

/-- Moving a fast enemy is the same as constructing it at the moved place. -/
theorem FastEnemy.moveBy_fast (x y dx dy : ℚ) :
    (FastEnemy.new x y).moveBy dx dy = FastEnemy.new (x + dx) (y + dy) := rfl

/-- A kind other than `basic`, `fast` and `boss` takes the `default` branch of
`createEnemy`. -/
theorem GameEntityFactory.createEnemy_default (kind : String) (x y : ℚ)
    (hbasic : kind ≠ "basic") (hfast : kind ≠ "fast") (hboss : kind ≠ "boss") :
    GameEntityFactory.createEnemy kind x y = BasicEnemy.new x y := by
  simp [GameEntityFactory.createEnemy, hbasic, hfast, hboss]

/-- The `diamond` pattern: four basic enemies around a fast one. -/
theorem GameEntityFactory.createEnemyFormation_diamond (centerX centerY : ℚ) :
    GameEntityFactory.createEnemyFormation "diamond" centerX centerY =
      [ BasicEnemy.new centerX (centerY - 40), BasicEnemy.new (centerX - 30) centerY,
        FastEnemy.new centerX centerY, BasicEnemy.new (centerX + 30) centerY,
        BasicEnemy.new centerX (centerY + 40) ] := by
  simp [GameEntityFactory.createEnemyFormation, GameEntityFactory.createEnemy]

/-- The `line` pattern: five basic enemies 40 apart on the centre row. -/
theorem GameEntityFactory.createEnemyFormation_line (centerX centerY : ℚ) :
    GameEntityFactory.createEnemyFormation "line" centerX centerY =
      [ BasicEnemy.new (centerX - 80) centerY, BasicEnemy.new (centerX - 40) centerY,
        BasicEnemy.new centerX centerY, BasicEnemy.new (centerX + 40) centerY,
        BasicEnemy.new (centerX + 80) centerY ] := by
  simp only [GameEntityFactory.createEnemyFormation, GameEntityFactory.createEnemy]
  norm_num [List.range, List.range.loop]
  simp [sub_eq_add_neg]

/-- The `v-formation` pattern: five fast enemies 40 apart, each step away from the centre
30 lower. -/
theorem GameEntityFactory.createEnemyFormation_v (centerX centerY : ℚ) :
    GameEntityFactory.createEnemyFormation "v-formation" centerX centerY =
      [ FastEnemy.new (centerX - 80) (centerY + 60), FastEnemy.new (centerX - 40) (centerY + 30),
        FastEnemy.new centerX centerY, FastEnemy.new (centerX + 40) (centerY + 30),
        FastEnemy.new (centerX + 80) (centerY + 60) ] := by
  simp only [GameEntityFactory.createEnemyFormation, GameEntityFactory.createEnemy]
  norm_num [List.range, List.range.loop]
  simp [sub_eq_add_neg]

/-- Every pattern other than the three named ones, `single` included, takes the `default`
branch of `createEnemyFormation`. -/
theorem GameEntityFactory.createEnemyFormation_default (pattern : String) (centerX centerY : ℚ)
    (hdiamond : pattern ≠ "diamond") (hline : pattern ≠ "line")
    (hv : pattern ≠ "v-formation") :
    GameEntityFactory.createEnemyFormation pattern centerX centerY =
      [BasicEnemy.new centerX centerY] := by
  simp [GameEntityFactory.createEnemyFormation, GameEntityFactory.createEnemy, hdiamond, hline,
    hv]

/-- C19: `createEnemy` returns an enemy for every kind string, and for every kind other
than `basic`, `fast` and `boss` the result equals `createEnemy('basic', x, y)`: a basic
enemy at (x, y), active, with health 1, speed 100 and 100 points. -/
theorem createEnemy_unknown_kind_is_basic (kind : String) (x y : ℚ)
    (hbasic : kind ≠ "basic") (hfast : kind ≠ "fast") (hboss : kind ≠ "boss") :
    GameEntityFactory.createEnemy kind x y = GameEntityFactory.createEnemy "basic" x y ∧
    (GameEntityFactory.createEnemy kind x y).kind = EnemyKind.basic ∧
    (GameEntityFactory.createEnemy kind x y).x = x ∧
    (GameEntityFactory.createEnemy kind x y).y = y ∧
    (GameEntityFactory.createEnemy kind x y).health = 1 ∧
    (GameEntityFactory.createEnemy kind x y).active = true ∧
    (GameEntityFactory.createEnemy kind x y).speed = 100 ∧
    (GameEntityFactory.createEnemy kind x y).points = 100 := by
  rw [GameEntityFactory.createEnemy_default kind x y hbasic hfast hboss]
  refine ⟨?_, rfl, rfl, rfl, rfl, rfl, rfl, rfl⟩
  simp [GameEntityFactory.createEnemy]

/-- C19 at the kinds the built-in levels use beside the three known ones: each gives a
basic enemy with 100 points. -/
theorem createEnemy_unknown_kind_is_basic_witness :
    GameEntityFactory.createEnemy "heavy" 10 (-50) =
      GameEntityFactory.createEnemy "basic" 10 (-50) ∧
    (GameEntityFactory.createEnemy "alien" 10 (-50)).points = 100 ∧
    (GameEntityFactory.createEnemy "elite" 10 (-50)).points = 100 ∧
    (GameEntityFactory.createEnemy "mothership" 10 (-50)).points = 100 ∧
    (GameEntityFactory.createEnemy "mixed" 10 (-50)).points = 100 ∧
    (GameEntityFactory.createEnemy "finalBoss" 10 (-50)).points = 100 :=
  ⟨(createEnemy_unknown_kind_is_basic "heavy" 10 (-50) (by decide) (by decide) (by decide)).1,
   (createEnemy_unknown_kind_is_basic "alien" 10 (-50)
      (by decide) (by decide) (by decide)).2.2.2.2.2.2.2,
   (createEnemy_unknown_kind_is_basic "elite" 10 (-50)
      (by decide) (by decide) (by decide)).2.2.2.2.2.2.2,
   (createEnemy_unknown_kind_is_basic "mothership" 10 (-50)
      (by decide) (by decide) (by decide)).2.2.2.2.2.2.2,
   (createEnemy_unknown_kind_is_basic "mixed" 10 (-50)
      (by decide) (by decide) (by decide)).2.2.2.2.2.2.2,
   (createEnemy_unknown_kind_is_basic "finalBoss" 10 (-50)
      (by decide) (by decide) (by decide)).2.2.2.2.2.2.2⟩

/-- C20: `createEnemyFormation` depends on nothing but (pattern, centerX, centerY); the
patterns `diamond`, `line` and `v-formation` each give five enemies of fixed kinds at
fixed offsets from the centre, every other pattern (`single` included) gives one basic
enemy at the centre, and for every pattern moving the centre by (dx, dy) moves each
enemy by (dx, dy) and changes nothing else. -/
theorem createEnemyFormation_fixed_shape (pattern : String) (centerX centerY dx dy : ℚ) :
    GameEntityFactory.createEnemyFormation "diamond" centerX centerY =
      [ BasicEnemy.new centerX (centerY - 40), BasicEnemy.new (centerX - 30) centerY,
        FastEnemy.new centerX centerY, BasicEnemy.new (centerX + 30) centerY,
        BasicEnemy.new centerX (centerY + 40) ] ∧
    GameEntityFactory.createEnemyFormation "line" centerX centerY =
      [ BasicEnemy.new (centerX - 80) centerY, BasicEnemy.new (centerX - 40) centerY,
        BasicEnemy.new centerX centerY, BasicEnemy.new (centerX + 40) centerY,
        BasicEnemy.new (centerX + 80) centerY ] ∧
    GameEntityFactory.createEnemyFormation "v-formation" centerX centerY =
      [ FastEnemy.new (centerX - 80) (centerY + 60), FastEnemy.new (centerX - 40) (centerY + 30),
        FastEnemy.new centerX centerY, FastEnemy.new (centerX + 40) (centerY + 30),
        FastEnemy.new (centerX + 80) (centerY + 60) ] ∧
    GameEntityFactory.createEnemyFormation "single" centerX centerY =
      [BasicEnemy.new centerX centerY] ∧
    ((pattern ≠ "diamond" ∧ pattern ≠ "line" ∧ pattern ≠ "v-formation") →
      GameEntityFactory.createEnemyFormation pattern centerX centerY =
        [BasicEnemy.new centerX centerY]) ∧
    ((pattern = "diamond" ∨ pattern = "line" ∨ pattern = "v-formation") →
      (GameEntityFactory.createEnemyFormation pattern centerX centerY).length = 5) ∧
    GameEntityFactory.createEnemyFormation pattern (centerX + dx) (centerY + dy) =
      (GameEntityFactory.createEnemyFormation pattern centerX centerY).map
        (fun enemy => enemy.moveBy dx dy) := by
  refine ⟨GameEntityFactory.createEnemyFormation_diamond centerX centerY,
    GameEntityFactory.createEnemyFormation_line centerX centerY,
    GameEntityFactory.createEnemyFormation_v centerX centerY,
    GameEntityFactory.createEnemyFormation_default "single" centerX centerY
      (by decide) (by decide) (by decide),
    fun h => GameEntityFactory.createEnemyFormation_default pattern centerX centerY h.1 h.2.1 h.2.2,
    ?_, ?_⟩
  · rintro (h | h | h) <;> subst h
    · rw [GameEntityFactory.createEnemyFormation_diamond]; rfl
    · rw [GameEntityFactory.createEnemyFormation_line]; rfl
    · rw [GameEntityFactory.createEnemyFormation_v]; rfl
  · by_cases hdiamond : pattern = "diamond"
    · subst hdiamond
      simp only [GameEntityFactory.createEnemyFormation_diamond, List.map_cons, List.map_nil,
        BasicEnemy.moveBy_basic, FastEnemy.moveBy_fast]
      ring_nf
    · by_cases hline : pattern = "line"
      · subst hline
        simp only [GameEntityFactory.createEnemyFormation_line, List.map_cons, List.map_nil,
          BasicEnemy.moveBy_basic, FastEnemy.moveBy_fast]
        ring_nf
      · by_cases hv : pattern = "v-formation"
        · subst hv
          simp only [GameEntityFactory.createEnemyFormation_v, List.map_cons, List.map_nil,
            BasicEnemy.moveBy_basic, FastEnemy.moveBy_fast]
          ring_nf
        · simp only [GameEntityFactory.createEnemyFormation_default pattern _ _ hdiamond hline hv,
            List.map_cons, List.map_nil, BasicEnemy.moveBy_basic]

/-! ## Validation of level data -/

/-- The test `typeof value !== 'number' || value <= 0` fails exactly for positive numbers. -/
theorem JSValue.notPositiveNumber_eq_false_iff (value : JSValue) :
    value.notPositiveNumber = false ↔ ∃ q, value = JSValue.number q ∧ 0 < q := by
  cases value <;> simp [JSValue.notPositiveNumber]

/-- A positive number is truthy. -/
theorem JSValue.truthy_number_of_pos (q : ℚ) (h : 0 < q) : (JSValue.number q).truthy = true := by
  simp [JSValue.truthy, ne_of_gt h]

/-- The wave loop on a list that starts with an object: the three tests on its `type`,
`count` and `interval`, then the rest of the list. -/
theorem LevelManager.validateWaves_object (fields : List (String × JSValue)) (rest : List JSValue) :
    LevelManager.validateWaves (JSValue.object fields :: rest) =
      if (!((fields.lookup "type").getD JSValue.undefined).truthy ||
          !((fields.lookup "count").getD JSValue.undefined).truthy ||
          !((fields.lookup "interval").getD JSValue.undefined).truthy) = true then some false
      else if ((fields.lookup "count").getD JSValue.undefined).notPositiveNumber = true then
        some false
      else if ((fields.lookup "interval").getD JSValue.undefined).notPositiveNumber = true then
        some false
      else LevelManager.validateWaves rest := rfl

/-- The wave loop returns `true` exactly when every entry is an object with a truthy
`type`, a positive number `count` and a positive number `interval`. -/
theorem LevelManager.validateWaves_true_iff (waves : List JSValue) :
    LevelManager.validateWaves waves = some true ↔
      ∀ wave ∈ waves, ∃ fields count interval, wave = JSValue.object fields ∧
        ((fields.lookup "type").getD JSValue.undefined).truthy = true ∧
        (fields.lookup "count").getD JSValue.undefined = JSValue.number count ∧ 0 < count ∧
        (fields.lookup "interval").getD JSValue.undefined = JSValue.number interval ∧
        0 < interval := by
  induction waves with
  | nil => simp [LevelManager.validateWaves]
  | cons wave rest ih =>
    have hnot : ∀ result : Option Bool,
        (¬ ∃ fields : List (String × JSValue), wave = JSValue.object fields) →
        result ≠ some true →
        (result = some true ↔
          ∀ w ∈ wave :: rest, ∃ fields count interval, w = JSValue.object fields ∧
            ((fields.lookup "type").getD JSValue.undefined).truthy = true ∧
            (fields.lookup "count").getD JSValue.undefined = JSValue.number count ∧ 0 < count ∧
            (fields.lookup "interval").getD JSValue.undefined = JSValue.number interval ∧
            0 < interval) := by
      intro result hobj hres
      constructor
      · intro h
        exact absurd h hres
      · intro h
        obtain ⟨fields, _, _, hw, _⟩ := h wave (List.mem_cons_self _ _)
        exact absurd ⟨fields, hw⟩ hobj
    cases wave with
    | undefined => exact hnot _ (by simp) (by simp [LevelManager.validateWaves, JSValue.get])
    | null => exact hnot _ (by simp) (by simp [LevelManager.validateWaves, JSValue.get])
    | boolean b =>
      exact hnot _ (by simp) (by simp [LevelManager.validateWaves, JSValue.get, JSValue.truthy])
    | number q =>
      exact hnot _ (by simp) (by simp [LevelManager.validateWaves, JSValue.get, JSValue.truthy])
    | string t =>
      exact hnot _ (by simp) (by simp [LevelManager.validateWaves, JSValue.get, JSValue.truthy])
    | array items =>
      exact hnot _ (by simp) (by simp [LevelManager.validateWaves, JSValue.get, JSValue.truthy])
    | object fields =>
      rw [LevelManager.validateWaves_object, List.forall_mem_cons]
      by_cases htruthy : (!((fields.lookup "type").getD JSValue.undefined).truthy ||
          !((fields.lookup "count").getD JSValue.undefined).truthy ||
          !((fields.lookup "interval").getD JSValue.undefined).truthy) = true
      · rw [if_pos htruthy]
        constructor
        · intro h
          exact absurd h (by simp)
        · rintro ⟨⟨fields2, count, interval, hw, htype, hcount, hcpos, hinterval, hipos⟩, _⟩
          cases hw
          rw [hcount, hinterval, htype, JSValue.truthy_number_of_pos count hcpos,
            JSValue.truthy_number_of_pos interval hipos] at htruthy
          exact absurd htruthy (by decide)
      · rw [if_neg htruthy]
        have htype : ((fields.lookup "type").getD JSValue.undefined).truthy = true := by
          cases h : ((fields.lookup "type").getD JSValue.undefined).truthy
          · rw [h] at htruthy
            exact absurd rfl htruthy
          · rfl
        by_cases hc : ((fields.lookup "count").getD JSValue.undefined).notPositiveNumber = true
        · rw [if_pos hc]
          constructor
          · intro h
            exact absurd h (by simp)
          · rintro ⟨⟨fields2, count, interval, hw, _, hcount, hcpos, _, _⟩, _⟩
            cases hw
            have := (JSValue.notPositiveNumber_eq_false_iff _).mpr ⟨count, hcount, hcpos⟩
            rw [this] at hc
            exact absurd hc (by decide)
        · rw [if_neg hc]
          by_cases hi : ((fields.lookup "interval").getD JSValue.undefined).notPositiveNumber = true
          · rw [if_pos hi]
            constructor
            · intro h
              exact absurd h (by simp)
            · rintro ⟨⟨fields2, count, interval, hw, _, _, _, hinterval, hipos⟩, _⟩
              cases hw
              have := (JSValue.notPositiveNumber_eq_false_iff _).mpr ⟨interval, hinterval, hipos⟩
              rw [this] at hi
              exact absurd hi (by decide)
          · rw [if_neg hi, ih]
            obtain ⟨count, hcount, hcpos⟩ := (JSValue.notPositiveNumber_eq_false_iff _).mp
              (Bool.eq_false_iff.mpr hc)
            obtain ⟨interval, hinterval, hipos⟩ := (JSValue.notPositiveNumber_eq_false_iff _).mp
              (Bool.eq_false_iff.mpr hi)
            constructor
            · intro h
              exact ⟨⟨fields, count, interval, rfl, htype, hcount, hcpos, hinterval, hipos⟩, h⟩
            · intro h
              exact h.2

/-- The checks of `validateLevelData` on an object: its `waves` property must be an
array, that array must not be empty, and then the wave loop decides. -/
theorem LevelManager.validateLevelData_object (properties : List (String × JSValue)) :
    LevelManager.validateLevelData (JSValue.object properties) =
      match (properties.lookup "waves").getD JSValue.undefined with
      | JSValue.array items =>
        if items.length = 0 then some false else LevelManager.validateWaves items
      | _ => some false := by
  simp only [LevelManager.validateLevelData, JSValue.get, JSValue.truthy, JSValue.typeof]
  cases (properties.lookup "waves").getD JSValue.undefined <;>
    simp [JSValue.truthy, JSValue.isArray]

/-- A value that is not a plain object is rejected by `validateLevelData`. -/
theorem LevelManager.validateLevelData_not_object (levelData : JSValue)
    (h : ¬ ∃ properties, levelData = JSValue.object properties) :
    LevelManager.validateLevelData levelData = some false := by
  cases levelData with
  | object properties => exact absurd ⟨properties, rfl⟩ h
  | _ => simp [LevelManager.validateLevelData, JSValue.truthy, JSValue.typeof, JSValue.get]

/-- C11 as stated fails: the level data `{waves: [{count: 5, interval: 1}]}` has a
non-empty wave list whose only wave has `count > 0` and `interval > 0`, and
`validateLevelData` returns false for it, because the wave has no `type`. -/
theorem validateLevelData_rejects_wave_without_type :
    LevelDataValidBySpec typelessWaveLevel ∧
    LevelManager.validateLevelData typelessWaveLevel = some false := by
  refine ⟨⟨_, _, rfl, rfl, by simp, ?_⟩, by decide!⟩
  intro wave hwave
  rw [List.mem_singleton] at hwave
  exact ⟨_, 5, 1, hwave, rfl, by norm_num, rfl, by norm_num⟩

/-- What `validateLevelData` accepts: objects whose `waves` is a non-empty array of
objects, each with a truthy `type`, a positive number `count` and a positive number
`interval`. -/
theorem LevelManager.validateLevelData_eq_true_iff (levelData : JSValue) :
    LevelManager.validateLevelData levelData = some true ↔
      ∃ properties waves, levelData = JSValue.object properties ∧
        (properties.lookup "waves").getD JSValue.undefined = JSValue.array waves ∧
        waves ≠ [] ∧
        ∀ wave ∈ waves, ∃ fields count interval, wave = JSValue.object fields ∧
          ((fields.lookup "type").getD JSValue.undefined).truthy = true ∧
          (fields.lookup "count").getD JSValue.undefined = JSValue.number count ∧ 0 < count ∧
          (fields.lookup "interval").getD JSValue.undefined = JSValue.number interval ∧
          0 < interval := by
  by_cases hobj : ∃ properties, levelData = JSValue.object properties
  · obtain ⟨properties, rfl⟩ := hobj
    rw [LevelManager.validateLevelData_object]
    cases hwaves : (properties.lookup "waves").getD JSValue.undefined with
    | array items =>
      simp only []
      by_cases hlen : items.length = 0
      · rw [if_pos hlen]
        constructor
        · intro h
          exact absurd h (by simp)
        · rintro ⟨properties2, waves, hp, hw, hne, _⟩
          cases hp
          rw [hwaves] at hw
          cases hw
          exact absurd (List.length_eq_zero.mp hlen) hne
      · rw [if_neg hlen, LevelManager.validateWaves_true_iff]
        constructor
        · intro h
          exact ⟨properties, items, rfl, hwaves, fun hnil => hlen (by rw [hnil]; rfl), h⟩
        · rintro ⟨properties2, waves, hp, hw, _, h⟩
          cases hp
          rw [hwaves] at hw
          cases hw
          exact h
    | _ =>
      simp only []
      constructor
      · intro h
        exact absurd h (by simp)
      · rintro ⟨properties2, waves, hp, hw, _, _⟩
        cases hp
        rw [hwaves] at hw
        cases hw
  · rw [LevelManager.validateLevelData_not_object levelData hobj]
    constructor
    · intro h
      exact absurd h (by simp)
    · rintro ⟨properties, _, hp, _⟩
      exact absurd ⟨properties, hp⟩ hobj

/-- C11 amended: for every value, `validateLevelData` returns true if and only if the
value is an object whose `waves` is a non-empty array and every wave is an object with a
truthy (present and non-empty) `type`, a number `count > 0` and a number `interval > 0`;
no other property of a wave, such as `formation` or `powerUpChance`, plays a part. -/
theorem validateLevelData_true_iff (levelData : JSValue) :
    LevelManager.validateLevelData levelData = some true ↔
      ∃ properties waves, levelData = JSValue.object properties ∧
        (properties.lookup "waves").getD JSValue.undefined = JSValue.array waves ∧
        waves ≠ [] ∧
        ∀ wave ∈ waves, ∃ fields count interval, wave = JSValue.object fields ∧
          ((fields.lookup "type").getD JSValue.undefined).truthy = true ∧
          (fields.lookup "count").getD JSValue.undefined = JSValue.number count ∧ 0 < count ∧
          (fields.lookup "interval").getD JSValue.undefined = JSValue.number interval ∧
          0 < interval :=
  LevelManager.validateLevelData_eq_true_iff levelData

/-- On a list without `null` and `undefined` entries the wave loop returns a verdict: no
property read throws. -/
theorem LevelManager.validateWaves_verdict (waves : List JSValue)
    (h : ∀ wave ∈ waves, wave ≠ JSValue.null ∧ wave ≠ JSValue.undefined) :
    LevelManager.validateWaves waves = some true ∨
    LevelManager.validateWaves waves = some false := by
  induction waves with
  | nil => exact Or.inl rfl
  | cons wave rest ih =>
    have hwave := h wave (List.mem_cons_self _ _)
    cases wave with
    | undefined => exact absurd rfl hwave.2
    | null => exact absurd rfl hwave.1
    | boolean b => exact Or.inr (by simp [LevelManager.validateWaves, JSValue.get, JSValue.truthy])
    | number q => exact Or.inr (by simp [LevelManager.validateWaves, JSValue.get, JSValue.truthy])
    | string t => exact Or.inr (by simp [LevelManager.validateWaves, JSValue.get, JSValue.truthy])
    | array items =>
      exact Or.inr (by simp [LevelManager.validateWaves, JSValue.get, JSValue.truthy])
    | object fields =>
      rw [LevelManager.validateWaves_object]
      split
      · exact Or.inr rfl
      · split
        · exact Or.inr rfl
        · split
          · exact Or.inr rfl
          · exact ih (fun w hw => h w (List.mem_cons_of_mem _ hw))

/-- The three properties of a wave literal that validation reads. -/
theorem Wave.toJS_properties (wave : Wave) :
    ∃ fields, wave.toJS = JSValue.object fields ∧
      (fields.lookup "type").getD JSValue.undefined = JSValue.string wave.type ∧
      (fields.lookup "count").getD JSValue.undefined = JSValue.number wave.count ∧
      (fields.lookup "interval").getD JSValue.undefined = JSValue.number wave.interval := by
  refine ⟨_, rfl, ?_, ?_, ?_⟩ <;> simp [List.lookup]

/-- The `waves` property of a level literal. -/
theorem LevelData.toJS_waves (levelData : LevelData) :
    ∃ properties, levelData.toJS = JSValue.object properties ∧
      (properties.lookup "waves").getD JSValue.undefined =
        JSValue.array (levelData.waves.map Wave.toJS) := by
  refine ⟨_, rfl, ?_⟩
  simp [List.lookup]

/-- Validation of a level literal never throws, and it succeeds exactly when the wave
list is non-empty and every wave has a non-empty type, a positive count and a positive
interval. -/
theorem LevelData.validate_toJS (levelData : LevelData) :
    (LevelManager.validateLevelData levelData.toJS = some true ∨
      LevelManager.validateLevelData levelData.toJS = some false) ∧
    (LevelManager.validateLevelData levelData.toJS = some true ↔
      levelData.waves ≠ [] ∧
      ∀ wave ∈ levelData.waves, wave.type ≠ "" ∧ 0 < wave.count ∧ 0 < wave.interval) := by
  obtain ⟨properties, hjs, hwaves⟩ := levelData.toJS_waves
  constructor
  · rw [hjs, LevelManager.validateLevelData_object, hwaves]
    simp only []
    split
    · exact Or.inr rfl
    · apply LevelManager.validateWaves_verdict
      intro wave hwave
      obtain ⟨w, _, rfl⟩ := List.mem_map.mp hwave
      obtain ⟨fields, hf, _⟩ := w.toJS_properties
      rw [hf]
      exact ⟨by simp, by simp⟩
  · rw [LevelManager.validateLevelData_eq_true_iff]
    constructor
    · rintro ⟨properties2, waves, hp, hw, hne, hall⟩
      rw [hjs] at hp
      cases hp
      rw [hwaves] at hw
      cases hw
      refine ⟨fun hnil => hne (by rw [hnil]; rfl), fun wave hwave => ?_⟩
      obtain ⟨fields, count, interval, hobj, htype, hcount, hcpos, hinterval, hipos⟩ :=
        hall wave.toJS (List.mem_map_of_mem _ hwave)
      obtain ⟨fields2, hf, h1, h2, h3⟩ := wave.toJS_properties
      rw [hf] at hobj
      cases hobj
      rw [h1] at htype
      rw [h2] at hcount
      rw [h3] at hinterval
      cases hcount
      cases hinterval
      refine ⟨?_, hcpos, hipos⟩
      simpa [JSValue.truthy] using htype
    · rintro ⟨hne, hall⟩
      refine ⟨properties, _, hjs, hwaves, fun hnil => hne (List.map_eq_nil_iff.mp hnil), ?_⟩
      intro wave hwave
      obtain ⟨w, hw, rfl⟩ := List.mem_map.mp hwave
      obtain ⟨fields, hf, h1, h2, h3⟩ := w.toJS_properties
      obtain ⟨htype, hcpos, hipos⟩ := hall w hw
      refine ⟨fields, w.count, w.interval, hf, ?_, h2, hcpos, h3, hipos⟩
      rw [h1]
      simpa [JSValue.truthy] using htype

/-! ## Loading levels -/

/-- On a cache miss `loadLevel` is its continuation after the fetch. -/
theorem LevelManager.loadLevelWith_miss (lm : LevelManager) (levelNumber : ℚ)
    (fetched : Except LoadError LevelData)
    (h : LevelManager.cacheGet lm.levelCache levelNumber = none) :
    lm.loadLevelWith levelNumber fetched =
      { manager := (lm.loadLevelFetched levelNumber fetched).1,
        outcome := (lm.loadLevelFetched levelNumber fetched).2, fetched := true } := by
  simp [LevelManager.loadLevelWith, LevelManager.loadLevelCached, h]

/-- On a cache hit `loadLevel` installs the cached level, resets the cursor and returns
`true` without fetching. -/
theorem LevelManager.loadLevelWith_hit (lm : LevelManager) (levelNumber : ℚ)
    (fetched : Except LoadError LevelData) (cached : LevelData)
    (h : LevelManager.cacheGet lm.levelCache levelNumber = some cached) :
    lm.loadLevelWith levelNumber fetched =
      { manager := ({ lm with levelData := some cached }).resetLevelState levelNumber,
        outcome := Except.ok true, fetched := false } := by
  simp [LevelManager.loadLevelWith, LevelManager.loadLevelCached, h]

/-- Fetched data that fails validation: the continuation throws `Invalid level data` and
changes nothing. -/
theorem LevelManager.loadLevelFetched_invalid (lm : LevelManager) (levelNumber : ℚ)
    (levelData : LevelData) (h : LevelManager.validateLevelData levelData.toJS ≠ some true) :
    lm.loadLevelFetched levelNumber (Except.ok levelData) =
      (lm, Except.error (LoadError.invalidData levelNumber)) := by
  rcases levelData.validate_toJS.1 with hv | hv
  · exact absurd hv h
  · simp [LevelManager.loadLevelFetched, hv]

/-- Fetched data that passes validation: the continuation caches it, installs it, resets
the cursor and returns `true`. -/
theorem LevelManager.loadLevelFetched_valid (lm : LevelManager) (levelNumber : ℚ)
    (levelData : LevelData) (h : LevelManager.validateLevelData levelData.toJS = some true) :
    lm.loadLevelFetched levelNumber (Except.ok levelData) =
      (({ lm with levelCache := LevelManager.cacheSet lm.levelCache levelNumber levelData,
                  levelData := some levelData }).resetLevelState levelNumber,
       Except.ok true) := by
  simp [LevelManager.loadLevelFetched, h]

/-- A rejected fetch: the continuation rethrows its error and changes nothing. -/
theorem LevelManager.loadLevelFetched_error (lm : LevelManager) (levelNumber : ℚ)
    (error : LoadError) :
    lm.loadLevelFetched levelNumber (Except.error error) = (lm, Except.error error) := rfl

/-- C12 as stated fails: the wave list of `{waves: [null, {type: 'basic', count: 0,
interval: 2}]}` contains a wave with `count` 0, and `validateLevelData` does not return
false for it: reading `type` of the `null` entry throws. -/
theorem validateLevelData_throws_on_null_entry :
    (∃ properties waves fields, nullEntryLevel = JSValue.object properties ∧
      (properties.lookup "waves").getD JSValue.undefined = JSValue.array waves ∧
      JSValue.object fields ∈ waves ∧
      (fields.lookup "count").getD JSValue.undefined = JSValue.number 0) ∧
    LevelManager.validateLevelData nullEntryLevel ≠ some false ∧
    LevelManager.validateLevelData nullEntryLevel = none := by
  refine ⟨⟨_, _, _, rfl, rfl, List.mem_cons_of_mem _ (List.mem_cons_self _ _), rfl⟩,
    by decide!, by decide!⟩

/-- C12 amended: for every level-data object whose `waves` is a list that is empty or
holds, at any position, a wave with `count` 0, `validateLevelData` never returns true,
and it returns false whenever no entry of the list is `null` or `undefined`; and a
`loadLevel` that fetched level data with an empty wave list or a wave with `count` 0
fails with the `Invalid level data` error, leaving the manager as it was. -/
theorem validateLevelData_rejects_empty_or_zero_count :
    (∀ (properties : List (String × JSValue)) (waves : List JSValue),
      (properties.lookup "waves").getD JSValue.undefined = JSValue.array waves →
      (∀ wave ∈ waves, wave ≠ JSValue.null ∧ wave ≠ JSValue.undefined) →
      (waves = [] ∨ ∃ wave ∈ waves, ∃ fields, wave = JSValue.object fields ∧
        (fields.lookup "count").getD JSValue.undefined = JSValue.number 0) →
      LevelManager.validateLevelData (JSValue.object properties) = some false) ∧
    (∀ (properties : List (String × JSValue)) (waves : List JSValue),
      (properties.lookup "waves").getD JSValue.undefined = JSValue.array waves →
      (waves = [] ∨ ∃ wave ∈ waves, ∃ fields, wave = JSValue.object fields ∧
        (fields.lookup "count").getD JSValue.undefined = JSValue.number 0) →
      LevelManager.validateLevelData (JSValue.object properties) ≠ some true) ∧
    (∀ (lm : LevelManager) (levelNumber : ℚ) (levelData : LevelData),
      (levelData.waves = [] ∨ ∃ wave ∈ levelData.waves, wave.count = 0) →
      LevelManager.cacheGet lm.levelCache levelNumber = none →
      LevelManager.validateLevelData levelData.toJS = some false ∧
      (lm.loadLevelWith levelNumber (Except.ok levelData)).outcome =
        Except.error (LoadError.invalidData levelNumber) ∧
      (lm.loadLevelWith levelNumber (Except.ok levelData)).manager = lm) := by
  have hnot : ∀ (properties : List (String × JSValue)) (waves : List JSValue),
      (properties.lookup "waves").getD JSValue.undefined = JSValue.array waves →
      (waves = [] ∨ ∃ wave ∈ waves, ∃ fields, wave = JSValue.object fields ∧
        (fields.lookup "count").getD JSValue.undefined = JSValue.number 0) →
      LevelManager.validateLevelData (JSValue.object properties) ≠ some true := by
    intro properties waves hwaves hbad htrue
    obtain ⟨properties2, waves2, hp, hw, hne, hall⟩ :=
      (LevelManager.validateLevelData_eq_true_iff _).mp htrue
    cases hp
    rw [hwaves] at hw
    cases hw
    rcases hbad with hnil | ⟨wave, hmem, fields, hobj, hcount⟩
    · exact hne hnil
    · obtain ⟨fields2, count, _, hobj2, _, hcount2, hcpos, _⟩ := hall wave hmem
      rw [hobj] at hobj2
      cases hobj2
      rw [hcount] at hcount2
      cases hcount2
      exact absurd hcpos (lt_irrefl 0)
  refine ⟨fun properties waves hwaves hobjects hbad => ?_, hnot,
    fun lm levelNumber levelData hbad hmiss => ?_⟩
  · have hverdict : LevelManager.validateLevelData (JSValue.object properties) = some true ∨
        LevelManager.validateLevelData (JSValue.object properties) = some false := by
      rw [LevelManager.validateLevelData_object, hwaves]
      simp only []
      split
      · exact Or.inr rfl
      · exact LevelManager.validateWaves_verdict waves hobjects
    rcases hverdict with h | h
    · exact absurd h (hnot properties waves hwaves hbad)
    · exact h
  · have hinvalid : LevelManager.validateLevelData levelData.toJS ≠ some true := by
      intro htrue
      obtain ⟨hne, hall⟩ := levelData.validate_toJS.2.mp htrue
      rcases hbad with hnil | ⟨wave, hmem, hcount⟩
      · exact hne hnil
      · have := (hall wave hmem).2.1
        rw [hcount] at this
        exact absurd this (lt_irrefl 0)
    refine ⟨?_, ?_, ?_⟩
    · rcases levelData.validate_toJS.1 with h | h
      · exact absurd h hinvalid
      · exact h
    · rw [lm.loadLevelWith_miss levelNumber _ hmiss,
        lm.loadLevelFetched_invalid levelNumber levelData hinvalid]
    · rw [lm.loadLevelWith_miss levelNumber _ hmiss,
        lm.loadLevelFetched_invalid levelNumber levelData hinvalid]

/-- C12 amended at concrete inputs: a level with an empty wave list and a level whose second of
three waves has `count: 0` both fail validation and fail to load into a new manager. -/
theorem validateLevelData_rejects_empty_or_zero_count_witness :
    LevelManager.validateLevelData emptyWavesLevel.toJS = some false ∧
    (LevelManager.new.loadLevelWith 7 (Except.ok emptyWavesLevel)).manager = LevelManager.new ∧
    LevelManager.validateLevelData zeroCountLevel.toJS = some false ∧
    (LevelManager.new.loadLevelWith 7 (Except.ok zeroCountLevel)).outcome =
      Except.error (LoadError.invalidData 7) :=
  ⟨(validateLevelData_rejects_empty_or_zero_count.2.2 LevelManager.new 7 emptyWavesLevel
      (Or.inl rfl) rfl).1,
   (validateLevelData_rejects_empty_or_zero_count.2.2 LevelManager.new 7 emptyWavesLevel
      (Or.inl rfl) rfl).2.2,
   (validateLevelData_rejects_empty_or_zero_count.2.2 LevelManager.new 7 zeroCountLevel
      (Or.inr ⟨Wave.mk5 "fast" 0 2.0 "diamond" 0.12, by simp [zeroCountLevel], rfl⟩) rfl).1,
   (validateLevelData_rejects_empty_or_zero_count.2.2 LevelManager.new 7 zeroCountLevel
      (Or.inr ⟨Wave.mk5 "fast" 0 2.0 "diamond" 0.12, by simp [zeroCountLevel], rfl⟩) rfl).2.1⟩

/-- After `levelCache.set(levelNumber, levelData)` the cache returns that data for the
level number. -/
theorem LevelManager.cacheGet_cacheSet_self (cache : List (ℚ × LevelData)) (levelNumber : ℚ)
    (levelData : LevelData) :
    LevelManager.cacheGet (LevelManager.cacheSet cache levelNumber levelData) levelNumber =
      some levelData := by
  unfold LevelManager.cacheGet LevelManager.cacheSet
  split
  · rename_i h
    induction cache with
    | nil => simp at h
    | cons entry rest ih =>
      obtain ⟨key, value⟩ := entry
      rw [List.map_cons]
      by_cases hkey : key = levelNumber
      · subst hkey
        rw [if_pos (beq_self_eq_true key), List.lookup_cons, beq_self_eq_true]
      · have hne : (levelNumber == key) = false := by
          rw [beq_eq_false_iff_ne]
          exact fun h => hkey h.symm
        have hne2 : ¬ ((key == levelNumber) = true) := by
          rw [beq_iff_eq]
          exact hkey
        rw [List.lookup_cons, hne] at h
        rw [if_neg hne2, List.lookup_cons, hne]
        exact ih h
  · rename_i h
    induction cache with
    | nil =>
      rw [List.nil_append, List.lookup_cons, beq_self_eq_true]
    | cons entry rest ih =>
      obtain ⟨key, value⟩ := entry
      by_cases hkey : key = levelNumber
      · subst hkey
        rw [List.lookup_cons, beq_self_eq_true] at h
        exact absurd rfl h
      · have hne : (levelNumber == key) = false := by
          rw [beq_eq_false_iff_ne]
          exact fun h => hkey h.symm
        rw [List.lookup_cons, hne] at h
        rw [List.cons_append, List.lookup_cons, hne]
        exact ih h

/-- C13: when a `loadLevel(n)` has succeeded, the cache holds a level for `n`, and a
second `loadLevel(n)`, on any later manager with the same cache, succeeds without
calling `fetchLevelData`, sets `levelData` to that cached value, resets the cursor to
(currentLevel = n, waveIndex = 0, spawnTimer = 0, enemiesSpawned = 0) and leaves the cache
as it was.  The cached value is the one the first call found in the cache or, on a miss,
the data it fetched. -/
theorem second_loadLevel_uses_cache (lm later : LevelManager) (levelNumber : ℚ)
    (first second : Except LoadError LevelData)
    (hfirst : (lm.loadLevelWith levelNumber first).outcome = Except.ok true)
    (hlater : later.levelCache = (lm.loadLevelWith levelNumber first).manager.levelCache) :
    ∃ cached,
      LevelManager.cacheGet (lm.loadLevelWith levelNumber first).manager.levelCache levelNumber =
        some cached ∧
      (LevelManager.cacheGet lm.levelCache levelNumber = none → first = Except.ok cached) ∧
      (∀ found, LevelManager.cacheGet lm.levelCache levelNumber = some found → cached = found) ∧
      (later.loadLevelWith levelNumber second).outcome = Except.ok true ∧
      (later.loadLevelWith levelNumber second).fetched = false ∧
      (later.loadLevelWith levelNumber second).manager.levelData = some cached ∧
      (later.loadLevelWith levelNumber second).manager.currentLevel = levelNumber ∧
      (later.loadLevelWith levelNumber second).manager.waveIndex = 0 ∧
      (later.loadLevelWith levelNumber second).manager.spawnTimer = 0 ∧
      (later.loadLevelWith levelNumber second).manager.enemiesSpawned = 0 ∧
      (later.loadLevelWith levelNumber second).manager.levelCache = later.levelCache := by
  have hsecond : ∀ cached,
      LevelManager.cacheGet (lm.loadLevelWith levelNumber first).manager.levelCache levelNumber =
        some cached →
      (later.loadLevelWith levelNumber second).outcome = Except.ok true ∧
      (later.loadLevelWith levelNumber second).fetched = false ∧
      (later.loadLevelWith levelNumber second).manager.levelData = some cached ∧
      (later.loadLevelWith levelNumber second).manager.currentLevel = levelNumber ∧
      (later.loadLevelWith levelNumber second).manager.waveIndex = 0 ∧
      (later.loadLevelWith levelNumber second).manager.spawnTimer = 0 ∧
      (later.loadLevelWith levelNumber second).manager.enemiesSpawned = 0 ∧
      (later.loadLevelWith levelNumber second).manager.levelCache = later.levelCache := by
    intro cached hcached
    rw [← hlater] at hcached
    rw [later.loadLevelWith_hit levelNumber second cached hcached]
    exact ⟨rfl, rfl, rfl, rfl, rfl, rfl, rfl, rfl⟩
  cases hget : LevelManager.cacheGet lm.levelCache levelNumber with
  | some found =>
    have hcache : LevelManager.cacheGet
        (lm.loadLevelWith levelNumber first).manager.levelCache levelNumber = some found := by
      rw [lm.loadLevelWith_hit levelNumber first found hget]
      exact hget
    exact ⟨found, hcache, fun h => absurd h (by simp), fun f hf => (Option.some.inj hf),
      hsecond found hcache⟩
  | none =>
    rw [lm.loadLevelWith_miss levelNumber first hget] at hfirst
    cases first with
    | error error =>
      rw [LevelManager.loadLevelFetched_error] at hfirst
      exact absurd hfirst (by simp)
    | ok levelData =>
      by_cases hvalid : LevelManager.validateLevelData levelData.toJS = some true
      · have hcache : LevelManager.cacheGet
            (lm.loadLevelWith levelNumber (Except.ok levelData)).manager.levelCache levelNumber =
              some levelData := by
          rw [lm.loadLevelWith_miss levelNumber _ hget,
            lm.loadLevelFetched_valid levelNumber levelData hvalid]
          exact LevelManager.cacheGet_cacheSet_self _ _ _
        exact ⟨levelData, hcache, fun _ => rfl, fun f hf => absurd hf (by simp),
          hsecond levelData hcache⟩
      · rw [lm.loadLevelFetched_invalid levelNumber levelData hvalid] at hfirst
        exact absurd hfirst (by simp)

/-- C13 at a concrete input: level 1 loaded into a new manager, one `update` later, is
loaded again from the cache without a fetch. -/
theorem second_loadLevel_uses_cache_witness :
    ((LevelManager.new.loadLevel 1).manager.update 2.0 [] 0.5).1.waveIndex = 1 ∧
    (((LevelManager.new.loadLevel 1).manager.update 2.0 [] 0.5).1.loadLevelWith 1
      (Except.error LoadError.typeError)).fetched = false ∧
    (((LevelManager.new.loadLevel 1).manager.update 2.0 [] 0.5).1.loadLevelWith 1
      (Except.error LoadError.typeError)).manager.levelData = some LevelManager.level1 ∧
    (((LevelManager.new.loadLevel 1).manager.update 2.0 [] 0.5).1.loadLevelWith 1
      (Except.error LoadError.typeError)).manager.waveIndex = 0 := by
  obtain ⟨cached, hcached, _, _, _, hfetched, hdata, _, hindex, _⟩ :=
    second_loadLevel_uses_cache LevelManager.new
      ((LevelManager.new.loadLevel 1).manager.update 2.0 [] 0.5).1 1
      (LevelManager.fetchLevelData 1) (Except.error LoadError.typeError)
      (by decide!) (by decide!)
  have hlevel : cached = LevelManager.level1 := by
    have h1 : LevelManager.cacheGet
        (LevelManager.new.loadLevelWith 1 (LevelManager.fetchLevelData 1)).manager.levelCache 1 =
          some LevelManager.level1 := by decide!
    rw [h1] at hcached
    exact (Option.some.inj hcached).symm
  rw [hlevel] at hdata
  exact ⟨by decide!, hfetched, hdata, hindex⟩

/-- C14: a load that fails changes nothing.  For every manager, whenever `loadLevel`
raises an error the manager afterwards (currentLevel, levelData, waveIndex, spawnTimer,
enemiesSpawned and the level cache) is the one before the call; on a cache miss a
rejected fetch is raised to the caller as it is and fetched data that fails validation
raises `Invalid level data`; and with the repository's own fetch a level number that
does not exist raises `Level not found`. -/
theorem failed_loadLevel_changes_nothing (lm : LevelManager) (levelNumber : ℚ)
    (fetched : Except LoadError LevelData)
    (hmiss : LevelManager.cacheGet lm.levelCache levelNumber = none) :
    (∀ error, (lm.loadLevelWith levelNumber fetched).outcome = Except.error error →
      (lm.loadLevelWith levelNumber fetched).manager = lm) ∧
    (∀ error, fetched = Except.error error →
      (lm.loadLevelWith levelNumber fetched).outcome = Except.error error ∧
      (lm.loadLevelWith levelNumber fetched).manager = lm) ∧
    (∀ levelData, fetched = Except.ok levelData →
      LevelManager.validateLevelData levelData.toJS ≠ some true →
      (lm.loadLevelWith levelNumber fetched).outcome =
        Except.error (LoadError.invalidData levelNumber) ∧
      (lm.loadLevelWith levelNumber fetched).manager = lm) ∧
    (LevelManager.generateLevelData levelNumber = none →
      (lm.loadLevel levelNumber).outcome = Except.error (LoadError.notFound levelNumber) ∧
      (lm.loadLevel levelNumber).manager = lm) := by
  have herror : ∀ error, fetched = Except.error error →
      (lm.loadLevelWith levelNumber fetched).outcome = Except.error error ∧
      (lm.loadLevelWith levelNumber fetched).manager = lm := by
    intro error hf
    rw [lm.loadLevelWith_miss levelNumber fetched hmiss, hf,
      LevelManager.loadLevelFetched_error]
    exact ⟨rfl, rfl⟩
  have hinvalid : ∀ levelData, fetched = Except.ok levelData →
      LevelManager.validateLevelData levelData.toJS ≠ some true →
      (lm.loadLevelWith levelNumber fetched).outcome =
        Except.error (LoadError.invalidData levelNumber) ∧
      (lm.loadLevelWith levelNumber fetched).manager = lm := by
    intro levelData hf hv
    rw [lm.loadLevelWith_miss levelNumber fetched hmiss, hf,
      lm.loadLevelFetched_invalid levelNumber levelData hv]
    exact ⟨rfl, rfl⟩
  refine ⟨fun error hout => ?_, herror, hinvalid, fun hnone => ?_⟩
  · cases fetched with
    | error e => exact (herror e rfl).2
    | ok levelData =>
      by_cases hv : LevelManager.validateLevelData levelData.toJS = some true
      · rw [lm.loadLevelWith_miss levelNumber _ hmiss,
          lm.loadLevelFetched_valid levelNumber levelData hv] at hout
        exact absurd hout (by simp)
      · exact (hinvalid levelData rfl hv).2
  · have hfetch : LevelManager.fetchLevelData levelNumber =
        Except.error (LoadError.notFound levelNumber) := by
      simp [LevelManager.fetchLevelData, hnone]
    unfold LevelManager.loadLevel
    rw [lm.loadLevelWith_miss levelNumber _ hmiss, hfetch, LevelManager.loadLevelFetched_error]
    exact ⟨rfl, rfl⟩

/-- C14 at a concrete input: loading the missing level 99 into a session's manager, and
loading a level whose data has a zero-count wave, raise the error and change nothing. -/
theorem failed_loadLevel_changes_nothing_witness :
    (exampleSession.levelManager.loadLevel 99).outcome =
      Except.error (LoadError.notFound 99) ∧
    (exampleSession.levelManager.loadLevel 99).manager = exampleSession.levelManager ∧
    (exampleSession.levelManager.loadLevelWith 99 (Except.ok zeroCountLevel)).manager =
      exampleSession.levelManager :=
  ⟨((failed_loadLevel_changes_nothing exampleSession.levelManager 99
      (LevelManager.fetchLevelData 99) rfl).2.2.2 (by decide!)).1,
   ((failed_loadLevel_changes_nothing exampleSession.levelManager 99
      (LevelManager.fetchLevelData 99) rfl).2.2.2 (by decide!)).2,
   ((failed_loadLevel_changes_nothing exampleSession.levelManager 99
      (Except.ok zeroCountLevel) rfl).2.2.1 zeroCountLevel rfl (by decide!)).2⟩

/-! ## Preloading levels -/

/-- The built-in levels are those numbered 1 to 5. -/
theorem LevelManager.generateLevelData_isSome_iff (levelNumber : ℚ) :
    (LevelManager.generateLevelData levelNumber).isSome = true ↔
      levelNumber = 1 ∨ levelNumber = 2 ∨ levelNumber = 3 ∨ levelNumber = 4 ∨ levelNumber = 5 := by
  unfold LevelManager.generateLevelData
  constructor
  · intro h
    split_ifs at h with h1 h2 h3 h4 h5
    · exact Or.inl h1
    · exact Or.inr (Or.inl h2)
    · exact Or.inr (Or.inr (Or.inl h3))
    · exact Or.inr (Or.inr (Or.inr (Or.inl h4)))
    · exact Or.inr (Or.inr (Or.inr (Or.inr h5)))
    · simp at h
  · rintro (h | h | h | h | h) <;> subst h <;> norm_num

/-- Every built-in level passes validation. -/
theorem LevelManager.generateLevelData_valid (levelNumber : ℚ) (levelData : LevelData)
    (h : LevelManager.generateLevelData levelNumber = some levelData) :
    LevelManager.validateLevelData levelData.toJS = some true := by
  unfold LevelManager.generateLevelData at h
  split_ifs at h
  · cases h; decide!
  · cases h; decide!
  · cases h; decide!
  · cases h; decide!
  · cases h; decide!

/-- The continuation of a `loadLevel` with the repository's own fetch returns `true` when
the level exists and raises `Level not found` otherwise, whatever the manager. -/
theorem LevelManager.loadLevelFetched_fetchLevelData (lm : LevelManager) (levelNumber : ℚ) :
    PreloadResult.ofOutcome levelNumber
      (lm.loadLevelFetched levelNumber (LevelManager.fetchLevelData levelNumber)).2 =
    PreloadResult.ofLevel levelNumber := by
  unfold PreloadResult.ofLevel LevelManager.fetchLevelData
  cases hgen : LevelManager.generateLevelData levelNumber with
  | none => rfl
  | some levelData =>
    simp only []
    rw [lm.loadLevelFetched_valid levelNumber levelData
      (LevelManager.generateLevelData_valid levelNumber levelData hgen)]

/-- The synchronous start of `preloadLevels` leaves the cache alone, fills the slot of
every cached level with a loaded entry and leaves the other slots open. -/
theorem LevelManager.preloadStart_spec (levelNumbers : List ℚ) :
    ∀ lm : LevelManager,
      (lm.preloadStart levelNumbers).1.levelCache = lm.levelCache ∧
      (lm.preloadStart levelNumbers).2 = levelNumbers.map (fun levelNum =>
        if (LevelManager.cacheGet lm.levelCache levelNum).isSome then
          some (PreloadResult.ofOutcome levelNum (Except.ok true))
        else none) := by
  induction levelNumbers with
  | nil => intro lm; exact ⟨rfl, rfl⟩
  | cons levelNum rest ih =>
    intro lm
    cases hget : LevelManager.cacheGet lm.levelCache levelNum with
    | none =>
      have hstep : lm.preloadStart (levelNum :: rest) =
          ((lm.preloadStart rest).1, none :: (lm.preloadStart rest).2) := by
        simp [LevelManager.preloadStart, LevelManager.loadLevelCached, hget]
      rw [hstep, List.map_cons, hget]
      exact ⟨(ih lm).1, by rw [(ih lm).2]; rfl⟩
    | some cached =>
      have hstep : lm.preloadStart (levelNum :: rest) =
          (((({ lm with levelData := some cached }).resetLevelState levelNum).preloadStart rest).1,
           some (PreloadResult.ofOutcome levelNum (Except.ok true)) ::
             ((({ lm with levelData := some cached }).resetLevelState levelNum).preloadStart
               rest).2) := by
        simp [LevelManager.preloadStart, LevelManager.loadLevelCached, hget]
      rw [hstep, List.map_cons, hget]
      have h := ih (({ lm with levelData := some cached }).resetLevelState levelNum)
      exact ⟨h.1, by rw [h.2]; rfl⟩

/-- Settling the fetches of the requests listed in `order`, in that order: the slot of
every listed request holds its entry afterwards, the other slots are as before. -/
theorem LevelManager.preloadSettle_foldl (levelNumbers : List ℚ) (order : List ℕ) :
    ∀ state : LevelManager × List (Option PreloadResult),
      state.2.length = levelNumbers.length →
      ((order.foldl (LevelManager.preloadSettle levelNumbers) state).2.length =
          levelNumbers.length) ∧
      ∀ (index : ℕ) (levelNum : ℚ), levelNumbers[index]? = some levelNum →
        (order.foldl (LevelManager.preloadSettle levelNumbers) state).2[index]? =
          if index ∈ order then some (some (PreloadResult.ofLevel levelNum))
          else state.2[index]? := by
  induction order with
  | nil =>
    intro state hlen
    exact ⟨hlen, fun index levelNum _ => by simp⟩
  | cons first rest ih =>
    intro state hlen
    rw [List.foldl_cons]
    cases hfirst : levelNumbers[first]? with
    | none =>
      have hstep : LevelManager.preloadSettle levelNumbers state first = state := by
        simp [LevelManager.preloadSettle, hfirst]
      rw [hstep]
      refine ⟨(ih state hlen).1, fun index levelNum hindex => ?_⟩
      rw [(ih state hlen).2 index levelNum hindex]
      have hne : index ≠ first := by
        intro h
        rw [h, hfirst] at hindex
        exact absurd hindex (by simp)
      simp [hne]
    | some firstLevel =>
      have hstep : LevelManager.preloadSettle levelNumbers state first =
          ((state.1.loadLevelFetched firstLevel (LevelManager.fetchLevelData firstLevel)).1,
           state.2.set first (some (PreloadResult.ofLevel firstLevel))) := by
        simp only [LevelManager.preloadSettle, hfirst]
        rw [LevelManager.loadLevelFetched_fetchLevelData]
      rw [hstep]
      have hlen2 : (state.2.set first (some (PreloadResult.ofLevel firstLevel))).length =
          levelNumbers.length := by
        rw [List.length_set]
        exact hlen
      have h := ih ((state.1.loadLevelFetched firstLevel
        (LevelManager.fetchLevelData firstLevel)).1,
        state.2.set first (some (PreloadResult.ofLevel firstLevel))) hlen2
      refine ⟨h.1, fun index levelNum hindex => ?_⟩
      rw [h.2 index levelNum hindex]
      by_cases hmem : index ∈ rest
      · simp [hmem]
      · by_cases heq : index = first
        · subst heq
          rw [hfirst] at hindex
          cases hindex
          have hlt : index < state.2.length := by
            rw [hlen]
            exact (List.getElem?_eq_some.mp hfirst).1
          simp [hmem, List.getElem?_set_self hlt]
        · simp [hmem, heq, List.getElem?_set_ne (Ne.symm heq)]

/-- Dropping the `some` of a list of filled slots. -/
theorem PreloadResult.reduceOption_map_some (levelNumbers : List ℚ) :
    (levelNumbers.map (fun levelNum => some (PreloadResult.ofLevel levelNum))).reduceOption =
      levelNumbers.map PreloadResult.ofLevel := by
  induction levelNumbers with
  | nil => rfl
  | cons levelNum rest ih =>
    rw [List.map_cons, List.reduceOption_cons_of_some, ih, List.map_cons]

/-- A new manager has a sound (empty) cache. -/
theorem LevelManager.new_cacheSound : LevelManager.new.CacheSound := by
  intro levelNumber levelData h
  simp [LevelManager.new, LevelManager.cacheGet] at h

/-- With a sound cache the entry of a cached level is its loaded entry. -/
theorem LevelManager.CacheSound.ofLevel_of_cached {lm : LevelManager} (hsound : lm.CacheSound)
    (levelNum : ℚ) (h : (LevelManager.cacheGet lm.levelCache levelNum).isSome = true) :
    PreloadResult.ofOutcome levelNum (Except.ok true) = PreloadResult.ofLevel levelNum := by
  obtain ⟨cached, hcached⟩ := Option.isSome_iff_exists.mp h
  unfold PreloadResult.ofLevel
  rw [hsound levelNum cached hcached]

/-- The entries `preloadLevels` returns, when every cached level is a built-in one: entry
`i` is the entry of the `i`-th level number alone. -/
theorem LevelManager.preloadLevels_eq_map (lm : LevelManager) (levelNumbers : List ℚ)
    (delay : ℕ → ℚ) (hsound : lm.CacheSound) :
    (lm.preloadLevels levelNumbers delay).2 = levelNumbers.map PreloadResult.ofLevel := by
  have hstart := LevelManager.preloadStart_spec levelNumbers lm
  have hlen : (lm.preloadStart levelNumbers).2.length = levelNumbers.length := by
    rw [hstart.2, List.length_map]
  unfold LevelManager.preloadLevels
  simp only []
  rw [← PreloadResult.reduceOption_map_some]
  congr 1
  have hfold := LevelManager.preloadSettle_foldl levelNumbers
    (((List.range levelNumbers.length).filter (fun index =>
      ((lm.preloadStart levelNumbers).2.getD index none).isNone)).insertionSort
        (fun i j => delay i ≤ delay j))
    (lm.preloadStart levelNumbers) hlen
  apply List.ext_getElem?
  intro index
  cases hindex : levelNumbers[index]? with
  | none =>
    have hge : levelNumbers.length ≤ index := List.getElem?_eq_none_iff.mp hindex
    rw [List.getElem?_eq_none_iff.mpr (by rw [hfold.1]; exact hge),
      List.getElem?_eq_none_iff.mpr (by rw [List.length_map]; exact hge)]
  | some levelNum =>
    rw [hfold.2 index levelNum hindex, List.getElem?_map, hindex, Option.map_some']
    have hlt : index < levelNumbers.length := (List.getElem?_eq_some.mp hindex).1
    have hslot : (lm.preloadStart levelNumbers).2[index]? =
        some (if (LevelManager.cacheGet lm.levelCache levelNum).isSome then
          some (PreloadResult.ofOutcome levelNum (Except.ok true)) else none) := by
      rw [hstart.2, List.getElem?_map, hindex, Option.map_some']
    split
    · rfl
    · rename_i hnot
      rw [hslot]
      have hmem : ¬ index ∈ (List.range levelNumbers.length).filter (fun index =>
          ((lm.preloadStart levelNumbers).2.getD index none).isNone) := by
        intro h
        exact hnot ((List.perm_insertionSort _ _).mem_iff.mpr h)
      rw [List.mem_filter, List.mem_range, List.getD_eq_getElem?_getD, hslot] at hmem
      by_cases hcached : (LevelManager.cacheGet lm.levelCache levelNum).isSome = true
      · rw [if_pos hcached, hsound.ofLevel_of_cached levelNum hcached]
      · rw [if_neg hcached] at hmem
        exact absurd ⟨hlt, rfl⟩ hmem

/-- The call `levelCache.set` for one level number does not change what the cache returns
for another. -/
theorem LevelManager.cacheGet_cacheSet_of_ne (cache : List (ℚ × LevelData))
    (levelNumber other : ℚ) (levelData : LevelData) (hne : other ≠ levelNumber) :
    LevelManager.cacheGet (LevelManager.cacheSet cache levelNumber levelData) other =
      LevelManager.cacheGet cache other := by
  unfold LevelManager.cacheGet LevelManager.cacheSet
  have hbeq : (other == levelNumber) = false := by
    rw [beq_eq_false_iff_ne]
    exact hne
  have hmap : ∀ entries : List (ℚ × LevelData),
      List.lookup other (entries.map (fun entry =>
        if entry.1 == levelNumber then (levelNumber, levelData) else entry)) =
      List.lookup other entries := by
    intro entries
    induction entries with
    | nil => rfl
    | cons entry rest ih =>
      obtain ⟨key, value⟩ := entry
      rw [List.map_cons]
      by_cases hkey : (key == levelNumber) = true
      · have hk : key = levelNumber := by
          rw [beq_iff_eq] at hkey
          exact hkey
        rw [if_pos hkey, List.lookup_cons, List.lookup_cons, hbeq, hk, hbeq]
        exact ih
      · rw [if_neg hkey, List.lookup_cons, List.lookup_cons, ih]
  have happend : ∀ entries : List (ℚ × LevelData),
      List.lookup other (entries ++ [(levelNumber, levelData)]) = List.lookup other entries := by
    intro entries
    induction entries with
    | nil => rw [List.nil_append, List.lookup_cons, hbeq]
    | cons entry rest ih =>
      obtain ⟨key, value⟩ := entry
      rw [List.cons_append, List.lookup_cons, List.lookup_cons, ih]
  split
  · exact hmap cache
  · exact happend cache

/-- The continuation of a load with the repository's own fetch keeps the cache sound. -/
theorem LevelManager.CacheSound.loadLevelFetched {lm : LevelManager} (hsound : lm.CacheSound)
    (levelNumber : ℚ) :
    (lm.loadLevelFetched levelNumber (LevelManager.fetchLevelData levelNumber)).1.CacheSound := by
  unfold LevelManager.fetchLevelData
  cases hgen : LevelManager.generateLevelData levelNumber with
  | none => exact hsound
  | some levelData =>
    simp only []
    rw [lm.loadLevelFetched_valid levelNumber levelData
      (LevelManager.generateLevelData_valid levelNumber levelData hgen)]
    intro other cached hcached
    have hcached2 : LevelManager.cacheGet
        (LevelManager.cacheSet lm.levelCache levelNumber levelData) other = some cached := hcached
    by_cases hother : other = levelNumber
    · subst hother
      rw [LevelManager.cacheGet_cacheSet_self] at hcached2
      rw [← Option.some.inj hcached2]
      exact hgen
    · rw [LevelManager.cacheGet_cacheSet_of_ne _ _ _ _ hother] at hcached2
      exact hsound other cached hcached2

/-- The method `loadLevel` keeps the cache sound. -/
theorem LevelManager.CacheSound.loadLevel {lm : LevelManager} (hsound : lm.CacheSound)
    (levelNumber : ℚ) : (lm.loadLevel levelNumber).manager.CacheSound := by
  unfold LevelManager.loadLevel
  cases hget : LevelManager.cacheGet lm.levelCache levelNumber with
  | none =>
    rw [lm.loadLevelWith_miss levelNumber _ hget]
    exact hsound.loadLevelFetched levelNumber
  | some cached =>
    rw [lm.loadLevelWith_hit levelNumber _ cached hget]
    exact hsound

/-- The method `update` never touches the cache, so it keeps the cache sound. -/
theorem LevelManager.CacheSound.update {lm : LevelManager} (hsound : lm.CacheSound)
    (deltaTime : ℚ) (enemies : List Enemy) (random : ℚ) :
    (lm.update deltaTime enemies random).1.CacheSound := by
  have hcache : (lm.update deltaTime enemies random).1.levelCache = lm.levelCache := by
    cases hdata : lm.levelData with
    | none => rw [lm.update_inactive deltaTime enemies random (Or.inl hdata)]
    | some levelData =>
      cases hwave : levelData.waves[lm.waveIndex]? with
      | none =>
        rw [lm.update_inactive deltaTime enemies random
          (Or.inr ⟨levelData, hdata, List.getElem?_eq_none_iff.mp hwave⟩)]
      | some wave =>
        rw [lm.update_active levelData wave deltaTime enemies random hdata hwave]
        split <;> split <;> rfl
  intro levelNumber levelData h
  rw [hcache] at h
  exact hsound levelNumber levelData h

/-- The method `preloadLevels` keeps the cache sound. -/
theorem LevelManager.CacheSound.preloadLevels {lm : LevelManager} (hsound : lm.CacheSound)
    (levelNumbers : List ℚ) (delay : ℕ → ℚ) :
    (lm.preloadLevels levelNumbers delay).1.CacheSound := by
  have hfold : ∀ (order : List ℕ) (state : LevelManager × List (Option PreloadResult)),
      state.1.CacheSound →
      (order.foldl (LevelManager.preloadSettle levelNumbers) state).1.CacheSound := by
    intro order
    induction order with
    | nil => intro state h; exact h
    | cons first rest ih =>
      intro state h
      rw [List.foldl_cons]
      apply ih
      unfold LevelManager.preloadSettle
      cases levelNumbers[first]? with
      | none => exact h
      | some levelNum => exact h.loadLevelFetched levelNum
  unfold LevelManager.preloadLevels
  apply hfold
  intro levelNumber levelData h
  rw [(LevelManager.preloadStart_spec levelNumbers lm).1] at h
  exact hsound levelNumber levelData h

/-- C15: for every list of level numbers, and every manager whose cache holds built-in
levels only, `preloadLevels` returns a list with one entry per requested level, in
request order, whatever the order in which the fetches settle; entry `i` names the
`i`-th requested level, depends on that level alone, is marked loaded exactly when the
level is one of the built-in levels 1 to 5 (all of which pass validation), and carries
`Level not found` otherwise. -/
theorem preloadLevels_results (lm : LevelManager) (levelNumbers : List ℚ) (delay : ℕ → ℚ)
    (hsound : lm.CacheSound) :
    (lm.preloadLevels levelNumbers delay).2 = levelNumbers.map PreloadResult.ofLevel ∧
    (lm.preloadLevels levelNumbers delay).2.length = levelNumbers.length ∧
    (∀ (index : ℕ) (levelNum : ℚ), levelNumbers[index]? = some levelNum →
      ∃ entry, (lm.preloadLevels levelNumbers delay).2[index]? = some entry ∧
        entry.level = levelNum ∧
        (entry.loaded = true ↔
          levelNum = 1 ∨ levelNum = 2 ∨ levelNum = 3 ∨ levelNum = 4 ∨ levelNum = 5) ∧
        (entry.loaded = false → entry.error = some (LoadError.notFound levelNum))) ∧
    (∀ (levelNum : ℚ) (levelData : LevelData),
      LevelManager.generateLevelData levelNum = some levelData →
      LevelManager.validateLevelData levelData.toJS = some true) := by
  have hmap := lm.preloadLevels_eq_map levelNumbers delay hsound
  refine ⟨hmap, by rw [hmap, List.length_map], fun index levelNum hindex => ?_,
    LevelManager.generateLevelData_valid⟩
  refine ⟨PreloadResult.ofLevel levelNum, ?_, ?_, ?_, ?_⟩
  · rw [hmap, List.getElem?_map, hindex, Option.map_some']
  · unfold PreloadResult.ofLevel
    cases LevelManager.generateLevelData levelNum <;> rfl
  · rw [← LevelManager.generateLevelData_isSome_iff]
    unfold PreloadResult.ofLevel
    cases LevelManager.generateLevelData levelNum <;> simp [PreloadResult.ofOutcome]
  · unfold PreloadResult.ofLevel
    cases LevelManager.generateLevelData levelNum <;> simp [PreloadResult.ofOutcome]

/-- C15 at its concrete input: preloading [1, 99] on a new manager gives two entries,
level 1 loaded and level 99 failed with `Level not found`. -/
theorem preloadLevels_results_witness :
    (LevelManager.new.preloadLevels [1, 99] (fun _ => 500)).2 =
      [ { level := 1, loaded := true, error := none },
        { level := 99, loaded := false, error := some (LoadError.notFound 99) } ] := by
  rw [(preloadLevels_results LevelManager.new [1, 99] (fun _ => 500)
    LevelManager.new_cacheSound).1]
  decide!

/-! ## Collision resolution: the player -/

/-- The overlap test reads only the box of its argument. -/
theorem GameEntity.checkCollision_congr (e a b : GameEntity) (hx : a.x = b.x) (hy : a.y = b.y)
    (hw : a.width = b.width) (hh : a.height = b.height) :
    e.checkCollision a = e.checkCollision b := by
  simp only [GameEntity.checkCollision, hx, hy, hw, hh]

/-- The overlap test reads only the box of the entity it is called on. -/
theorem GameEntity.checkCollision_congr_left (a b other : GameEntity) (hx : a.x = b.x)
    (hy : a.y = b.y) (hw : a.width = b.width) (hh : a.height = b.height) :
    a.checkCollision other = b.checkCollision other := by
  simp only [GameEntity.checkCollision, hx, hy, hw, hh]

/-- The method `Player.takeDamage` leaves the player's box where it is. -/
theorem Player.takeDamage_box (p : Player) (amount : ℚ) :
    (p.takeDamage amount).1.x = p.x ∧ (p.takeDamage amount).1.y = p.y ∧
    (p.takeDamage amount).1.width = p.width ∧ (p.takeDamage amount).1.height = p.height := by
  cases hinv : p.invulnerable
  · rw [p.takeDamage_vulnerable amount hinv]
    exact ⟨rfl, rfl, rfl, rfl⟩
  · rw [p.takeDamage_invulnerable amount hinv]
    exact ⟨rfl, rfl, rfl, rfl⟩

/-- After one `takeDamage` the player is invulnerable, so a second one changes nothing. -/
theorem Player.takeDamage_takeDamage (p : Player) (amount second : ℚ) :
    ((p.takeDamage amount).1.takeDamage second).1 = (p.takeDamage amount).1 := by
  have hinv : (p.takeDamage amount).1.invulnerable = true := by
    cases h : p.invulnerable
    · rw [p.takeDamage_vulnerable amount h]
    · rw [p.takeDamage_invulnerable amount h]
      exact h
  rw [(p.takeDamage amount).1.takeDamage_invulnerable second hinv]

/-- The health after `takeDamage()`: one less for a vulnerable player, the same for an
invulnerable one. -/
theorem Player.takeDamage_health (p : Player) :
    (p.takeDamage 1).1.health = if p.invulnerable = true then p.health else p.health - 1 := by
  cases hinv : p.invulnerable
  · rw [p.takeDamage_vulnerable 1 hinv]
    rfl
  · rw [p.takeDamage_invulnerable 1 hinv]
    rfl

/-- The listener of `playerHit` and `gameOver` leave the entity collections, the player,
the score and the defeated counter alone. -/
theorem StarRunnerGame.handleEvents_frame (events : List Event) :
    ∀ g : StarRunnerGame,
      (g.handleEvents events).player = g.player ∧
      (g.handleEvents events).projectiles = g.projectiles ∧
      (g.handleEvents events).enemies = g.enemies ∧
      (g.handleEvents events).powerUps = g.powerUps ∧
      (g.handleEvents events).score = g.score ∧
      (g.handleEvents events).statistics.enemiesDefeated = g.statistics.enemiesDefeated ∧
      (g.handleEvents events).statistics.powerUpsCollected = g.statistics.powerUpsCollected := by
  induction events with
  | nil => intro g; exact ⟨rfl, rfl, rfl, rfl, rfl, rfl, rfl⟩
  | cons event rest ih =>
    intro g
    have hstep : (g.handleEvent event).player = g.player ∧
        (g.handleEvent event).projectiles = g.projectiles ∧
        (g.handleEvent event).enemies = g.enemies ∧
        (g.handleEvent event).powerUps = g.powerUps ∧
        (g.handleEvent event).score = g.score ∧
        (g.handleEvent event).statistics.enemiesDefeated = g.statistics.enemiesDefeated ∧
        (g.handleEvent event).statistics.powerUpsCollected =
          g.statistics.powerUpsCollected := by
      cases event with
      | playerHit health =>
        simp only [StarRunnerGame.handleEvent]
        split <;> exact ⟨rfl, rfl, rfl, rfl, rfl, rfl, rfl⟩
      | powerUpActivated type duration => exact ⟨rfl, rfl, rfl, rfl, rfl, rfl, rfl⟩
      | powerUpExpired type => exact ⟨rfl, rfl, rfl, rfl, rfl, rfl, rfl⟩
    have h := ih (g.handleEvent event)
    simp only [StarRunnerGame.handleEvents, List.foldl_cons] at h ⊢
    rw [h.1, h.2.1, h.2.2.1, h.2.2.2.1, h.2.2.2.2.1, h.2.2.2.2.2.1, h.2.2.2.2.2.2]
    exact hstep

/-- The call `this.player.takeDamage()` with its listeners: the player is the damaged
player, and the entity collections, the score and the defeated counter are unchanged. -/
theorem StarRunnerGame.playerTakeDamage_frame (g : StarRunnerGame) :
    g.playerTakeDamage.player = (g.player.takeDamage 1).1 ∧
    g.playerTakeDamage.projectiles = g.projectiles ∧
    g.playerTakeDamage.enemies = g.enemies ∧
    g.playerTakeDamage.powerUps = g.powerUps ∧
    g.playerTakeDamage.score = g.score ∧
    g.playerTakeDamage.statistics.enemiesDefeated = g.statistics.enemiesDefeated := by
  have h := StarRunnerGame.handleEvents_frame (g.player.takeDamage 1).2
    { g with player := (g.player.takeDamage 1).1 }
  exact ⟨h.1, h.2.1, h.2.2.1, h.2.2.2.1, h.2.2.2.2.1, h.2.2.2.2.2.1⟩

/-- The second pass of `checkCollisions` after visiting the indices `n - 1, ..., 0`: every
visited enemy projectile that overlaps the player is inactive, every other projectile is
as before, and the player has taken `takeDamage()` if some visited enemy projectile
overlaps, and is as before otherwise. -/
theorem StarRunnerGame.enemyProjectilesVsPlayer_spec (n : ℕ) :
    ∀ g : StarRunnerGame,
      (∀ k : ℕ, (g.enemyProjectilesVsPlayer n).projectiles[k]? =
        if k < n then
          (g.projectiles[k]?).map (fun projectile =>
            if projectile.owner = "enemy" ∧
                projectile.checkCollision g.player.toGameEntity = true
            then { projectile with active := false } else projectile)
        else g.projectiles[k]?) ∧
      ((∃ k projectile, k < n ∧ g.projectiles[k]? = some projectile ∧
          projectile.owner = "enemy" ∧
          projectile.checkCollision g.player.toGameEntity = true) →
        (g.enemyProjectilesVsPlayer n).player = (g.player.takeDamage 1).1) ∧
      ((¬ ∃ k projectile, k < n ∧ g.projectiles[k]? = some projectile ∧
          projectile.owner = "enemy" ∧
          projectile.checkCollision g.player.toGameEntity = true) →
        (g.enemyProjectilesVsPlayer n).player = g.player) := by
  induction n with
  | zero =>
    intro g
    refine ⟨fun k => ?_, fun h => ?_, fun _ => rfl⟩
    · simp [StarRunnerGame.enemyProjectilesVsPlayer]
    · obtain ⟨k, _, hk, _⟩ := h
      exact absurd hk (Nat.not_lt_zero k)
  | succ n ih =>
    intro g
    have hskip : g.enemyProjectilesVsPlayer (n + 1) = g.enemyProjectilesVsPlayer n →
        (∀ projectile, g.projectiles[n]? = some projectile →
          ¬ (projectile.owner = "enemy" ∧
            projectile.checkCollision g.player.toGameEntity = true)) →
        (∀ k : ℕ, (g.enemyProjectilesVsPlayer (n + 1)).projectiles[k]? =
          if k < n + 1 then
            (g.projectiles[k]?).map (fun projectile =>
              if projectile.owner = "enemy" ∧
                  projectile.checkCollision g.player.toGameEntity = true
              then { projectile with active := false } else projectile)
          else g.projectiles[k]?) ∧
        ((∃ k projectile, k < n + 1 ∧ g.projectiles[k]? = some projectile ∧
            projectile.owner = "enemy" ∧
            projectile.checkCollision g.player.toGameEntity = true) →
          (g.enemyProjectilesVsPlayer (n + 1)).player = (g.player.takeDamage 1).1) ∧
        ((¬ ∃ k projectile, k < n + 1 ∧ g.projectiles[k]? = some projectile ∧
            projectile.owner = "enemy" ∧
            projectile.checkCollision g.player.toGameEntity = true) →
          (g.enemyProjectilesVsPlayer (n + 1)).player = g.player) := by
      intro hstep hmiss
      rw [hstep]
      obtain ⟨h1, h2, h3⟩ := ih g
      refine ⟨fun k => ?_, fun h => ?_, fun h => ?_⟩
      · rw [h1 k]
        by_cases hk : k < n
        · rw [if_pos hk, if_pos (Nat.lt_succ_of_lt hk)]
        · rw [if_neg hk]
          by_cases hkn : k = n
          · subst hkn
            rw [if_pos (Nat.lt_succ_self k)]
            cases hget : g.projectiles[k]? with
            | none => rfl
            | some projectile =>
              rw [Option.map_some', if_neg (hmiss projectile hget)]
          · rw [if_neg (by omega)]
      · apply h2
        obtain ⟨k, projectile, hk, hget, hhit⟩ := h
        rcases Nat.lt_succ_iff_lt_or_eq.mp hk with hlt | heq
        · exact ⟨k, projectile, hlt, hget, hhit⟩
        · subst heq
          exact absurd hhit (hmiss projectile hget)
      · apply h3
        rintro ⟨k, projectile, hk, hget, hhit⟩
        exact h ⟨k, projectile, Nat.lt_succ_of_lt hk, hget, hhit⟩
    cases hget : g.projectiles[n]? with
    | none =>
      apply hskip
      · simp only [StarRunnerGame.enemyProjectilesVsPlayer, hget]
      · intro other h
        rw [hget] at h
        exact absurd h (by simp)
    | some projectile =>
      by_cases howner : projectile.owner = "enemy"
      · cases hcol : projectile.checkCollision g.player.toGameEntity with
        | false =>
          apply hskip
          · simp [StarRunnerGame.enemyProjectilesVsPlayer, hget, howner, hcol]
          · intro other h
            rw [hget] at h
            cases h
            intro hh
            rw [hcol] at hh
            exact absurd hh.2 (by decide)
        | true =>
          obtain ⟨hit, hhit⟩ : ∃ hit : Projectile, hit = { projectile with active := false } :=
            ⟨_, rfl⟩
          obtain ⟨g1, hg1⟩ : ∃ g1 : StarRunnerGame,
              g1 = ({ g with projectiles := g.projectiles.set n hit }).playerTakeDamage :=
            ⟨_, rfl⟩
          have hstep : g.enemyProjectilesVsPlayer (n + 1) = g1.enemyProjectilesVsPlayer n := by
            rw [hg1, hhit]
            simp [StarRunnerGame.enemyProjectilesVsPlayer, hget, howner, hcol]
          have hframe := StarRunnerGame.playerTakeDamage_frame
            { g with projectiles := g.projectiles.set n hit }
          rw [← hg1] at hframe
          have hg1player : g1.player = (g.player.takeDamage 1).1 := hframe.1
          have hg1projectiles : g1.projectiles = g.projectiles.set n hit := hframe.2.1
          have hbox := g.player.takeDamage_box 1
          have hsame : ∀ other : Projectile,
              other.checkCollision g1.player.toGameEntity =
                other.checkCollision g.player.toGameEntity := by
            intro other
            rw [hg1player]
            exact GameEntity.checkCollision_congr _ _ _ hbox.1 hbox.2.1 hbox.2.2.1 hbox.2.2.2
          have hlt : n < g.projectiles.length := (List.getElem?_eq_some.mp hget).1
          obtain ⟨h1, h2, h3⟩ := ih g1
          have hplayer : (g.enemyProjectilesVsPlayer (n + 1)).player =
              (g.player.takeDamage 1).1 := by
            rw [hstep]
            by_cases hex : ∃ k other, k < n ∧ g1.projectiles[k]? = some other ∧
                other.owner = "enemy" ∧ other.checkCollision g1.player.toGameEntity = true
            · rw [h2 hex, hg1player]
              exact Player.takeDamage_takeDamage g.player 1 1
            · rw [h3 hex, hg1player]
          refine ⟨fun k => ?_, fun _ => hplayer, fun h => ?_⟩
          · rw [hstep, h1 k, hg1projectiles]
            simp only [hsame]
            by_cases hk : k < n
            · rw [if_pos hk, if_pos (Nat.lt_succ_of_lt hk),
                List.getElem?_set_ne (by omega)]
            · rw [if_neg hk]
              by_cases hkn : k = n
              · subst hkn
                rw [if_pos (Nat.lt_succ_self k), List.getElem?_set_self hlt, hget,
                  Option.map_some', if_pos ⟨howner, hcol⟩, hhit]
              · rw [if_neg (by omega), List.getElem?_set_ne (Ne.symm hkn)]
          · exact absurd ⟨n, projectile, Nat.lt_succ_self n, hget, howner, hcol⟩ h
      · apply hskip
        · simp [StarRunnerGame.enemyProjectilesVsPlayer, hget, howner]
        · intro other h
          rw [hget] at h
          cases h
          exact fun hh => howner hh.1

/-- C16: in the enemy-projectile pass of `checkCollisions` every enemy-owned projectile
that overlaps the player is deactivated and every other projectile (not overlapping, or
not enemy-owned) is left as it was; the player's health drops by exactly 1 when at least
one enemy projectile overlaps and the player was not invulnerable at the start of the
pass, and the player is unchanged or, when invulnerable, keeps its health otherwise. -/
theorem enemy_projectile_pass_damages_once (g : StarRunnerGame) :
    (g.enemyProjectilesVsPlayer g.projectiles.length).projectiles =
      g.projectiles.map (fun projectile =>
        if projectile.owner = "enemy" ∧ projectile.checkCollision g.player.toGameEntity = true
        then { projectile with active := false } else projectile) ∧
    (((∃ projectile ∈ g.projectiles, projectile.owner = "enemy" ∧
          projectile.checkCollision g.player.toGameEntity = true) ∧
        g.player.invulnerable = false) →
      (g.enemyProjectilesVsPlayer g.projectiles.length).player.health = g.player.health - 1) ∧
    ((¬ ∃ projectile ∈ g.projectiles, projectile.owner = "enemy" ∧
          projectile.checkCollision g.player.toGameEntity = true) →
      (g.enemyProjectilesVsPlayer g.projectiles.length).player = g.player) ∧
    (g.player.invulnerable = true →
      (g.enemyProjectilesVsPlayer g.projectiles.length).player = g.player) := by
  obtain ⟨h1, h2, h3⟩ := StarRunnerGame.enemyProjectilesVsPlayer_spec g.projectiles.length g
  have hiff : (∃ k projectile, k < g.projectiles.length ∧ g.projectiles[k]? = some projectile ∧
        projectile.owner = "enemy" ∧ projectile.checkCollision g.player.toGameEntity = true) ↔
      ∃ projectile ∈ g.projectiles, projectile.owner = "enemy" ∧
        projectile.checkCollision g.player.toGameEntity = true := by
    constructor
    · rintro ⟨k, projectile, _, hget, hhit⟩
      exact ⟨projectile, List.getElem?_mem hget, hhit⟩
    · rintro ⟨projectile, hmem, hhit⟩
      obtain ⟨k, hget⟩ := List.mem_iff_getElem?.mp hmem
      exact ⟨k, projectile, (List.getElem?_eq_some.mp hget).1, hget, hhit⟩
  refine ⟨?_, fun h => ?_, fun h => ?_, fun hinv => ?_⟩
  · apply List.ext_getElem?
    intro k
    rw [h1 k, List.getElem?_map]
    by_cases hk : k < g.projectiles.length
    · rw [if_pos hk]
    · rw [if_neg hk, List.getElem?_eq_none_iff.mpr (not_lt.mp hk)]
      rfl
  · rw [h2 (hiff.mpr h.1), g.player.takeDamage_health, h.2]
    simp
  · exact h3 (fun hex => h (hiff.mp hex))
  · by_cases hex : ∃ k projectile, k < g.projectiles.length ∧
        g.projectiles[k]? = some projectile ∧ projectile.owner = "enemy" ∧
        projectile.checkCollision g.player.toGameEntity = true
    · rw [h2 hex, g.player.takeDamage_invulnerable 1 hinv]
    · exact h3 hex

/-- Repeated `this.player.takeDamage()` calls leave the enemies, the score and the
defeated counter alone and keep the player's box in place. -/
theorem StarRunnerGame.playerTakeDamage_iterate_frame (count : ℕ) :
    ∀ g : StarRunnerGame,
      (StarRunnerGame.playerTakeDamage^[count] g).score = g.score ∧
      (StarRunnerGame.playerTakeDamage^[count] g).statistics.enemiesDefeated =
        g.statistics.enemiesDefeated ∧
      (StarRunnerGame.playerTakeDamage^[count] g).enemies = g.enemies ∧
      (StarRunnerGame.playerTakeDamage^[count] g).projectiles = g.projectiles ∧
      (StarRunnerGame.playerTakeDamage^[count] g).powerUps = g.powerUps := by
  induction count with
  | zero => intro g; exact ⟨rfl, rfl, rfl, rfl, rfl⟩
  | succ count ih =>
    intro g
    rw [Function.iterate_succ_apply]
    obtain ⟨h1, h2, h3, h4, h5⟩ := ih g.playerTakeDamage
    have hframe := g.playerTakeDamage_frame
    exact ⟨h1.trans hframe.2.2.2.2.1, h2.trans hframe.2.2.2.2.2, h3.trans hframe.2.2.1,
      h4.trans hframe.2.1, h5.trans hframe.2.2.2.1⟩

/-- The third pass of `checkCollisions` on a list of enemies: each enemy that overlaps
the player comes out inactive and otherwise as it was, the others come out unchanged, and
the game has seen one `this.player.takeDamage()` per overlapping enemy. -/
theorem StarRunnerGame.playerVsEnemies_spec (enemies : List Enemy) :
    ∀ g : StarRunnerGame,
      (g.playerVsEnemies enemies).2 = enemies.map (fun enemy =>
        if enemy.checkCollision g.player.toGameEntity = true
        then { enemy with active := false } else enemy) ∧
      (g.playerVsEnemies enemies).1 =
        StarRunnerGame.playerTakeDamage^[enemies.countP (fun enemy =>
          enemy.checkCollision g.player.toGameEntity)] g := by
  induction enemies with
  | nil => intro g; exact ⟨rfl, rfl⟩
  | cons enemy rest ih =>
    intro g
    cases hcol : enemy.checkCollision g.player.toGameEntity with
    | false =>
      have hstep : g.playerVsEnemies (enemy :: rest) =
          ((g.playerVsEnemies rest).1, enemy :: (g.playerVsEnemies rest).2) := by
        simp [StarRunnerGame.playerVsEnemies, hcol]
      rw [hstep, List.map_cons, List.countP_cons_of_neg _ _ (by simp [hcol])]
      refine ⟨?_, (ih g).2⟩
      rw [(ih g).1]
      simp [hcol]
    | true =>
      have hstep : g.playerVsEnemies (enemy :: rest) =
          ((g.playerTakeDamage.playerVsEnemies rest).1,
           { enemy with active := false } :: (g.playerTakeDamage.playerVsEnemies rest).2) := by
        simp [StarRunnerGame.playerVsEnemies, hcol]
      have hbox := g.player.takeDamage_box 1
      have hsame : ∀ other : Enemy,
          other.checkCollision g.playerTakeDamage.player.toGameEntity =
            other.checkCollision g.player.toGameEntity := by
        intro other
        rw [g.playerTakeDamage_frame.1]
        exact GameEntity.checkCollision_congr _ _ _ hbox.1 hbox.2.1 hbox.2.2.1 hbox.2.2.2
      rw [hstep, List.map_cons, List.countP_cons_of_pos _ _ (by simp [hcol]),
        Function.iterate_succ_apply]
      obtain ⟨h1, h2⟩ := ih g.playerTakeDamage
      simp only [hsame] at h1 h2
      refine ⟨?_, h2⟩
      rw [h1]
      simp [hcol]

/-- C17: in the body-overlap pass of `checkCollisions` every enemy whose box overlaps the
player's box is deactivated whatever its health, every other enemy is unchanged, the
score and the defeated-enemy counter are unchanged, and the game goes through exactly one
`this.player.takeDamage()` call per overlapping enemy. -/
theorem body_overlap_pass_deactivates_enemies (g : StarRunnerGame) :
    (g.playerVsEnemies g.enemies).2 = g.enemies.map (fun enemy =>
      if enemy.checkCollision g.player.toGameEntity = true
      then { enemy with active := false } else enemy) ∧
    (g.playerVsEnemies g.enemies).1 =
      StarRunnerGame.playerTakeDamage^[g.enemies.countP (fun enemy =>
        enemy.checkCollision g.player.toGameEntity)] g ∧
    (g.playerVsEnemies g.enemies).1.score = g.score ∧
    (g.playerVsEnemies g.enemies).1.statistics.enemiesDefeated =
      g.statistics.enemiesDefeated := by
  obtain ⟨h1, h2⟩ := StarRunnerGame.playerVsEnemies_spec g.enemies g
  refine ⟨h1, h2, ?_, ?_⟩
  · rw [h2]
    exact (StarRunnerGame.playerTakeDamage_iterate_frame _ g).1
  · rw [h2]
    exact (StarRunnerGame.playerTakeDamage_iterate_frame _ g).2.1

/-- C17 at a concrete input: a boss with health 10 touching the player is deactivated
with its health still 10, no score is awarded, and the player loses one health. -/
theorem body_overlap_pass_deactivates_enemies_witness :
    (bossContactSession.playerVsEnemies bossContactSession.enemies).2.map
      (fun enemy => (enemy.active, enemy.health)) = [(false, 10), (true, 1)] ∧
    (bossContactSession.playerVsEnemies bossContactSession.enemies).1.score = 0 ∧
    (bossContactSession.playerVsEnemies bossContactSession.enemies).1.player.health = 2 := by
  refine ⟨?_, ?_, by decide!⟩
  · rw [(body_overlap_pass_deactivates_enemies bossContactSession).1]
    decide!
  · rw [(body_overlap_pass_deactivates_enemies bossContactSession).2.2.1]
    decide!

/-! ## Collision resolution: power-ups -/

/-- The method `Player.shoot` leaves `maxHealth` alone. -/
theorem Player.shoot_maxHealth (p : Player) : p.shoot.1.maxHealth = p.maxHealth := by
  simp only [Player.shoot]
  split_ifs <;> rfl

/-- In play the player's `maxHealth` is 3 and its health is an integer of at most 3. -/
theorem Player.InPlay.health_bound {p : Player} (h : p.InPlay) :
    p.maxHealth = 3 ∧ p.health ≤ 3 ∧ ∃ k : ℤ, p.health = k := by
  induction h with
  | new x y => exact ⟨rfl, le_refl (3 : ℚ), 3, by norm_num [Player.new, GameEntity.new]⟩
  | @update q deltaTime keys _ ih =>
    rw [(q.update_health_active deltaTime keys).1]
    exact ih
  | @takeDamage q _ ih =>
    obtain ⟨hmax, hle, k, hk⟩ := ih
    cases hinv : q.invulnerable
    · rw [q.takeDamage_vulnerable 1 hinv]
      refine ⟨hmax, ?_, k - 1, ?_⟩
      · show q.health - 1 ≤ 3
        linarith
      · show q.health - 1 = ((k - 1 : ℤ) : ℚ)
        rw [hk]
        push_cast
        ring
    · rw [q.takeDamage_invulnerable 1 hinv]
      exact ⟨hmax, hle, k, hk⟩
  | @shoot q _ ih =>
    rw [q.shoot_maxHealth, q.shoot_fields.1]
    exact ih
  | @addPowerUp q type _ ih => exact ih
  | @collectHealth q _ ih =>
    obtain ⟨hmax, hle, k, hk⟩ := ih
    unfold Player.collectHealth
    split
    · rename_i hlt
      have hk3 : k < 3 := by
        have h3 : (k : ℚ) < 3 := by
          rw [← hk, ← hmax]
          exact hlt
        exact_mod_cast h3
      refine ⟨hmax, ?_, k + 1, ?_⟩
      · show q.health + 1 ≤ 3
        rw [hk]
        have : k + 1 ≤ 3 := by omega
        exact_mod_cast this
      · show q.health + 1 = ((k + 1 : ℤ) : ℚ)
        rw [hk]
        push_cast
        ring
    · exact ⟨hmax, hle, k, hk⟩

/-- In play a health pick-up sets the health to `min(health + 1, maxHealth)`. -/
theorem Player.InPlay.collectHealth_health {p : Player} (h : p.InPlay) :
    p.collectHealth.health = min (p.health + 1) p.maxHealth := by
  obtain ⟨hmax, hle, k, hk⟩ := h.health_bound
  unfold Player.collectHealth
  split
  · rename_i hlt
    have hk3 : k < 3 := by
      have h3 : (k : ℚ) < 3 := by
        rw [← hk, ← hmax]
        exact hlt
      exact_mod_cast h3
    have hle1 : p.health + 1 ≤ p.maxHealth := by
      rw [hk, hmax]
      have : k + 1 ≤ 3 := by omega
      exact_mod_cast this
    show p.health + 1 = min (p.health + 1) p.maxHealth
    rw [min_eq_left hle1]
  · rename_i hnot
    have heq : p.health = p.maxHealth := le_antisymm (by rw [hmax]; exact hle) (not_lt.mp hnot)
    rw [min_eq_right (by rw [heq]; linarith), heq]

/-- After `addPowerUp(type)` the remaining duration of that buff is exactly 10. -/
theorem Player.addPowerUp_lookup_self (p : Player) (type : String) :
    (p.addPowerUp type).1.powerUps.lookup type = some 10 := by
  have hmap : ∀ entries : List (String × ℚ), entries.any (fun kv => kv.1 == type) = true →
      List.lookup type (entries.map (fun kv => if kv.1 == type then (type, (10 : ℚ)) else kv)) =
        some 10 := by
    intro entries
    induction entries with
    | nil => intro h; simp at h
    | cons entry rest ih =>
      intro h
      obtain ⟨key, value⟩ := entry
      rw [List.map_cons]
      by_cases hkey : (key == type) = true
      · rw [if_pos hkey, List.lookup_cons, beq_self_eq_true]
      · have hne : (type == key) = false := by
          rw [beq_eq_false_iff_ne]
          intro heq
          exact hkey (by rw [heq]; exact beq_self_eq_true key)
        rw [List.any_cons, Bool.or_eq_true] at h
        rcases h with h | h
        · exact absurd h hkey
        · rw [if_neg hkey, List.lookup_cons, hne]
          exact ih h
  have happend : ∀ entries : List (String × ℚ), entries.any (fun kv => kv.1 == type) = false →
      List.lookup type (entries ++ [(type, (10 : ℚ))]) = some 10 := by
    intro entries
    induction entries with
    | nil => intro _; rw [List.nil_append, List.lookup_cons, beq_self_eq_true]
    | cons entry rest ih =>
      intro h
      obtain ⟨key, value⟩ := entry
      rw [List.any_cons, Bool.or_eq_false_iff] at h
      have hne : (type == key) = false := by
        rw [beq_eq_false_iff_ne]
        intro heq
        have := h.1
        rw [heq] at this
        simp at this
      rw [List.cons_append, List.lookup_cons, hne]
      exact ih h.2
  simp only [Player.addPowerUp]
  cases hany : p.powerUps.any (fun kv => kv.1 == type)
  · simp only [Bool.false_eq_true, if_false]
    exact happend p.powerUps hany
  · simp only [if_true]
    exact hmap p.powerUps hany

/-- After `addPowerUp(type)` every other buff has the remaining duration it had. -/
theorem Player.addPowerUp_lookup_other (p : Player) (type other : String) (hne : other ≠ type) :
    (p.addPowerUp type).1.powerUps.lookup other = p.powerUps.lookup other := by
  have hbeq : (other == type) = false := by
    rw [beq_eq_false_iff_ne]
    exact hne
  have hmap : ∀ entries : List (String × ℚ),
      List.lookup other (entries.map (fun kv => if kv.1 == type then (type, (10 : ℚ)) else kv)) =
        List.lookup other entries := by
    intro entries
    induction entries with
    | nil => rfl
    | cons entry rest ih =>
      obtain ⟨key, value⟩ := entry
      rw [List.map_cons]
      by_cases hkey : (key == type) = true
      · have hk : key = type := by
          rw [beq_iff_eq] at hkey
          exact hkey
        rw [if_pos hkey, List.lookup_cons, List.lookup_cons, hbeq, hk, hbeq]
        exact ih
      · rw [if_neg hkey, List.lookup_cons, List.lookup_cons, ih]
  have happend : ∀ entries : List (String × ℚ),
      List.lookup other (entries ++ [(type, (10 : ℚ))]) = List.lookup other entries := by
    intro entries
    induction entries with
    | nil => rw [List.nil_append, List.lookup_cons, hbeq]
    | cons entry rest ih =>
      obtain ⟨key, value⟩ := entry
      rw [List.cons_append, List.lookup_cons, List.lookup_cons, ih]
  simp only [Player.addPowerUp]
  split
  · exact hmap p.powerUps
  · exact happend p.powerUps

/-- The method `collectPowerUp` without its listeners, which change nothing: the collected
counter grows by one, a `health` power-up is a health pick-up that also copies the health
to `lives`, a `rapidFire` or `multiShot` power-up is an `addPowerUp`, and any other type
does nothing more. -/
theorem StarRunnerGame.collectPowerUp_eq (g : StarRunnerGame) (powerUp : PowerUp) :
    g.collectPowerUp powerUp =
      if powerUp.type = "health" then
        if g.player.health < g.player.maxHealth then
          { g with statistics := { g.statistics with
                     powerUpsCollected := g.statistics.powerUpsCollected + 1 },
                   player := { g.player with health := g.player.health + 1 },
                   lives := g.player.health + 1 }
        else
          { g with statistics := { g.statistics with
                     powerUpsCollected := g.statistics.powerUpsCollected + 1 } }
      else if powerUp.type = "rapidFire" ∨ powerUp.type = "multiShot" then
        { g with statistics := { g.statistics with
                   powerUpsCollected := g.statistics.powerUpsCollected + 1 },
                 player := (g.player.addPowerUp powerUp.type).1 }
      else
        { g with statistics := { g.statistics with
                   powerUpsCollected := g.statistics.powerUpsCollected + 1 } } := by
  unfold StarRunnerGame.collectPowerUp
  simp only []
  split
  · split <;> rfl
  · split
    · rfl
    · rfl

/-- The method `collectPowerUp` leaves the power-up list and the player's box alone. -/
theorem StarRunnerGame.collectPowerUp_frame (g : StarRunnerGame) (powerUp : PowerUp) :
    (g.collectPowerUp powerUp).powerUps = g.powerUps ∧
    (g.collectPowerUp powerUp).player.x = g.player.x ∧
    (g.collectPowerUp powerUp).player.y = g.player.y ∧
    (g.collectPowerUp powerUp).player.width = g.player.width ∧
    (g.collectPowerUp powerUp).player.height = g.player.height := by
  rw [g.collectPowerUp_eq powerUp]
  split
  · split <;> exact ⟨rfl, rfl, rfl, rfl, rfl⟩
  · split <;> exact ⟨rfl, rfl, rfl, rfl, rfl⟩

/-- The method `collectPowerUp` does not read the power-up list. -/
theorem StarRunnerGame.collectPowerUp_setPowerUps (g : StarRunnerGame) (powerUp : PowerUp)
    (powerUps : List PowerUp) :
    ({ g with powerUps := powerUps }).collectPowerUp powerUp =
      { g.collectPowerUp powerUp with powerUps := powerUps } := by
  rw [g.collectPowerUp_eq powerUp, StarRunnerGame.collectPowerUp_eq]
  split
  · split <;> rfl
  · split <;> rfl

/-- A sequence of `collectPowerUp` calls does not read the power-up list. -/
theorem StarRunnerGame.collectPowerUp_foldl_setPowerUps (collected : List PowerUp) :
    ∀ (g : StarRunnerGame) (powerUps : List PowerUp),
      collected.foldl StarRunnerGame.collectPowerUp { g with powerUps := powerUps } =
        { collected.foldl StarRunnerGame.collectPowerUp g with powerUps := powerUps } := by
  induction collected with
  | nil => intro g powerUps; rfl
  | cons powerUp rest ih =>
    intro g powerUps
    rw [List.foldl_cons, List.foldl_cons, g.collectPowerUp_setPowerUps powerUp powerUps, ih]

/-- The player stays in play through `collectPowerUp`. -/
theorem StarRunnerGame.collectPowerUp_inPlay (g : StarRunnerGame) (powerUp : PowerUp)
    (h : g.player.InPlay) : (g.collectPowerUp powerUp).player.InPlay := by
  rw [g.collectPowerUp_eq powerUp]
  split
  · have hc := Player.InPlay.collectHealth h
    unfold Player.collectHealth at hc
    split
    · rename_i hlt
      rw [if_pos hlt] at hc
      exact hc
    · exact h
  · split
    · exact Player.InPlay.addPowerUp powerUp.type h
    · exact h

/-- The player stays in play through a sequence of `collectPowerUp` calls. -/
theorem StarRunnerGame.collectPowerUp_foldl_inPlay (collected : List PowerUp) :
    ∀ g : StarRunnerGame, g.player.InPlay →
      (collected.foldl StarRunnerGame.collectPowerUp g).player.InPlay := by
  induction collected with
  | nil => intro g h; exact h
  | cons powerUp rest ih =>
    intro g h
    rw [List.foldl_cons]
    exact ih _ (g.collectPowerUp_inPlay powerUp h)

/-- Writing index `n` of a list leaves its first `n` entries alone. -/
theorem StarRunnerGame.take_set_self (powerUps : List PowerUp) (n : ℕ) (powerUp : PowerUp) :
    (powerUps.set n powerUp).take n = powerUps.take n := by
  apply List.ext_getElem?
  intro i
  rw [List.getElem?_take, List.getElem?_take]
  split
  · rw [List.getElem?_set_ne (by omega)]
  · rfl

/-- The fourth pass of `checkCollisions` after visiting the indices `n - 1, ..., 0`: every
visited power-up that overlaps the player is inactive, every other one is as before, and
apart from the power-up list the game is the result of `collectPowerUp` on the visited
overlapping power-ups, last index first. -/
theorem StarRunnerGame.playerVsPowerUps_spec (n : ℕ) :
    ∀ g : StarRunnerGame,
      (∀ k : ℕ, (g.playerVsPowerUps n).powerUps[k]? =
        if k < n then
          (g.powerUps[k]?).map (fun powerUp =>
            if powerUp.checkCollision g.player.toGameEntity = true
            then { powerUp with active := false } else powerUp)
        else g.powerUps[k]?) ∧
      g.playerVsPowerUps n =
        { ((g.powerUps.take n).reverse.filter (fun powerUp =>
            powerUp.checkCollision g.player.toGameEntity)).foldl
              StarRunnerGame.collectPowerUp g with
          powerUps := (g.playerVsPowerUps n).powerUps } := by
  induction n with
  | zero =>
    intro g
    refine ⟨fun k => ?_, rfl⟩
    simp [StarRunnerGame.playerVsPowerUps]
  | succ n ih =>
    intro g
    cases hget : g.powerUps[n]? with
    | none =>
      have hstep : g.playerVsPowerUps (n + 1) = g.playerVsPowerUps n := by
        simp only [StarRunnerGame.playerVsPowerUps, hget]
      obtain ⟨h1, h2⟩ := ih g
      rw [hstep, List.take_succ, hget, Option.toList, List.append_nil]
      refine ⟨fun k => ?_, h2⟩
      rw [h1 k]
      by_cases hk : k < n
      · rw [if_pos hk, if_pos (Nat.lt_succ_of_lt hk)]
      · rw [if_neg hk]
        by_cases hkn : k = n
        · subst hkn
          rw [if_pos (Nat.lt_succ_self k), hget]
          rfl
        · rw [if_neg (by omega)]
    | some powerUp =>
      have htake : ((g.powerUps.take (n + 1)).reverse.filter (fun other : PowerUp =>
            other.checkCollision g.player.toGameEntity)) =
          (if powerUp.checkCollision g.player.toGameEntity = true then [powerUp] else []) ++
            ((g.powerUps.take n).reverse.filter (fun other : PowerUp =>
              other.checkCollision g.player.toGameEntity)) := by
        rw [List.take_succ, hget, Option.toList, List.reverse_append, List.filter_append]
        cases hc : powerUp.checkCollision g.player.toGameEntity <;> simp [hc]
      cases hcol : powerUp.checkCollision g.player.toGameEntity with
      | false =>
        have hstep : g.playerVsPowerUps (n + 1) = g.playerVsPowerUps n := by
          simp [StarRunnerGame.playerVsPowerUps, hget, hcol]
        obtain ⟨h1, h2⟩ := ih g
        rw [htake, hcol, hstep]
        refine ⟨fun k => ?_, h2⟩
        rw [h1 k]
        by_cases hk : k < n
        · rw [if_pos hk, if_pos (Nat.lt_succ_of_lt hk)]
        · rw [if_neg hk]
          by_cases hkn : k = n
          · subst hkn
            rw [if_pos (Nat.lt_succ_self k), hget, Option.map_some', hcol]
            rfl
          · rw [if_neg (by omega)]
      | true =>
        obtain ⟨collected, hcollected⟩ :
            ∃ collected : PowerUp, collected = { powerUp with active := false } := ⟨_, rfl⟩
        obtain ⟨g1, hg1⟩ : ∃ g1 : StarRunnerGame,
            g1 = { g.collectPowerUp powerUp with powerUps := g.powerUps.set n collected } :=
          ⟨_, rfl⟩
        have hframe := g.collectPowerUp_frame powerUp
        have hstep : g.playerVsPowerUps (n + 1) = g1.playerVsPowerUps n := by
          rw [hg1, hcollected, ← hframe.1]
          simp [StarRunnerGame.playerVsPowerUps, hget, hcol]
        have hg1powerUps : g1.powerUps = g.powerUps.set n collected := by rw [hg1]
        have hsame : ∀ other : PowerUp,
            other.checkCollision g1.player.toGameEntity =
              other.checkCollision g.player.toGameEntity := by
          intro other
          rw [hg1]
          exact GameEntity.checkCollision_congr _ _ _ hframe.2.1 hframe.2.2.1 hframe.2.2.2.1
            hframe.2.2.2.2
        have hlt : n < g.powerUps.length := (List.getElem?_eq_some.mp hget).1
        obtain ⟨h1, h2⟩ := ih g1
        rw [htake, hcol, if_pos rfl, List.singleton_append, List.foldl_cons, hstep]
        refine ⟨fun k => ?_, ?_⟩
        · rw [h1 k, hg1powerUps]
          simp only [hsame]
          by_cases hk : k < n
          · rw [if_pos hk, if_pos (Nat.lt_succ_of_lt hk), List.getElem?_set_ne (by omega)]
          · rw [if_neg hk]
            by_cases hkn : k = n
            · subst hkn
              rw [if_pos (Nat.lt_succ_self k), List.getElem?_set_self hlt, hget,
                Option.map_some', if_pos hcol, hcollected]
            · rw [if_neg (by omega), List.getElem?_set_ne (Ne.symm hkn)]
        · have h3 := h2
          simp only [hsame] at h3
          rw [hg1powerUps, StarRunnerGame.take_set_self] at h3
          rw [h3]
          rw [hg1, StarRunnerGame.collectPowerUp_foldl_setPowerUps]

/-- C18: in the power-up pass of `checkCollisions`, with the player in a state reachable
in play, every power-up overlapping the player is deactivated and every other one is
unchanged; apart from that the game is the result of `collectPowerUp` on the overlapping
power-ups, and the player's health ends at most `maxHealth`.  One `collectPowerUp` of a
`health` power-up sets the health to `min(health + 1, maxHealth)` and touches no buff; of
a `rapidFire` or `multiShot` power-up it sets that buff's remaining duration to exactly
10, whether or not it was running, and leaves every other buff and the health as they
were. -/
theorem power_up_pass_applies_effects (g : StarRunnerGame) (hplay : g.player.InPlay) :
    (g.playerVsPowerUps g.powerUps.length).powerUps =
      g.powerUps.map (fun powerUp =>
        if powerUp.checkCollision g.player.toGameEntity = true
        then { powerUp with active := false } else powerUp) ∧
    g.playerVsPowerUps g.powerUps.length =
      { (g.powerUps.reverse.filter (fun powerUp =>
          powerUp.checkCollision g.player.toGameEntity)).foldl
            StarRunnerGame.collectPowerUp g with
        powerUps := (g.playerVsPowerUps g.powerUps.length).powerUps } ∧
    (g.playerVsPowerUps g.powerUps.length).player.health ≤
      (g.playerVsPowerUps g.powerUps.length).player.maxHealth ∧
    (∀ (before : StarRunnerGame) (powerUp : PowerUp), before.player.InPlay →
      (before.collectPowerUp powerUp).player.InPlay ∧
      (powerUp.type = "health" →
        (before.collectPowerUp powerUp).player.health =
          min (before.player.health + 1) before.player.maxHealth ∧
        (before.collectPowerUp powerUp).player.powerUps = before.player.powerUps) ∧
      ((powerUp.type = "rapidFire" ∨ powerUp.type = "multiShot") →
        (before.collectPowerUp powerUp).player.powerUps.lookup powerUp.type = some 10 ∧
        (∀ other : String, other ≠ powerUp.type →
          (before.collectPowerUp powerUp).player.powerUps.lookup other =
            before.player.powerUps.lookup other) ∧
        (before.collectPowerUp powerUp).player.health = before.player.health)) := by
  obtain ⟨h1, h2⟩ := StarRunnerGame.playerVsPowerUps_spec g.powerUps.length g
  rw [List.take_length] at h2
  have hinPlay : (g.playerVsPowerUps g.powerUps.length).player.InPlay := by
    rw [h2]
    exact StarRunnerGame.collectPowerUp_foldl_inPlay _ g hplay
  refine ⟨?_, h2, ?_, fun before powerUp hbefore => ⟨?_, fun htype => ?_, fun htype => ?_⟩⟩
  · apply List.ext_getElem?
    intro k
    rw [h1 k, List.getElem?_map]
    by_cases hk : k < g.powerUps.length
    · rw [if_pos hk]
    · rw [if_neg hk, List.getElem?_eq_none_iff.mpr (not_lt.mp hk)]
      rfl
  · obtain ⟨hmax, hle, _⟩ := hinPlay.health_bound
    rw [hmax]
    exact hle
  · exact before.collectPowerUp_inPlay powerUp hbefore
  · have hplayer : (before.collectPowerUp powerUp).player = before.player.collectHealth := by
      rw [before.collectPowerUp_eq powerUp, if_pos htype]
      unfold Player.collectHealth
      split <;> rfl
    rw [hplayer]
    refine ⟨hbefore.collectHealth_health, ?_⟩
    unfold Player.collectHealth
    split <;> rfl
  · have hnot : powerUp.type ≠ "health" := by
      rcases htype with h | h <;> rw [h] <;> decide
    have hplayer : (before.collectPowerUp powerUp).player =
        (before.player.addPowerUp powerUp.type).1 := by
      rw [before.collectPowerUp_eq powerUp, if_neg hnot, if_pos htype]
    rw [hplayer]
    exact ⟨before.player.addPowerUp_lookup_self powerUp.type,
      fun other hother => before.player.addPowerUp_lookup_other powerUp.type other hother, rfl⟩

/-- C18 at a concrete input: a player with health 2 and 4 seconds of rapid fire left
overlaps a `rapidFire` and a `health` power-up; both are deactivated, the far `multiShot`
one is not, the health becomes 3, rapid fire is back at 10 and multi-shot stays absent. -/
theorem power_up_pass_applies_effects_witness :
    powerUpSession.player.health = 2 ∧
    powerUpSession.player.powerUps.lookup "rapidFire" = some 4 ∧
    (powerUpSession.playerVsPowerUps powerUpSession.powerUps.length).powerUps.map
      (fun powerUp => powerUp.active) = [true, false, false] ∧
    (powerUpSession.playerVsPowerUps powerUpSession.powerUps.length).player.health = 3 ∧
    (powerUpSession.playerVsPowerUps
      powerUpSession.powerUps.length).player.powerUps.lookup "rapidFire" = some 10 ∧
    (powerUpSession.playerVsPowerUps
      powerUpSession.powerUps.length).player.powerUps.lookup "multiShot" = none := by
  have hplay : powerUpSession.player.InPlay :=
    Player.InPlay.update 6 _
      (Player.InPlay.addPowerUp "rapidFire"
        (Player.InPlay.takeDamage (Player.InPlay.new 385 500)))
  refine ⟨by decide!, by decide!, ?_, by decide!, by decide!, by decide!⟩
  rw [(power_up_pass_applies_effects powerUpSession hplay).1]
  decide!

/-! ## Double arithmetic: rounding -/

/-- The digit count by halving is exact when the fuel covers the number. -/
theorem Double.bitsAux_spec (fuel : ℕ) :
    ∀ n : ℕ, n ≤ fuel → n ≠ 0 →
      2 ^ (Double.bitsAux fuel n - 1) ≤ n ∧ n < 2 ^ Double.bitsAux fuel n ∧
      1 ≤ Double.bitsAux fuel n := by
  induction fuel with
  | zero => intro n hle hne; omega
  | succ fuel ih =>
    intro n hle hne
    simp only [Double.bitsAux, if_neg hne]
    by_cases hhalf : n / 2 = 0
    · have hone : n = 1 := by omega
      have hzero : Double.bitsAux fuel 0 = 0 := by cases fuel <;> rfl
      rw [hhalf, hzero, hone]
      simp
    · obtain ⟨h1, h2, h3⟩ := ih (n / 2) (by omega) hhalf
      refine ⟨?_, ?_, by omega⟩
      · rw [Nat.add_sub_cancel]
        have hpow : 2 ^ Double.bitsAux fuel (n / 2) =
            2 * 2 ^ (Double.bitsAux fuel (n / 2) - 1) := by
          rw [← pow_succ']
          congr 1
          omega
        omega
      · rw [pow_succ]
        omega

/-- The digit count brackets the number between two powers of two. -/
theorem Double.bitLength_spec (n : ℕ) (hne : n ≠ 0) :
    2 ^ (Double.bitLength n - 1) ≤ n ∧ n < 2 ^ Double.bitLength n ∧ 1 ≤ Double.bitLength n :=
  Double.bitsAux_spec n n (le_refl n) hne

/-- A quotient of two numbers bracketed by powers of two is bracketed by their quotients. -/
theorem Double.quotient_bracket (x N D : ℚ) (bn bd : ℤ) (hD : 0 < D) (hx : x = N / D)
    (hn1 : (2 : ℚ) ^ (bn - 1) ≤ N) (hn2 : N < (2 : ℚ) ^ bn)
    (hd1 : (2 : ℚ) ^ (bd - 1) ≤ D) (hd2 : D < (2 : ℚ) ^ bd) :
    (2 : ℚ) ^ (bn - bd - 1) < x ∧ x < (2 : ℚ) ^ (bn - bd + 1) := by
  have two : (2 : ℚ) ≠ 0 := by norm_num
  have hN : 0 < N := lt_of_lt_of_le (by positivity) hn1
  subst hx
  constructor
  · have hsplit : (2 : ℚ) ^ (bn - bd - 1) = (2 : ℚ) ^ (bn - 1) / (2 : ℚ) ^ bd := by
      rw [← zpow_sub₀ two]
      congr 1
      ring
    rw [hsplit, div_lt_div_iff₀ (by positivity) hD]
    calc (2 : ℚ) ^ (bn - 1) * D < (2 : ℚ) ^ (bn - 1) * (2 : ℚ) ^ bd :=
          mul_lt_mul_of_pos_left hd2 (by positivity)
      _ ≤ N * (2 : ℚ) ^ bd := mul_le_mul_of_nonneg_right hn1 (by positivity)
  · have hsplit : (2 : ℚ) ^ (bn - bd + 1) = (2 : ℚ) ^ bn / (2 : ℚ) ^ (bd - 1) := by
      rw [← zpow_sub₀ two]
      congr 1
      ring
    rw [hsplit, div_lt_div_iff₀ hD (by positivity)]
    calc N * (2 : ℚ) ^ (bd - 1) ≤ N * D := mul_le_mul_of_nonneg_left hd1 (le_of_lt hN)
      _ < (2 : ℚ) ^ bn * D := mul_lt_mul_of_pos_right hn2 hD

/-- The binary exponent of a positive rational brackets it. -/
theorem Double.exponent_spec (x : ℚ) (hpos : 0 < x) :
    (2 : ℚ) ^ Double.exponent x ≤ x ∧ x < (2 : ℚ) ^ (Double.exponent x + 1) := by
  have hnum : 0 < x.num := Rat.num_pos.mpr hpos
  have hnat : x.num.natAbs ≠ 0 := by omega
  obtain ⟨n1, n2, n3⟩ := Double.bitLength_spec x.num.natAbs hnat
  obtain ⟨d1, d2, d3⟩ := Double.bitLength_spec x.den x.den_nz
  have habs : |x| = x := abs_of_pos hpos
  have hcast : (x.num.natAbs : ℚ) = (x.num : ℚ) := by
    rw [Nat.cast_natAbs, abs_of_pos hnum]
  have hx : x = (x.num.natAbs : ℚ) / (x.den : ℚ) := by
    rw [hcast]
    exact (Rat.num_div_den x).symm
  have hden : (0 : ℚ) < (x.den : ℚ) := by exact_mod_cast x.den_pos
  have hn1 : (2 : ℚ) ^ ((Double.bitLength x.num.natAbs : ℤ) - 1) ≤ (x.num.natAbs : ℚ) := by
    have : ((Double.bitLength x.num.natAbs : ℤ) - 1) =
        ((Double.bitLength x.num.natAbs - 1 : ℕ) : ℤ) := by omega
    rw [this, zpow_natCast]
    exact_mod_cast n1
  have hn2 : (x.num.natAbs : ℚ) < (2 : ℚ) ^ (Double.bitLength x.num.natAbs : ℤ) := by
    rw [zpow_natCast]
    exact_mod_cast n2
  have hd1 : (2 : ℚ) ^ ((Double.bitLength x.den : ℤ) - 1) ≤ (x.den : ℚ) := by
    have : ((Double.bitLength x.den : ℤ) - 1) = ((Double.bitLength x.den - 1 : ℕ) : ℤ) := by
      omega
    rw [this, zpow_natCast]
    exact_mod_cast d1
  have hd2 : (x.den : ℚ) < (2 : ℚ) ^ (Double.bitLength x.den : ℤ) := by
    rw [zpow_natCast]
    exact_mod_cast d2
  obtain ⟨hlow, hhigh⟩ := Double.quotient_bracket x _ _ _ _ hden hx hn1 hn2 hd1 hd2
  simp only [Double.exponent, habs]
  split
  · rename_i hle
    exact ⟨hle, hhigh⟩
  · rename_i hnot
    refine ⟨le_of_lt hlow, ?_⟩
    rw [sub_add_cancel]
    exact not_le.mp hnot

/-- Rounding to the nearest integer moves a number by at most one half. -/
theorem Double.roundHalfEven_spec (q : ℚ) :
    q - 1 / 2 ≤ (Double.roundHalfEven q : ℚ) ∧ (Double.roundHalfEven q : ℚ) ≤ q + 1 / 2 := by
  have h1 := Int.floor_le q
  have h2 := Int.lt_floor_add_one q
  simp only [Double.roundHalfEven]
  split
  · constructor <;> linarith
  · split
    · push_cast
      constructor <;> linarith
    · split
      · constructor <;> linarith
      · push_cast
        constructor <;> linarith
/-- Rounding a non-negative number gives a non-negative double. -/
theorem Double.round_nonneg (x : ℚ) (h : 0 ≤ x) : 0 ≤ Double.round x := by
  simp only [Double.round]
  split
  · exact le_refl 0
  · rw [if_neg (not_lt.mpr h)]
    have hulp : (0 : ℚ) < (2 : ℚ) ^ (max (Double.exponent x) (-1022) - 52) := by positivity
    have hq : 0 ≤ |x| / (2 : ℚ) ^ (max (Double.exponent x) (-1022) - 52) :=
      div_nonneg (abs_nonneg x) (le_of_lt hulp)
    have hlow := (Double.roundHalfEven_spec
      (|x| / (2 : ℚ) ^ (max (Double.exponent x) (-1022) - 52))).1
    have hint : (0 : ℤ) ≤ Double.roundHalfEven
        (|x| / (2 : ℚ) ^ (max (Double.exponent x) (-1022) - 52)) := by
      by_contra hneg
      have hle : Double.roundHalfEven
          (|x| / (2 : ℚ) ^ (max (Double.exponent x) (-1022) - 52)) ≤ -1 := by omega
      have hcast : (Double.roundHalfEven
          (|x| / (2 : ℚ) ^ (max (Double.exponent x) (-1022) - 52)) : ℚ) ≤ -1 := by
        exact_mod_cast hle
      linarith
    exact le_min (mul_nonneg (by exact_mod_cast hint) (le_of_lt hulp)) (by positivity)

/-- Rounding moves a positive number by at most half the spacing of its binade, and
never upwards past the bound that stands for infinity. -/
theorem Double.round_le (x : ℚ) (hpos : 0 < x) :
    Double.round x ≤ x + (2 : ℚ) ^ (max (Double.exponent x) (-1022) - 52) / 2 := by
  simp only [Double.round, if_neg (ne_of_gt hpos), if_neg (not_lt.mpr (le_of_lt hpos)),
    abs_of_pos hpos]
  have hulp : (0 : ℚ) < (2 : ℚ) ^ (max (Double.exponent x) (-1022) - 52) := by positivity
  have hhigh := (Double.roundHalfEven_spec
    (x / (2 : ℚ) ^ (max (Double.exponent x) (-1022) - 52))).2
  refine le_trans (min_le_left _ _) ?_
  calc (Double.roundHalfEven (x / (2 : ℚ) ^ (max (Double.exponent x) (-1022) - 52)) : ℚ) *
        (2 : ℚ) ^ (max (Double.exponent x) (-1022) - 52)
      ≤ (x / (2 : ℚ) ^ (max (Double.exponent x) (-1022) - 52) + 1 / 2) *
        (2 : ℚ) ^ (max (Double.exponent x) (-1022) - 52) :=
        mul_le_mul_of_nonneg_right hhigh (le_of_lt hulp)
    _ = x + (2 : ℚ) ^ (max (Double.exponent x) (-1022) - 52) / 2 := by
        field_simp
        ring

/-- The double product of a draw of at most `1 - 2^-53` by 3 is below 3. -/
theorem Double.round_lt_three (x : ℚ) (h0 : 0 ≤ x) (h1 : x ≤ 3 - 3 / 2 ^ 53) :
    Double.round x < 3 := by
  rcases eq_or_lt_of_le h0 with hzero | hpos
  · rw [← hzero]
    simp [Double.round]
  · have hspec := Double.exponent_spec x hpos
    have hexp : Double.exponent x < 2 := by
      have hlt : (2 : ℚ) ^ Double.exponent x < (2 : ℚ) ^ (2 : ℤ) := by
        refine lt_of_le_of_lt hspec.1 (lt_of_le_of_lt h1 ?_)
        norm_num
      exact (zpow_lt_zpow_iff_right₀ (by norm_num : (1 : ℚ) < 2)).mp hlt
    have hmax : max (Double.exponent x) (-1022) - 52 ≤ -51 := by
      have : max (Double.exponent x) (-1022) ≤ 1 := max_le (by omega) (by norm_num)
      omega
    have hulp : (2 : ℚ) ^ (max (Double.exponent x) (-1022) - 52) ≤ (2 : ℚ) ^ (-51 : ℤ) :=
      zpow_le_zpow_right₀ (by norm_num) hmax
    have hround := Double.round_le x hpos
    have hval : (2 : ℚ) ^ (-51 : ℤ) = 1 / 2 ^ 51 := by
      rw [zpow_neg, zpow_ofNat]; norm_num
    rw [hval] at hulp
    have : x + (2 : ℚ) ^ (max (Double.exponent x) (-1022) - 52) / 2 < 3 := by
      have h3 : (3 : ℚ) - 3 / 2 ^ 53 + 1 / 2 ^ 51 / 2 < 3 := by norm_num
      linarith
    linarith

/-- A double below 1 is at most `1 - 2^-53`. -/
theorem Double.le_of_lt_one (x : ℚ) (hdouble : Double.round x = x) (h1 : x < 1) :
    x ≤ 1 - 1 / 2 ^ 53 := by
  by_cases hhalf : x < 1 / 2
  · have : (1 : ℚ) / 2 ≤ 1 - 1 / 2 ^ 53 := by norm_num
    linarith
  · have hpos : 0 < x := by linarith [not_lt.mp hhalf]
    have hspec := Double.exponent_spec x hpos
    have hexp : Double.exponent x = -1 := by
      have hlt : (2 : ℚ) ^ Double.exponent x < (2 : ℚ) ^ (0 : ℤ) := by
        rw [zpow_zero]; exact lt_of_le_of_lt hspec.1 h1
      have hup := (zpow_lt_zpow_iff_right₀ (by norm_num : (1 : ℚ) < 2)).mp hlt
      have hgt : (2 : ℚ) ^ (-1 : ℤ) < (2 : ℚ) ^ (Double.exponent x + 1) := by
        refine lt_of_le_of_lt ?_ hspec.2
        rw [zpow_neg, zpow_one]
        linarith [not_lt.mp hhalf]
      have hdown := (zpow_lt_zpow_iff_right₀ (by norm_num : (1 : ℚ) < 2)).mp hgt
      omega
    have hulp : (2 : ℚ) ^ (max (Double.exponent x) (-1022) - 52) = 1 / 2 ^ 53 := by
      rw [hexp]
      have : max (-1 : ℤ) (-1022) - 52 = -53 := by norm_num
      rw [this, zpow_neg, zpow_ofNat]; norm_num
    simp only [Double.round, if_neg (ne_of_gt hpos), if_neg (not_lt.mpr (le_of_lt hpos)),
      abs_of_pos hpos, hulp] at hdouble
    have hbig : x < (2 : ℚ) ^ 1024 := lt_of_lt_of_le h1 (one_le_pow₀ (by norm_num))
    have hform : (Double.roundHalfEven (x / (1 / 2 ^ 53)) : ℚ) * (1 / 2 ^ 53) = x := by
      rcases min_choice ((Double.roundHalfEven (x / (1 / 2 ^ 53)) : ℚ) * (1 / 2 ^ 53))
        ((2 : ℚ) ^ 1024) with hmin | hmin
      · rw [hmin] at hdouble; exact hdouble
      · rw [hmin] at hdouble; linarith
    obtain ⟨n, hn⟩ : ∃ n : ℤ, (n : ℚ) * (1 / 2 ^ 53) = x := ⟨_, hform⟩
    have h53 : (0 : ℚ) < 2 ^ 53 := by positivity
    have hq : (n : ℚ) < 2 ^ 53 := by
      have hmul : (n : ℚ) = x * 2 ^ 53 := by
        rw [← hn]; field_simp
      rw [hmul]
      nlinarith
    have hint : n < 2 ^ 53 := by exact_mod_cast hq
    have hle : (n : ℚ) ≤ 2 ^ 53 - 1 := by
      have : n ≤ 2 ^ 53 - 1 := by omega
      exact_mod_cast this
    rw [← hn]
    calc (n : ℚ) * (1 / 2 ^ 53) ≤ (2 ^ 53 - 1) * (1 / 2 ^ 53) :=
          mul_le_mul_of_nonneg_right hle (by positivity)
      _ = 1 - 1 / 2 ^ 53 := by field_simp

/-! ## Entity factory: power-ups -/

/-- For a draw that is a double in `[0, 1)` the double product with 3 has floor 0, 1 or
2, so `getRandomPowerUpType` returns one of the three kinds. -/
theorem GameEntityFactory.getRandomPowerUpType_index (random : ℚ)
    (hdouble : Double.round random = random) (h0 : 0 ≤ random) (h1 : random < 1) :
    0 ≤ ⌊Double.mul random 3⌋ ∧ ⌊Double.mul random 3⌋ < 3 ∧
    GameEntityFactory.getRandomPowerUpType random ∈ ["rapidFire", "multiShot", "health"] := by
  have htop := Double.le_of_lt_one random hdouble h1
  have hlow : 0 ≤ Double.mul random 3 :=
    Double.round_nonneg (random * 3) (by linarith)
  have hhigh : Double.mul random 3 < 3 :=
    Double.round_lt_three (random * 3) (by linarith) (by linarith)
  have hfloor0 : 0 ≤ ⌊Double.mul random 3⌋ := Int.floor_nonneg.mpr hlow
  have hfloor3 : ⌊Double.mul random 3⌋ < 3 := Int.floor_lt.mpr (by exact_mod_cast hhigh)
  refine ⟨hfloor0, hfloor3, ?_⟩
  unfold GameEntityFactory.getRandomPowerUpType
  obtain ⟨index, hindex⟩ : ∃ index : ℤ, index = ⌊Double.mul random 3⌋ := ⟨_, rfl⟩
  rw [← hindex] at hfloor0 hfloor3 ⊢
  interval_cases index <;> simp

/-- C21: for every requested kind, every position and every draw that is a double in
`[0, 1)`, `createPowerUp` returns a power-up at `(x, y)` whose kind is one of `rapidFire`,
`multiShot`, `health`.  A requested kind among those three is kept and the draw is not
consulted (every other draw gives the same power-up); any other requested kind is replaced
by the kind that `getRandomPowerUpType` selects with the draw. -/
theorem createPowerUp_kind (type : String) (x y random : ℚ)
    (hdouble : Double.round random = random) (h0 : 0 ≤ random) (h1 : random < 1) :
    (GameEntityFactory.createPowerUp type x y random).x = x ∧
    (GameEntityFactory.createPowerUp type x y random).y = y ∧
    (GameEntityFactory.createPowerUp type x y random).type ∈
      ["rapidFire", "multiShot", "health"] ∧
    (type ∈ ["rapidFire", "multiShot", "health"] →
      (GameEntityFactory.createPowerUp type x y random).type = type ∧
      ∀ other : ℚ, GameEntityFactory.createPowerUp type x y other =
        GameEntityFactory.createPowerUp type x y random) ∧
    (type ∉ ["rapidFire", "multiShot", "health"] →
      (GameEntityFactory.createPowerUp type x y random).type =
        GameEntityFactory.getRandomPowerUpType random ∧
      (GameEntityFactory.createPowerUp type x y random).type =
        (["rapidFire", "multiShot", "health"][(⌊Double.mul random 3⌋).toNat]?).getD "" ∧
      0 ≤ ⌊Double.mul random 3⌋ ∧ ⌊Double.mul random 3⌋ < 3) := by
  obtain ⟨hfloor0, hfloor3, hmem⟩ :=
    GameEntityFactory.getRandomPowerUpType_index random hdouble h0 h1
  by_cases hvalid : type ∈ ["rapidFire", "multiShot", "health"]
  · have hcontains : ["rapidFire", "multiShot", "health"].contains type = true := by
      simpa using hvalid
    have hcreate : ∀ draw : ℚ, GameEntityFactory.createPowerUp type x y draw =
        PowerUp.new type x y := by
      intro draw
      simp only [GameEntityFactory.createPowerUp, hcontains, if_true]
    refine ⟨by rw [hcreate]; rfl, by rw [hcreate]; rfl, by rw [hcreate]; exact hvalid,
      fun _ => ⟨by rw [hcreate]; rfl, fun other => by rw [hcreate, hcreate]⟩,
      fun hnot => absurd hvalid hnot⟩
  · have hcontains : ["rapidFire", "multiShot", "health"].contains type = false := by
      rw [← Bool.not_eq_true]
      simpa using hvalid
    have hcreate : GameEntityFactory.createPowerUp type x y random =
        PowerUp.new (GameEntityFactory.getRandomPowerUpType random) x y := by
      simp only [GameEntityFactory.createPowerUp, hcontains, Bool.false_eq_true, if_false]
    refine ⟨by rw [hcreate]; rfl, by rw [hcreate]; rfl, by rw [hcreate]; exact hmem,
      fun h => absurd h hvalid,
      fun _ => ⟨by rw [hcreate]; rfl, by rw [hcreate]; rfl, hfloor0, hfloor3⟩⟩

/-- C21 at concrete inputs: a requested `multiShot` is kept; the unknown kind `shield`
becomes `multiShot` with the draw `1/2`, also with the double nearest to 1/3
(6004799503160661 / 2^54, whose double product with 3 is exactly 1), and `health` with
the double 6004799503160661 / 2^53 just below 2/3 (whose double product with 3 is 2). -/
theorem createPowerUp_kind_witness :
    (GameEntityFactory.createPowerUp "shield" 100 (-20) (1 / 2)).type = "multiShot" ∧
    (GameEntityFactory.createPowerUp "shield" 100 (-20) (1 / 2)).x = 100 ∧
    (GameEntityFactory.createPowerUp "multiShot" 100 (-20) (1 / 2)).type = "multiShot" ∧
    (GameEntityFactory.createPowerUp "shield" 100 (-20)
      (6004799503160661 / 2 ^ 54)).type = "multiShot" ∧
    (GameEntityFactory.createPowerUp "shield" 100 (-20)
      (6004799503160661 / 2 ^ 53)).type = "health" := by
  have hshield := createPowerUp_kind "shield" 100 (-20) (1 / 2) (by decide!) (by norm_num)
    (by norm_num)
  have hmulti := createPowerUp_kind "multiShot" 100 (-20) (1 / 2) (by decide!) (by norm_num)
    (by norm_num)
  have hthird := createPowerUp_kind "shield" 100 (-20) (6004799503160661 / 2 ^ 54)
    (by decide!) (by norm_num) (by norm_num)
  have htwo := createPowerUp_kind "shield" 100 (-20) (6004799503160661 / 2 ^ 53)
    (by decide!) (by norm_num) (by norm_num)
  refine ⟨?_, hshield.1, (hmulti.2.2.2.1 (by decide)).1, ?_, ?_⟩
  · rw [(hshield.2.2.2.2 (by decide)).2.1]; decide!
  · rw [(hthird.2.2.2.2 (by decide)).2.1]; decide!
  · rw [(htwo.2.2.2.2 (by decide)).2.1]; decide!

/-! ## Cleanup of the entity collections -/

/-- C23, counterexample: the top enemy of a freshly spawned `diamond` formation sits at
y = -90 with height 25, wholly above the playfield extended by the 50-unit margin, and
`cleanupEntities` keeps it. -/
theorem cleanupEntities_keeps_enemy_above_margin :
    ∃ enemy ∈ diamondSpawnSession.cleanupEntities.enemies,
      enemy.active = true ∧ enemy.y + enemy.height < -50 ∧
      enemy ∈ diamondSpawnSession.enemies := by
  refine ⟨GameEntityFactory.createEnemy "basic" 400 (-90), ?_, ?_, ?_, ?_⟩ <;> decide!

/-- C23, amended: after `cleanupEntities` each collection is a sub-list of the one before
(relative order kept); an enemy or power-up is kept exactly when it is active and above the
bottom margin line (`y < canvasHeight + 50`), with no test of the other three sides; a
projectile is kept exactly when it is active and strictly inside the playfield extended by
50 on all four sides. -/
theorem cleanupEntities_keeps_exactly (g : StarRunnerGame) :
    g.cleanupEntities.enemies.Sublist g.enemies ∧
    g.cleanupEntities.projectiles.Sublist g.projectiles ∧
    g.cleanupEntities.powerUps.Sublist g.powerUps ∧
    (∀ enemy : Enemy, enemy ∈ g.cleanupEntities.enemies ↔
      enemy ∈ g.enemies ∧ enemy.active = true ∧ enemy.y < g.canvasHeight + 50) ∧
    (∀ projectile : Projectile, projectile ∈ g.cleanupEntities.projectiles ↔
      projectile ∈ g.projectiles ∧ projectile.active = true ∧
      -50 < projectile.y ∧ projectile.y < g.canvasHeight + 50 ∧
      -50 < projectile.x ∧ projectile.x < g.canvasWidth + 50) ∧
    (∀ powerUp : PowerUp, powerUp ∈ g.cleanupEntities.powerUps ↔
      powerUp ∈ g.powerUps ∧ powerUp.active = true ∧ powerUp.y < g.canvasHeight + 50) := by
  refine ⟨List.filter_sublist _, List.filter_sublist _, List.filter_sublist _, ?_, ?_, ?_⟩
  · intro enemy
    simp only [StarRunnerGame.cleanupEntities, List.mem_filter, Bool.and_eq_true,
      decide_eq_true_eq]
  · intro projectile
    simp only [StarRunnerGame.cleanupEntities, List.mem_filter, Bool.and_eq_true,
      decide_eq_true_eq, gt_iff_lt, and_assoc]
  · intro powerUp
    simp only [StarRunnerGame.cleanupEntities, List.mem_filter, Bool.and_eq_true,
      decide_eq_true_eq]

/-! ## Timed buffs of the player -/

/-- The power-up loop written with `map` and `filter`: every duration is replaced by its
double difference with `deltaTime`, entries at or below zero are dropped and produce one
event each. -/
theorem Player.tickPowerUps_eq (deltaTime : ℚ) (powerUps : List (String × ℚ)) :
    (Player.tickPowerUps deltaTime powerUps).1 =
      (powerUps.map (fun kv => (kv.1, Double.sub kv.2 deltaTime))).filter
        (fun kv => decide (0 < kv.2)) ∧
    (Player.tickPowerUps deltaTime powerUps).2 =
      (powerUps.filter (fun kv => decide (Double.sub kv.2 deltaTime ≤ 0))).map
        (fun kv => Event.powerUpExpired kv.1) := by
  induction powerUps with
  | nil => exact ⟨rfl, rfl⟩
  | cons kv rest ih =>
    obtain ⟨type, duration⟩ := kv
    by_cases h : Double.sub duration deltaTime ≤ 0
    · have hnot : ¬ (0 < Double.sub duration deltaTime) := not_lt.mpr h
      simp only [Player.tickPowerUps, if_pos h, List.map_cons, List.filter_cons, hnot,
        decide_False, Bool.false_eq_true, if_false, decide_True, if_true, h, ih.1, ih.2]
      exact ⟨trivial, trivial⟩
    · have hpos : 0 < Double.sub duration deltaTime := not_le.mp h
      simp only [Player.tickPowerUps, if_neg h, List.map_cons, List.filter_cons, hpos,
        decide_False, Bool.false_eq_true, if_false, decide_True, if_true, h, ih.1, ih.2]
      exact ⟨trivial, trivial⟩

/-- Membership in the map after the power-up loop. -/
theorem Player.mem_tickPowerUps (deltaTime : ℚ) (powerUps : List (String × ℚ))
    (type : String) (left : ℚ) :
    (type, left) ∈ (Player.tickPowerUps deltaTime powerUps).1 ↔
      ∃ duration, (type, duration) ∈ powerUps ∧ left = Double.sub duration deltaTime ∧
        0 < left := by
  rw [(Player.tickPowerUps_eq deltaTime powerUps).1]
  simp only [List.mem_filter, List.mem_map, decide_eq_true_eq, Prod.mk.injEq, Prod.exists]
  constructor
  · rintro ⟨⟨a, b, hmem, rfl, rfl⟩, hpos⟩
    exact ⟨b, hmem, rfl, hpos⟩
  · rintro ⟨duration, hmem, rfl, hpos⟩
    exact ⟨⟨type, duration, hmem, rfl, rfl⟩, hpos⟩

/-- Membership in the map after `addPowerUp(type)`: the entries under other keys are the
ones from before, and the only entry under `type` is `(type, 10)`. -/
theorem Player.mem_addPowerUp (p : Player) (type : String) (kv : String × ℚ) :
    kv ∈ (p.addPowerUp type).1.powerUps ↔
      (kv.1 ≠ type ∧ kv ∈ p.powerUps) ∨ kv = (type, 10) := by
  simp only [Player.addPowerUp]
  by_cases hany : p.powerUps.any (fun kv => kv.1 == type) = true
  · rw [if_pos hany, List.mem_map]
    constructor
    · rintro ⟨a, ha, heq⟩
      by_cases hkey : (a.1 == type) = true
      · rw [if_pos hkey] at heq
        exact Or.inr heq.symm
      · rw [if_neg hkey] at heq
        subst heq
        exact Or.inl ⟨fun h => hkey (by rw [h]; exact beq_self_eq_true type), ha⟩
    · rintro (⟨hne, hmem⟩ | rfl)
      · refine ⟨kv, hmem, ?_⟩
        rw [if_neg]
        intro h
        exact hne (eq_of_beq h)
      · rw [List.any_eq_true] at hany
        obtain ⟨a, ha, hkey⟩ := hany
        exact ⟨a, ha, by rw [if_pos hkey]⟩
  · rw [if_neg hany, List.mem_append, List.mem_singleton]
    constructor
    · rintro (hmem | rfl)
      · refine Or.inl ⟨fun h => hany ?_, hmem⟩
        rw [List.any_eq_true]
        exact ⟨kv, hmem, by rw [h]; exact beq_self_eq_true type⟩
      · exact Or.inr rfl
    · rintro (⟨_, hmem⟩ | rfl)
      · exact Or.inl hmem
      · exact Or.inr rfl

/-- A buff that was just collected has 10 seconds left. -/
theorem Player.BuffLeft.collected (p : Player) (type : String) :
    Player.BuffLeft (p.addPowerUp type).1.powerUps type (some 10) := by
  refine ⟨⟨(type, 10), (p.mem_addPowerUp type _).mpr (Or.inr rfl), rfl⟩, ?_⟩
  intro kv hmem hkey
  rcases (p.mem_addPowerUp type kv).mp hmem with ⟨hne, _⟩ | rfl
  · exact absurd hkey hne
  · rfl

/-- Collecting another kind leaves the entries under `type` as they are. -/
theorem Player.BuffLeft.addOther {p : Player} {type : String} {left : Option ℚ}
    (other : String) (hother : other ≠ type) (h : Player.BuffLeft p.powerUps type left) :
    Player.BuffLeft (p.addPowerUp other).1.powerUps type left := by
  cases left with
  | some duration =>
    obtain ⟨⟨kv, hmem, hkey⟩, hall⟩ := h
    refine ⟨⟨kv, (p.mem_addPowerUp other kv).mpr (Or.inl ⟨?_, hmem⟩), hkey⟩, ?_⟩
    · rw [hkey]; exact fun h => hother h.symm
    · intro kv2 hmem2 hkey2
      rcases (p.mem_addPowerUp other kv2).mp hmem2 with ⟨_, hold⟩ | rfl
      · exact hall kv2 hold hkey2
      · exact absurd hkey2 hother
  | none =>
    intro kv hmem hkey
    rcases (p.mem_addPowerUp other kv).mp hmem with ⟨_, hold⟩ | rfl
    · exact h kv hold hkey
    · exact hother hkey

/-- The power-up loop of `update` takes the double difference with `deltaTime` off the
buff, and removes it for good when that difference is at or below zero. -/
theorem Player.BuffLeft.tick {powerUps : List (String × ℚ)} {type : String}
    {left : Option ℚ} (deltaTime : ℚ) (h : Player.BuffLeft powerUps type left) :
    Player.BuffLeft (Player.tickPowerUps deltaTime powerUps).1 type
      (left.bind (fun duration =>
        if Double.sub duration deltaTime ≤ 0 then none
        else some (Double.sub duration deltaTime))) := by
  cases left with
  | some duration =>
    obtain ⟨⟨kv, hmem, hkey⟩, hall⟩ := h
    simp only [Option.some_bind]
    by_cases hgone : Double.sub duration deltaTime ≤ 0
    · rw [if_pos hgone]
      rintro ⟨key, value⟩ hmem2 hkey2
      simp only at hkey2
      subst hkey2
      obtain ⟨old, hold, hvalue, hpos⟩ :=
        (Player.mem_tickPowerUps deltaTime powerUps key value).mp hmem2
      have hval := hall (key, old) hold rfl
      simp only at hval
      rw [hvalue, hval] at hpos
      exact absurd hgone (not_le.mpr hpos)
    · rw [if_neg hgone]
      refine ⟨⟨(type, Double.sub duration deltaTime), ?_, rfl⟩, ?_⟩
      · refine (Player.mem_tickPowerUps deltaTime powerUps type _).mpr
          ⟨duration, ?_, rfl, not_le.mp hgone⟩
        have hval := hall kv hmem hkey
        obtain ⟨key, value⟩ := kv
        simp only at hkey hval
        rw [← hkey, ← hval]; exact hmem
      · rintro ⟨key, value⟩ hmem2 hkey2
        simp only at hkey2
        subst hkey2
        obtain ⟨old, hold, hvalue, _⟩ :=
          (Player.mem_tickPowerUps deltaTime powerUps key value).mp hmem2
        have hval := hall (key, old) hold rfl
        simp only at hval ⊢
        rw [hvalue, hval]
  | none =>
    rintro ⟨key, value⟩ hmem2 hkey2
    simp only at hkey2
    subst hkey2
    obtain ⟨old, hold, _, _⟩ :=
      (Player.mem_tickPowerUps deltaTime powerUps key value).mp hmem2
    exact h (key, old) hold rfl

/-- The look-up of a buff in the state described by `BuffLeft`. -/
theorem Player.BuffLeft.lookup {powerUps : List (String × ℚ)} {type : String}
    {left : Option ℚ} (h : Player.BuffLeft powerUps type left) :
    powerUps.lookup type = left := by
  cases left with
  | some duration =>
    obtain ⟨hex, hall⟩ := h
    induction powerUps with
    | nil => obtain ⟨kv, hmem, _⟩ := hex; cases hmem
    | cons entry rest ih =>
      obtain ⟨key, value⟩ := entry
      rw [List.lookup_cons]
      by_cases hkey : key = type
      · subst hkey
        rw [beq_self_eq_true]
        exact congrArg some (hall (key, value) (List.mem_cons_self _ _) rfl)
      · have hne : (type == key) = false := by
          rw [beq_eq_false_iff_ne]; exact fun h => hkey h.symm
        rw [hne]
        refine ih ?_ (fun kv hmem => hall kv (List.mem_cons_of_mem _ hmem))
        obtain ⟨kv, hmem, hk⟩ := hex
        rcases List.mem_cons.mp hmem with rfl | hrest
        · exact absurd hk hkey
        · exact ⟨kv, hrest, hk⟩
  | none =>
    induction powerUps with
    | nil => rfl
    | cons entry rest ih =>
      obtain ⟨key, value⟩ := entry
      have hkey : key ≠ type := h (key, value) (List.mem_cons_self _ _)
      have hne : (type == key) = false := by
        rw [beq_eq_false_iff_ne]; exact fun h => hkey h.symm
      rw [List.lookup_cons, hne]
      exact ih (fun kv hmem => h kv (List.mem_cons_of_mem _ hmem))

/-- Calls other than `update` and `addPowerUp` do not touch the map of buffs. -/
theorem Player.call_powerUps (p : Player) :
    (∀ amount : ℚ, (p.takeDamage amount).1.powerUps = p.powerUps) ∧
    p.shoot.1.powerUps = p.powerUps ∧ p.collectHealth.powerUps = p.powerUps := by
  refine ⟨fun amount => ?_, ?_, ?_⟩
  · simp only [Player.takeDamage]
    split_ifs <;> rfl
  · simp only [Player.shoot]
    split_ifs <;> rfl
  · simp only [Player.collectHealth]
    split_ifs <;> rfl

/-- A sequence of calls that never collects `type` again leaves the buff as `buffAfter`
computes it. -/
theorem Player.BuffLeft.calls {type : String} (calls : List PlayerCall) :
    ∀ (p : Player) (left : Option ℚ), Player.BuffLeft p.powerUps type left →
      (∀ c ∈ calls, c ≠ PlayerCall.addPowerUp type) →
      Player.BuffLeft (p.calls calls).powerUps type (Player.buffAfter left calls) := by
  induction calls with
  | nil =>
    intro p left h _
    exact h
  | cons c rest ih =>
    intro p left h hcalls
    have hc := hcalls c (List.mem_cons_self _ _)
    have hrest : ∀ c2 ∈ rest, c2 ≠ PlayerCall.addPowerUp type :=
      fun c2 hmem => hcalls c2 (List.mem_cons_of_mem _ hmem)
    cases c with
    | update deltaTime keys =>
      exact ih (p.call (PlayerCall.update deltaTime keys)) _ (h.tick deltaTime) hrest
    | takeDamage amount =>
      refine ih (p.call (PlayerCall.takeDamage amount)) left ?_ hrest
      simp only [Player.call]
      rw [p.call_powerUps.1 amount]; exact h
    | shoot =>
      refine ih (p.call PlayerCall.shoot) left ?_ hrest
      simp only [Player.call]
      rw [p.call_powerUps.2.1]; exact h
    | collectHealth =>
      refine ih (p.call PlayerCall.collectHealth) left ?_ hrest
      simp only [Player.call]
      rw [p.call_powerUps.2.2]; exact h
    | addPowerUp other =>
      refine ih (p.call (PlayerCall.addPowerUp other)) left ?_ hrest
      simp only [Player.call]
      exact h.addOther other (fun heq => hc (by rw [heq]))

/-- C25, counterexample: the durations are subtracted in double arithmetic, so presence
does not follow the accumulated delta-time.  After `addPowerUp` and 47 calls of `update`
with the double nearest to 10/47 the buff is still present, with 17/2^54 seconds left,
although the delta-times add up to more than 10 (and to exactly 10 when added as
doubles); after 100 calls with the double nearest to 0.1 it is still present with
677/2^55 seconds left, although the delta-times add up to more than 10. -/
theorem buff_outlives_accumulated_ten_seconds :
    Double.round Double.tenFortySevenths = Double.tenFortySevenths ∧
    0 ≤ Double.tenFortySevenths ∧
    (((Player.new 385 500).addPowerUp "rapidFire").1.calls
      (List.replicate 47 (PlayerCall.update Double.tenFortySevenths
        exampleSession.keys))).powerUps.lookup "rapidFire" = some (17 / 2 ^ 54) ∧
    ¬ ((List.replicate 47 Double.tenFortySevenths).sum < 10) ∧
    (List.replicate 47 Double.tenFortySevenths).foldl Double.add 0 = 10 ∧
    Double.round Double.oneTenth = Double.oneTenth ∧
    (((Player.new 385 500).addPowerUp "rapidFire").1.calls
      (List.replicate 100 (PlayerCall.update Double.oneTenth
        exampleSession.keys))).powerUps.lookup "rapidFire" = some (677 / 2 ^ 55) ∧
    ¬ ((List.replicate 100 Double.oneTenth).sum < 10) := by
  decide!

/-- C25, amended: for every player and every `deltaTime`, `update` turns the map of
buffs into the same entries in the same order with each duration replaced by its double
difference with `deltaTime`, minus exactly the entries whose new duration is `≤ 0`, and
emits one `powerUpExpired` event for each removed entry and nothing else; every entry
left has a duration `> 0`, which is the old one less `deltaTime` exactly whenever that
difference is a double.  Hence after `addPowerUp(type)` and any further calls that do not
collect `type` again, the buff is present exactly while the successive double
subtractions of the delta-times from 10 have all left a positive remainder, and that
remainder is its duration. -/
theorem update_ticks_timed_buffs (p : Player) (deltaTime : ℚ) (keys : Keys) :
    (p.update deltaTime keys).1.powerUps =
      (p.powerUps.map (fun kv => (kv.1, Double.sub kv.2 deltaTime))).filter
        (fun kv => decide (0 < kv.2)) ∧
    (p.update deltaTime keys).2 =
      (p.powerUps.filter (fun kv => decide (Double.sub kv.2 deltaTime ≤ 0))).map
        (fun kv => Event.powerUpExpired kv.1) ∧
    (∀ (type : String) (left : ℚ), (type, left) ∈ (p.update deltaTime keys).1.powerUps →
      0 < left ∧ ∃ duration, (type, duration) ∈ p.powerUps ∧
        left = Double.round (duration - deltaTime) ∧
        (Double.round (duration - deltaTime) = duration - deltaTime →
          left = duration - deltaTime)) ∧
    (∀ (type : String) (calls : List PlayerCall),
      (∀ c ∈ calls, c ≠ PlayerCall.addPowerUp type) →
      ((p.addPowerUp type).1.calls calls).powerUps.lookup type =
        Player.buffAfter (some 10) calls) := by
  refine ⟨(Player.tickPowerUps_eq deltaTime p.powerUps).1,
    (Player.tickPowerUps_eq deltaTime p.powerUps).2, ?_, ?_⟩
  · intro type left hmem
    obtain ⟨duration, hold, hleft, hpos⟩ :=
      (Player.mem_tickPowerUps deltaTime p.powerUps type left).mp hmem
    exact ⟨hpos, duration, hold, hleft, fun hexact => by rw [hleft]; exact hexact⟩
  · intro type calls hcalls
    exact (Player.BuffLeft.calls calls (p.addPowerUp type).1 (some 10)
      (Player.BuffLeft.collected p type) hcalls).lookup

/-! ## The wave cursor -/

/-- A successful `loadLevel` leaves a level installed and the cursor reset. -/
theorem LevelManager.loadLevelWith_ok (lm : LevelManager) (levelNumber : ℚ)
    (fetched : Except LoadError LevelData)
    (h : (lm.loadLevelWith levelNumber fetched).outcome = Except.ok true) :
    ∃ levelData, (lm.loadLevelWith levelNumber fetched).manager.levelData = some levelData ∧
      (lm.loadLevelWith levelNumber fetched).manager.waveIndex = 0 ∧
      (lm.loadLevelWith levelNumber fetched).manager.enemiesSpawned = 0 ∧
      (lm.loadLevelWith levelNumber fetched).manager.spawnTimer = 0 ∧
      (LevelManager.cacheGet lm.levelCache levelNumber = some levelData ∨
        (fetched = Except.ok levelData ∧
          LevelManager.validateLevelData levelData.toJS = some true)) := by
  cases hcache : LevelManager.cacheGet lm.levelCache levelNumber with
  | some cached =>
    rw [lm.loadLevelWith_hit levelNumber fetched cached hcache]
    exact ⟨cached, rfl, rfl, rfl, rfl, Or.inl rfl⟩
  | none =>
    rw [lm.loadLevelWith_miss levelNumber fetched hcache] at h ⊢
    cases fetched with
    | error error =>
      rw [lm.loadLevelFetched_error levelNumber error] at h
      cases h
    | ok levelData =>
      by_cases hvalid : LevelManager.validateLevelData levelData.toJS = some true
      · rw [lm.loadLevelFetched_valid levelNumber levelData hvalid]
        exact ⟨levelData, rfl, rfl, rfl, rfl, Or.inr ⟨rfl, hvalid⟩⟩
      · rw [lm.loadLevelFetched_invalid levelNumber levelData hvalid] at h
        cases h

/-- A manager in use has a level installed and its wave index is at most the number of
waves. -/
theorem LevelManager.Running.waveIndex_le {lm : LevelManager} (h : lm.Running) :
    ∃ levelData, lm.levelData = some levelData ∧ lm.waveIndex ≤ levelData.waves.length := by
  induction h with
  | loaded lm0 levelNumber fetched hok =>
    obtain ⟨levelData, hdata, hindex, _⟩ := lm0.loadLevelWith_ok levelNumber fetched hok
    exact ⟨levelData, hdata, by rw [hindex]; exact Nat.zero_le _⟩
  | @update lm deltaTime enemies random _ ih =>
    obtain ⟨levelData, hdata, hle⟩ := ih
    refine ⟨levelData, by rw [lm.update_levelData]; exact hdata, ?_⟩
    rcases Nat.lt_or_ge lm.waveIndex levelData.waves.length with hlt | hge
    · rcases lm.update_waveIndex deltaTime enemies random with h2 | ⟨h2, _⟩ <;> omega
    · rw [lm.update_inactive deltaTime enemies random (Or.inr ⟨levelData, hdata, hge⟩)]
      exact hle

/-- Once all waves are done, any further sequence of `update` calls leaves the manager as
it is and every call returns no enemies. -/
theorem LevelManager.updates_complete (calls : List (ℚ × List Enemy × ℚ)) (lm : LevelManager)
    (levelData : LevelData) (hdata : lm.levelData = some levelData)
    (hdone : levelData.waves.length ≤ lm.waveIndex) :
    (lm.updates calls).1 = lm ∧ ∀ call ∈ (lm.updates calls).2, call = (lm.waveIndex, []) := by
  induction calls with
  | nil => exact ⟨rfl, fun call h => by simp [LevelManager.updates] at h⟩
  | cons c rest ih =>
    obtain ⟨deltaTime, enemies, random⟩ := c
    have hstep := lm.update_inactive deltaTime enemies random (Or.inr ⟨levelData, hdata, hdone⟩)
    simp only [LevelManager.updates, hstep, List.mem_cons]
    refine ⟨ih.1, ?_⟩
    rintro call (h | h)
    · exact h
    · exact ih.2 call h

/-- C27: for every manager reached from a successful `loadLevel` by any sequence of
`update` calls, a level is installed and `waveIndex` is at most its number of waves; a
further `update` leaves `waveIndex` as it is or adds one to it, and stays within the
number of waves; below the number of waves the look-up of the current wave finds a wave;
and once `waveIndex` equals the number of waves every further sequence of `update` calls
returns no enemies and leaves the manager, so `waveIndex`, `spawnTimer` and
`enemiesSpawned`, unchanged. -/
theorem waveIndex_stays_in_range (lm : LevelManager) (hrun : lm.Running)
    (deltaTime : ℚ) (enemies : List Enemy) (random : ℚ) :
    ∃ levelData, lm.levelData = some levelData ∧
      lm.waveIndex ≤ levelData.waves.length ∧
      lm.waveIndex ≤ (lm.update deltaTime enemies random).1.waveIndex ∧
      (lm.update deltaTime enemies random).1.waveIndex ≤ lm.waveIndex + 1 ∧
      (lm.update deltaTime enemies random).1.waveIndex ≤ levelData.waves.length ∧
      (lm.waveIndex < levelData.waves.length →
        ∃ wave, levelData.waves[lm.waveIndex]? = some wave) ∧
      (lm.waveIndex = levelData.waves.length →
        lm.isLevelComplete = true ∧
        ∀ calls : List (ℚ × List Enemy × ℚ),
          (lm.updates calls).1 = lm ∧
          (lm.updates calls).1.waveIndex = lm.waveIndex ∧
          (lm.updates calls).1.spawnTimer = lm.spawnTimer ∧
          (lm.updates calls).1.enemiesSpawned = lm.enemiesSpawned ∧
          ∀ call ∈ (lm.updates calls).2, call.2 = []) := by
  obtain ⟨levelData, hdata, hle⟩ := hrun.waveIndex_le
  obtain ⟨levelData2, hdata2, hle2⟩ := (hrun.update deltaTime enemies random).waveIndex_le
  have hsame : levelData2 = levelData := by
    rw [lm.update_levelData, hdata] at hdata2
    exact (Option.some.inj hdata2).symm
  subst hsame
  refine ⟨levelData2, hdata, hle, ?_, ?_, hle2, ?_, ?_⟩
  · rcases lm.update_waveIndex deltaTime enemies random with h | ⟨h, _⟩ <;> omega
  · rcases lm.update_waveIndex deltaTime enemies random with h | ⟨h, _⟩ <;> omega
  · intro hlt
    exact ⟨levelData2.waves[lm.waveIndex], List.getElem?_eq_getElem hlt⟩
  · intro hdone
    refine ⟨by simp [LevelManager.isLevelComplete, hdata, hdone], fun calls => ?_⟩
    have h := LevelManager.updates_complete calls lm levelData2 hdata (le_of_eq hdone.symm)
    refine ⟨h.1, by rw [h.1], by rw [h.1], by rw [h.1], fun call hmem => ?_⟩
    rw [h.2 call hmem]

/-- C27 at a concrete input: built-in level 1 loaded into a new manager and driven by one
`update(2, [], 0.5)`, which spawns the line of five and moves on to wave 1 of 3; the next
`update` keeps the index at 1. -/
theorem waveIndex_stays_in_range_witness :
    ((LevelManager.new.loadLevelWith 1 (LevelManager.fetchLevelData 1)).manager.update
      2 [] 0.5).1.waveIndex = 1 ∧
    ∃ levelData,
      ((LevelManager.new.loadLevelWith 1 (LevelManager.fetchLevelData 1)).manager.update
        2 [] 0.5).1.levelData = some levelData ∧
      levelData.waves.length = 3 ∧
      (((LevelManager.new.loadLevelWith 1 (LevelManager.fetchLevelData 1)).manager.update
        2 [] 0.5).1.update 1 [] 0.5).1.waveIndex ≤ levelData.waves.length := by
  have hrun : ((LevelManager.new.loadLevelWith 1 (LevelManager.fetchLevelData 1)).manager.update
      2 [] 0.5).1.Running :=
    LevelManager.Running.update 2 [] 0.5
      (LevelManager.Running.loaded LevelManager.new 1 (LevelManager.fetchLevelData 1)
        (by decide!))
  obtain ⟨levelData, hdata, _, _, _, hle, _⟩ := waveIndex_stays_in_range _ hrun 1 [] 0.5
  refine ⟨by decide!, levelData, hdata, ?_, hle⟩
  have hlevel : ((LevelManager.new.loadLevelWith 1 (LevelManager.fetchLevelData 1)).manager.update
      2 [] 0.5).1.levelData = some LevelManager.level1 := by decide!
  rw [hlevel] at hdata
  rw [← Option.some.inj hdata]
  rfl

/-! ## Spawn quota and wave progress -/

/-- C26, counterexample: on built-in level 2, after the second batch of the `diamond` wave
with count 8 the manager has spawned 10 enemies in the current wave, and
`getCurrentWaveProgress` returns 125. -/
theorem enemiesSpawned_exceeds_count_on_level_two :
    (LevelManager.new.loadLevel 2).outcome = Except.ok true ∧
    overshootManager.levelData = LevelManager.generateLevelData 2 ∧
    overshootManager.waveIndex = 1 ∧
    (LevelManager.level2.waves[1]?).map (fun wave => wave.count) = some 8 ∧
    overshootManager.enemiesSpawned = 10 ∧
    overshootManager.getCurrentWaveProgress = some 125 := by
  decide!

/-- The size of the batch `spawnWaveEnemies` returns depends on the wave only, not on the
random draw. -/
theorem LevelManager.spawnWaveEnemies_length_eq (wave : Wave) (random : ℚ) :
    (LevelManager.spawnWaveEnemies wave random).length =
      (LevelManager.spawnWaveEnemies wave 0).length := by
  unfold LevelManager.spawnWaveEnemies GameEntityFactory.createEnemyFormation
  split
  · split
    · split
      · rfl
      · split
        · simp only [List.length_map]
        · split
          · simp only [List.length_map]
          · rfl
    · rfl
  · rfl

/-- In a manager in use whose level has only positive counts, the number spawned in the
current wave is a multiple of the wave's batch size and is below the count plus one
batch: a batch is only spawned while the number is below the count. -/
theorem LevelManager.Running.enemiesSpawned_batches {lm : LevelManager} (hrun : lm.Running) :
    ∀ (levelData : LevelData) (wave : Wave), lm.levelData = some levelData →
      (∀ w ∈ levelData.waves, 0 < w.count) →
      levelData.waves[lm.waveIndex]? = some wave →
      (LevelManager.spawnWaveEnemies wave 0).length ∣ lm.enemiesSpawned ∧
      (lm.enemiesSpawned : ℚ) < wave.count + (LevelManager.spawnWaveEnemies wave 0).length := by
  have hfresh : ∀ (levelData : LevelData) (wave : Wave) (index : ℕ),
      (∀ w ∈ levelData.waves, 0 < w.count) → levelData.waves[index]? = some wave →
      (LevelManager.spawnWaveEnemies wave 0).length ∣ 0 ∧
      (((0 : ℕ) : ℚ)) < wave.count + (LevelManager.spawnWaveEnemies wave 0).length := by
    intro levelData wave index hpos hwave
    have hcount := hpos wave (List.getElem?_mem hwave)
    have hlen : (0 : ℚ) ≤ ((LevelManager.spawnWaveEnemies wave 0).length : ℚ) := Nat.cast_nonneg _
    exact ⟨dvd_zero _, by push_cast; linarith⟩
  induction hrun with
  | loaded lm0 levelNumber fetched hok =>
    intro levelData wave _ hpos hwave
    obtain ⟨_, _, hindex, hspawned, _⟩ := lm0.loadLevelWith_ok levelNumber fetched hok
    rw [hspawned]
    exact hfresh levelData wave _ hpos hwave
  | @update lm deltaTime enemies random _ ih =>
    intro levelData wave hdata hpos hwave
    rw [lm.update_levelData] at hdata
    cases hold : levelData.waves[lm.waveIndex]? with
    | none =>
      rw [lm.update_inactive deltaTime enemies random
        (Or.inr ⟨levelData, hdata, List.getElem?_eq_none_iff.mp hold⟩)] at hwave ⊢
      exact ih levelData wave hdata hpos hwave
    | some current =>
      have hinv := ih levelData current hdata hpos hold
      have hbatch := LevelManager.spawnWaveEnemies_length_eq current random
      rw [lm.update_active levelData current deltaTime enemies random hdata hold] at hwave ⊢
      split at hwave
      · rename_i hspawn
        rw [if_pos hspawn]
        split at hwave
        · rename_i hadvance
          rw [if_pos hadvance]
          exact hfresh levelData wave _ hpos hwave
        · rename_i hstay
          rw [if_neg hstay]
          simp only at hwave ⊢
          rw [hold] at hwave
          cases hwave
          rw [hbatch]
          refine ⟨Dvd.dvd.add hinv.1 (dvd_refl _), ?_⟩
          push_cast
          linarith [hspawn.2]
      · rename_i hspawn
        rw [if_neg hspawn]
        split at hwave
        · rename_i hadvance
          rw [if_pos hadvance]
          exact hfresh levelData wave _ hpos hwave
        · rename_i hstay
          rw [if_neg hstay]
          simp only at hwave ⊢
          rw [hold] at hwave
          cases hwave
          exact hinv

/-- The bounds that the batch invariant gives on each wave of the built-in levels. -/
theorem LevelManager.builtin_wave_bounds (levelNumber : ℚ) (levelData : LevelData)
    (hbuilt : LevelManager.generateLevelData levelNumber = some levelData)
    (wave : Wave) (hwave : wave ∈ levelData.waves) (spawned : ℕ)
    (hdiv : (LevelManager.spawnWaveEnemies wave 0).length ∣ spawned)
    (hlt : (spawned : ℚ) < wave.count + (LevelManager.spawnWaveEnemies wave 0).length) :
    0 < wave.count ∧ (spawned : ℚ) ≤ wave.count + 4 ∧
    0 ≤ ⌊(spawned : ℚ) / wave.count * 100 + 1 / 2⌋ ∧
    ⌊(spawned : ℚ) / wave.count * 100 + 1 / 2⌋ ≤ 167 ∧
    (levelNumber = 1 → (spawned : ℚ) ≤ wave.count ∧
      ⌊(spawned : ℚ) / wave.count * 100 + 1 / 2⌋ ≤ 100) := by
  unfold LevelManager.generateLevelData at hbuilt
  split_ifs at hbuilt with h1 h2 h3 h4 h5
  · cases hbuilt
    subst h1
    simp only [LevelManager.level1, List.mem_cons, List.mem_nil_iff, or_false] at hwave
    rcases hwave with rfl | rfl | rfl <;>
    · simp only [LevelManager.spawnWaveEnemies, Wave.mk5,
        GameEntityFactory.createEnemyFormation, ne_eq, String.reduceEq, not_false_eq_true,
        not_true_eq_false, and_self, and_false, false_and, if_true, if_false, List.length_map,
        List.length_range, List.length_cons, List.length_nil] at hdiv hlt
      norm_num at hdiv hlt
      interval_cases spawned <;> first | omega | decide!
  · cases hbuilt
    subst h2
    simp only [LevelManager.level2, List.mem_cons, List.mem_nil_iff, or_false] at hwave
    rcases hwave with rfl | rfl | rfl | rfl <;>
    · simp only [LevelManager.spawnWaveEnemies, Wave.mk5,
        GameEntityFactory.createEnemyFormation, ne_eq, String.reduceEq, not_false_eq_true,
        not_true_eq_false, and_self, and_false, false_and, if_true, if_false, List.length_map,
        List.length_range, List.length_cons, List.length_nil] at hdiv hlt
      norm_num at hdiv hlt
      interval_cases spawned <;> first | omega | decide!
  · cases hbuilt
    subst h3
    simp only [LevelManager.level3, List.mem_cons, List.mem_nil_iff, or_false] at hwave
    rcases hwave with rfl | rfl | rfl | rfl <;>
    · simp only [LevelManager.spawnWaveEnemies, Wave.mk5,
        GameEntityFactory.createEnemyFormation, ne_eq, String.reduceEq, not_false_eq_true,
        not_true_eq_false, and_self, and_false, false_and, if_true, if_false, List.length_map,
        List.length_range, List.length_cons, List.length_nil] at hdiv hlt
      norm_num at hdiv hlt
      interval_cases spawned <;> first | omega | decide!
  · cases hbuilt
    subst h4
    simp only [LevelManager.level4, List.mem_cons, List.mem_nil_iff, or_false] at hwave
    rcases hwave with rfl | rfl | rfl | rfl | rfl <;>
    · simp only [LevelManager.spawnWaveEnemies, Wave.mk5,
        GameEntityFactory.createEnemyFormation, ne_eq, String.reduceEq, not_false_eq_true,
        not_true_eq_false, and_self, and_false, false_and, if_true, if_false, List.length_map,
        List.length_range, List.length_cons, List.length_nil] at hdiv hlt
      norm_num at hdiv hlt
      interval_cases spawned <;> first | omega | decide!
  · cases hbuilt
    subst h5
    simp only [LevelManager.level5, List.mem_cons, List.mem_nil_iff, or_false] at hwave
    rcases hwave with rfl | rfl | rfl | rfl | rfl <;>
    · simp only [LevelManager.spawnWaveEnemies, Wave.mk5,
        GameEntityFactory.createEnemyFormation, ne_eq, String.reduceEq, not_false_eq_true,
        not_true_eq_false, and_self, and_false, false_and, if_true, if_false, List.length_map,
        List.length_range, List.length_cons, List.length_nil] at hdiv hlt
      norm_num at hdiv hlt
      interval_cases spawned <;> first | omega | decide!
/-- A manager in use stays in use through any sequence of `update` calls. -/
theorem LevelManager.Running.updates (calls : List (ℚ × List Enemy × ℚ)) :
    ∀ {lm : LevelManager}, lm.Running → (lm.updates calls).1.Running := by
  induction calls with
  | nil => intro lm h; exact h
  | cons c rest ih =>
    intro lm h
    obtain ⟨deltaTime, enemies, random⟩ := c
    exact ih (h.update deltaTime enemies random)

/-- C26, amended: for every built-in level and every manager reached from loading it by
`update` calls, the number of enemies spawned in the current wave can exceed the wave's
count, but by at most 4 (a whole batch of up to five is spawned whenever the number is
still below the count), so `getCurrentWaveProgress` lies between 0 and 167; on level 1,
whose counts are multiples of the batch size, the number never exceeds the count and the
progress lies between 0 and 100. -/
theorem enemiesSpawned_within_one_batch (lm : LevelManager) (hrun : lm.Running)
    (levelNumber : ℚ) (hbuilt : lm.levelData = LevelManager.generateLevelData levelNumber) :
    (∀ (levelData : LevelData) (wave : Wave), lm.levelData = some levelData →
      levelData.waves[lm.waveIndex]? = some wave →
      (lm.enemiesSpawned : ℚ) ≤ wave.count + 4 ∧
      (levelNumber = 1 → (lm.enemiesSpawned : ℚ) ≤ wave.count)) ∧
    ∃ progress : ℤ, lm.getCurrentWaveProgress = some progress ∧
      0 ≤ progress ∧ progress ≤ 167 ∧ (levelNumber = 1 → progress ≤ 100) := by
  obtain ⟨levelData, hdata, hle⟩ := hrun.waveIndex_le
  have hgen : LevelManager.generateLevelData levelNumber = some levelData := by
    rw [← hbuilt, hdata]
  have hpos : ∀ w ∈ levelData.waves, 0 < w.count := fun w hw =>
    ((levelData.validate_toJS.2.mp
      (LevelManager.generateLevelData_valid levelNumber levelData hgen)).2 w hw).2.1
  have hbounds : ∀ wave : Wave, levelData.waves[lm.waveIndex]? = some wave →
      0 < wave.count ∧ (lm.enemiesSpawned : ℚ) ≤ wave.count + 4 ∧
      0 ≤ ⌊(lm.enemiesSpawned : ℚ) / wave.count * 100 + 1 / 2⌋ ∧
      ⌊(lm.enemiesSpawned : ℚ) / wave.count * 100 + 1 / 2⌋ ≤ 167 ∧
      (levelNumber = 1 → (lm.enemiesSpawned : ℚ) ≤ wave.count ∧
        ⌊(lm.enemiesSpawned : ℚ) / wave.count * 100 + 1 / 2⌋ ≤ 100) := by
    intro wave hwave
    have hinv := hrun.enemiesSpawned_batches levelData wave hdata hpos hwave
    exact LevelManager.builtin_wave_bounds levelNumber levelData hgen wave
      (List.getElem?_mem hwave) lm.enemiesSpawned hinv.1 hinv.2
  constructor
  · intro levelData2 wave hdata2 hwave
    rw [hdata] at hdata2
    cases hdata2
    have h := hbounds wave hwave
    exact ⟨h.2.1, fun hone => (h.2.2.2.2 hone).1⟩
  · unfold LevelManager.getCurrentWaveProgress
    simp only [hdata]
    by_cases hlt : lm.waveIndex < levelData.waves.length
    · have h := hbounds levelData.waves[lm.waveIndex] (List.getElem?_eq_getElem hlt)
      rw [dif_pos hlt]
      simp only [if_neg (ne_of_gt h.1)]
      exact ⟨_, rfl, h.2.2.1, h.2.2.2.1, fun hone => (h.2.2.2.2 hone).2⟩
    · rw [dif_neg hlt]
      exact ⟨100, rfl, by norm_num, by norm_num, fun _ => le_refl _⟩

/-- C26 amended, at a concrete input: after the second `diamond` batch on level 2 the
manager has spawned 10 of 8, within 8 + 4, and the progress 125 is within 0..167. -/
theorem enemiesSpawned_within_one_batch_witness :
    overshootManager.enemiesSpawned = 10 ∧
    ((overshootManager.enemiesSpawned : ℚ) ≤ 8 + 4) ∧
    ∃ progress : ℤ, overshootManager.getCurrentWaveProgress = some progress ∧
      0 ≤ progress ∧ progress ≤ 167 := by
  have hrun : overshootManager.Running :=
    LevelManager.Running.updates _
      (LevelManager.Running.loaded LevelManager.new 2 (LevelManager.fetchLevelData 2)
        (by decide!))
  have h := enemiesSpawned_within_one_batch overshootManager hrun 2 (by decide!)
  refine ⟨by decide!, ?_, ?_⟩
  · exact (h.1 LevelManager.level2 (Wave.mk5 "basic" 8 1.5 "diamond" 0.15)
      (by decide!) (by decide!)).1
  · obtain ⟨progress, hprogress, h0, h167, _⟩ := h.2
    exact ⟨progress, hprogress, h0, h167⟩

/-! ## The session state machine -/

/-- Keeping the session state is reflexive. -/
theorem StarRunnerGame.StateKept.refl (g : StarRunnerGame) : g.StateKept g := Or.inl rfl

/-- Keeping the session state composes. -/
theorem StarRunnerGame.StateKept.trans {g mid after : StarRunnerGame}
    (h1 : g.StateKept mid) (h2 : mid.StateKept after) : g.StateKept after := by
  unfold StarRunnerGame.StateKept at *
  rcases h2 with h2 | h2
  · rcases h1 with h1 | h1
    · exact Or.inl (h2.trans h1)
    · exact Or.inr (h2.trans h1)
  · exact Or.inr h2

/-- A stretch that starts from a game in the same session state. -/
theorem StarRunnerGame.StateKept.of_gameState {g mid after : StarRunnerGame}
    (h2 : mid.StateKept after) (h : mid.gameState = g.gameState) : g.StateKept after := by
  unfold StarRunnerGame.StateKept at *
  rw [← h]
  exact h2

/-- The event listeners keep the session state or end the game. -/
theorem StarRunnerGame.handleEvents_stateKept (events : List Event) :
    ∀ g : StarRunnerGame, g.StateKept (g.handleEvents events) := by
  induction events with
  | nil => intro g; exact StarRunnerGame.StateKept.refl g
  | cons event rest ih =>
    intro g
    have hstep : g.StateKept (g.handleEvent event) := by
      cases event with
      | playerHit health =>
        simp only [StarRunnerGame.handleEvent]
        split
        · exact Or.inr rfl
        · exact Or.inl rfl
      | powerUpActivated type duration => exact Or.inl rfl
      | powerUpExpired type => exact Or.inl rfl
    exact hstep.trans (ih (g.handleEvent event))

/-- The call `this.player.takeDamage()` keeps the session state or ends the game. -/
theorem StarRunnerGame.playerTakeDamage_stateKept (g : StarRunnerGame) :
    g.StateKept g.playerTakeDamage :=
  StarRunnerGame.handleEvents_stateKept (g.player.takeDamage 1).2
    { g with player := (g.player.takeDamage 1).1 }

/-- The inner loop of the first collision pass does not write the session state. -/
theorem StarRunnerGame.projectileVsEnemies_gameState (projectile : Projectile) (n : ℕ) :
    ∀ g : StarRunnerGame, (g.projectileVsEnemies projectile n).1.gameState = g.gameState := by
  induction n with
  | zero => intro g; rfl
  | succ j ih =>
    intro g
    simp only [StarRunnerGame.projectileVsEnemies]
    split
    · exact ih g
    · split
      · simp only []
        split <;> rfl
      · exact ih g

/-- The first collision pass does not write the session state. -/
theorem StarRunnerGame.playerProjectilesVsEnemies_gameState (n : ℕ) :
    ∀ g : StarRunnerGame, (g.playerProjectilesVsEnemies n).gameState = g.gameState := by
  induction n with
  | zero => intro g; rfl
  | succ i ih =>
    intro g
    simp only [StarRunnerGame.playerProjectilesVsEnemies]
    split
    · exact ih g
    · split
      · exact ih g
      · rw [ih]
        exact StarRunnerGame.projectileVsEnemies_gameState _ _ g

/-- The second collision pass keeps the session state or ends the game. -/
theorem StarRunnerGame.enemyProjectilesVsPlayer_stateKept (n : ℕ) :
    ∀ g : StarRunnerGame, g.StateKept (g.enemyProjectilesVsPlayer n) := by
  induction n with
  | zero => intro g; exact StarRunnerGame.StateKept.refl g
  | succ i ih =>
    intro g
    simp only [StarRunnerGame.enemyProjectilesVsPlayer]
    split
    · exact ih g
    · split
      · exact ih g
      · split
        · exact StarRunnerGame.StateKept.of_gameState
            ((StarRunnerGame.playerTakeDamage_stateKept _).trans (ih _)) rfl
        · exact ih g

/-- The third collision pass keeps the session state or ends the game. -/
theorem StarRunnerGame.playerVsEnemies_stateKept (enemies : List Enemy) :
    ∀ g : StarRunnerGame, g.StateKept (g.playerVsEnemies enemies).1 := by
  induction enemies with
  | nil => intro g; exact StarRunnerGame.StateKept.refl g
  | cons enemy rest ih =>
    intro g
    simp only [StarRunnerGame.playerVsEnemies]
    split
    · exact g.playerTakeDamage_stateKept.trans (ih _)
    · exact ih g

/-- The method `collectPowerUp` keeps the session state or ends the game. -/
theorem StarRunnerGame.collectPowerUp_stateKept (g : StarRunnerGame) (powerUp : PowerUp) :
    g.StateKept (g.collectPowerUp powerUp) := by
  simp only [StarRunnerGame.collectPowerUp]
  split
  · split
    · exact Or.inl rfl
    · exact Or.inl rfl
  · split
    · exact StarRunnerGame.StateKept.of_gameState
        (StarRunnerGame.handleEvents_stateKept _ _) rfl
    · exact Or.inl rfl

/-- The fourth collision pass keeps the session state or ends the game. -/
theorem StarRunnerGame.playerVsPowerUps_stateKept (n : ℕ) :
    ∀ g : StarRunnerGame, g.StateKept (g.playerVsPowerUps n) := by
  induction n with
  | zero => intro g; exact StarRunnerGame.StateKept.refl g
  | succ i ih =>
    intro g
    simp only [StarRunnerGame.playerVsPowerUps]
    split
    · exact ih g
    · split
      · rename_i powerUp _ _
        exact (g.collectPowerUp_stateKept powerUp).trans
          (StarRunnerGame.StateKept.of_gameState (ih _) rfl)
      · exact ih g
/-- The method `checkCollisions` keeps the session state or ends the game. -/
theorem StarRunnerGame.checkCollisions_stateKept (g : StarRunnerGame) :
    g.StateKept g.checkCollisions := by
  have h1 := StarRunnerGame.playerProjectilesVsEnemies_gameState g.projectiles.length g
  have h2 := StarRunnerGame.enemyProjectilesVsPlayer_stateKept
    (g.playerProjectilesVsEnemies g.projectiles.length).projectiles.length
    (g.playerProjectilesVsEnemies g.projectiles.length)
  have h3 := StarRunnerGame.playerVsEnemies_stateKept
    ((g.playerProjectilesVsEnemies g.projectiles.length).enemyProjectilesVsPlayer
      (g.playerProjectilesVsEnemies g.projectiles.length).projectiles.length).enemies
    ((g.playerProjectilesVsEnemies g.projectiles.length).enemyProjectilesVsPlayer
      (g.playerProjectilesVsEnemies g.projectiles.length).projectiles.length)
  have h4 : (((g.playerProjectilesVsEnemies g.projectiles.length).enemyProjectilesVsPlayer
      (g.playerProjectilesVsEnemies g.projectiles.length).projectiles.length).playerVsEnemies
      ((g.playerProjectilesVsEnemies g.projectiles.length).enemyProjectilesVsPlayer
        (g.playerProjectilesVsEnemies g.projectiles.length).projectiles.length).enemies
      ).1.StateKept g.checkCollisions := by
    simp only [StarRunnerGame.checkCollisions]
    exact StarRunnerGame.StateKept.of_gameState
      (StarRunnerGame.playerVsPowerUps_stateKept _ _) rfl
  exact StarRunnerGame.StateKept.of_gameState (h2.trans (h3.trans h4)) h1

/-- The method `managePowerUpSpawning` does not write the session state. -/
theorem StarRunnerGame.managePowerUpSpawning_gameState (g : StarRunnerGame) (deltaTime : ℚ)
    (rs : Randoms) : (g.managePowerUpSpawning deltaTime rs).gameState = g.gameState := by
  simp only [StarRunnerGame.managePowerUpSpawning, StarRunnerGame.spawnRandomPowerUp]
  split
  · split <;> rfl
  · rfl

/-- The first half of `update` keeps the session state or ends the game. -/
theorem StarRunnerGame.updateAndSpawn_stateKept (g : StarRunnerGame) (deltaTime : ℚ)
    (rs : Randoms) : g.StateKept (g.updateAndSpawn deltaTime rs) := by
  simp only [StarRunnerGame.updateAndSpawn]
  exact StarRunnerGame.StateKept.of_gameState
    ((StarRunnerGame.handleEvents_stateKept _ _).trans (Or.inl rfl)) rfl

/-- The method `update` keeps the session state or ends the game. -/
theorem StarRunnerGame.update_stateKept (g : StarRunnerGame) (deltaTime : ℚ) (rs : Randoms) :
    g.StateKept (g.update deltaTime rs) := by
  have h5 := g.updateAndSpawn_stateKept deltaTime rs
  have h6 := (g.updateAndSpawn deltaTime rs).checkCollisions_stateKept
  have h7 : (g.updateAndSpawn deltaTime rs).checkCollisions.cleanupEntities.gameState =
      (g.updateAndSpawn deltaTime rs).checkCollisions.gameState := by
    simp only [StarRunnerGame.cleanupEntities]
  have h8 := StarRunnerGame.managePowerUpSpawning_gameState
    (g.updateAndSpawn deltaTime rs).checkCollisions.cleanupEntities deltaTime rs
  have hkept : g.StateKept ((g.updateAndSpawn deltaTime rs).checkCollisions.cleanupEntities
      |>.managePowerUpSpawning deltaTime rs) :=
    h5.trans (h6.trans (Or.inl (h8.trans h7)))
  have hover : ∀ after : StarRunnerGame, after.levelComplete.gameState = "gameOver" :=
    fun _ => rfl
  unfold StarRunnerGame.update
  simp only []
  split
  · exact Or.inr (hover _)
  · exact hkept

/-- The method `gameLoop` in the state `playing`: the clamped delta-time is added to the
game time and passed to `update`. -/
theorem StarRunnerGame.gameLoop_playing (g : StarRunnerGame) (currentTime : ℚ) (rs : Randoms)
    (h : g.gameState = "playing") :
    g.gameLoop currentTime rs =
      (({ g with lastTime := currentTime,
                 gameTime := g.gameTime + min ((currentTime - g.lastTime) / 1000) 0.016 }
          ).update (min ((currentTime - g.lastTime) / 1000) 0.016) rs,
       some (min ((currentTime - g.lastTime) / 1000) 0.016)) := by
  unfold StarRunnerGame.gameLoop
  rw [if_neg (not_not.mpr h)]

/-- The method `gameLoop` returns at once unless the state is `playing`, and from
`playing` it leaves the state `playing` or `gameOver`; the delta-time it passes to `update`
is the clamped difference to `lastTime`. -/
theorem StarRunnerGame.gameLoop_spec (g : StarRunnerGame) (currentTime : ℚ) (rs : Randoms) :
    (g.gameState ≠ "playing" → g.gameLoop currentTime rs = (g, none)) ∧
    (g.gameState = "playing" →
      ((g.gameLoop currentTime rs).1.gameState = "playing" ∨
        (g.gameLoop currentTime rs).1.gameState = "gameOver") ∧
      (g.gameLoop currentTime rs).2 = some (min ((currentTime - g.lastTime) / 1000) 0.016)) := by
  constructor
  · intro h
    simp only [StarRunnerGame.gameLoop, if_pos h]
  · intro h
    rw [g.gameLoop_playing currentTime rs h]
    refine ⟨?_, rfl⟩
    have hstart : ∀ (lastTime gameTime : ℚ),
        ({ g with lastTime := lastTime, gameTime := gameTime } : StarRunnerGame).gameState =
          "playing" := fun _ _ => h
    rcases StarRunnerGame.update_stateKept _ (min ((currentTime - g.lastTime) / 1000) 0.016) rs
      with hk | hk
    · exact Or.inl (hk.trans (hstart _ _))
    · exact Or.inr hk

/-- The method `resumeGame` on a paused game runs `gameLoop(0)` on the game set to
`playing` with `lastTime` at the clock value; on any other game it does nothing. -/
theorem StarRunnerGame.resumeGame_spec (g : StarRunnerGame) (now : ℚ) (rs : Randoms) :
    (g.gameState ≠ "paused" → g.resumeGame now rs = (g, none)) ∧
    (g.gameState = "paused" →
      ((g.resumeGame now rs).1.gameState = "playing" ∨
        (g.resumeGame now rs).1.gameState = "gameOver") ∧
      (g.resumeGame now rs).2 = some (min ((0 - now) / 1000) 0.016)) := by
  constructor
  · intro h
    simp only [StarRunnerGame.resumeGame, if_neg h]
  · intro h
    simp only [StarRunnerGame.resumeGame, if_pos h]
    exact (StarRunnerGame.gameLoop_spec _ 0 rs).2 rfl

/-- The method `startGame`: when the level loads it runs `gameLoop(0)` on a fresh
`playing` session with `lastTime` at the clock value, and otherwise it ends in `menu`. -/
theorem StarRunnerGame.startGame_spec (g : StarRunnerGame) (selectedLevel : ℚ)
    (fetched : Except LoadError LevelData) (now : ℚ) (rs : Randoms) :
    ((g.levelManager.loadLevelWith selectedLevel fetched).outcome = Except.ok true →
      ((g.startGame selectedLevel fetched now rs).1.gameState = "playing" ∨
        (g.startGame selectedLevel fetched now rs).1.gameState = "gameOver") ∧
      (g.startGame selectedLevel fetched now rs).2 = some (min ((0 - now) / 1000) 0.016)) ∧
    ((g.levelManager.loadLevelWith selectedLevel fetched).outcome ≠ Except.ok true →
      (g.startGame selectedLevel fetched now rs).1.gameState = "menu" ∧
      (g.startGame selectedLevel fetched now rs).2 = none) := by
  constructor
  · intro h
    simp only [StarRunnerGame.startGame, h]
    exact (StarRunnerGame.gameLoop_spec _ 0 rs).2 rfl
  · intro h
    simp only [StarRunnerGame.startGame]
    exact ⟨rfl, trivial⟩

/-- C22, counterexample: the paused example session answers `goToMainMenu` (the button of
the pause menu) with the state `menu`, so a state other than `playing` follows `paused`. -/
theorem paused_session_goes_to_menu :
    exampleSession.gameState = "playing" ∧
    pausedSession.gameState = "paused" ∧
    (pausedSession.session SessionCall.goToMainMenu).gameState = "menu" ∧
    (pausedSession.session SessionCall.goToMainMenu).gameState ≠ "playing" := by
  decide!

/-- C22, amended: a transition call that ends in `paused` from another state is
`pauseGame` called in `playing`.  From `paused`, `pauseGame` changes nothing,
`goToMainMenu` gives `menu`, `gameOver` gives `gameOver`, `resumeGame` gives `playing`, or
`gameOver` when the tick it runs ends the game, and `startGame` gives the same two when
the level loads and `menu` when it does not. -/
theorem paused_entered_only_from_playing (g : StarRunnerGame) :
    (∀ call : SessionCall, (g.session call).gameState = "paused" →
      g.gameState = "paused" ∨ (g.gameState = "playing" ∧ call = SessionCall.pauseGame)) ∧
    (g.gameState = "paused" →
      g.session SessionCall.pauseGame = g ∧
      (g.session SessionCall.goToMainMenu).gameState = "menu" ∧
      (∀ victory : Bool, (g.session (SessionCall.gameOver victory)).gameState = "gameOver") ∧
      (∀ (now : ℚ) (rs : Randoms),
        (g.session (SessionCall.resumeGame now rs)).gameState = "playing" ∨
        (g.session (SessionCall.resumeGame now rs)).gameState = "gameOver") ∧
      (∀ (selectedLevel : ℚ) (fetched : Except LoadError LevelData) (now : ℚ) (rs : Randoms),
        ((g.levelManager.loadLevelWith selectedLevel fetched).outcome = Except.ok true →
          (g.session (SessionCall.startGame selectedLevel fetched now rs)).gameState =
            "playing" ∨
          (g.session (SessionCall.startGame selectedLevel fetched now rs)).gameState =
            "gameOver") ∧
        ((g.levelManager.loadLevelWith selectedLevel fetched).outcome ≠ Except.ok true →
          (g.session (SessionCall.startGame selectedLevel fetched now rs)).gameState =
            "menu"))) := by
  constructor
  · intro call hpaused
    cases call with
    | startGame selectedLevel fetched now rs =>
      simp only [StarRunnerGame.session] at hpaused
      by_cases hok : (g.levelManager.loadLevelWith selectedLevel fetched).outcome = Except.ok true
      · rcases ((g.startGame_spec selectedLevel fetched now rs).1 hok).1 with h | h
        · rw [h] at hpaused; exact absurd hpaused (by decide)
        · rw [h] at hpaused; exact absurd hpaused (by decide)
      · rw [((g.startGame_spec selectedLevel fetched now rs).2 hok).1] at hpaused
        exact absurd hpaused (by decide)
    | pauseGame =>
      by_cases hplaying : g.gameState = "playing"
      · exact Or.inr ⟨hplaying, rfl⟩
      · simp only [StarRunnerGame.session, StarRunnerGame.pauseGame, if_neg hplaying] at hpaused
        exact Or.inl hpaused
    | resumeGame now rs =>
      by_cases hp : g.gameState = "paused"
      · exact Or.inl hp
      · simp only [StarRunnerGame.session, (g.resumeGame_spec now rs).1 hp] at hpaused
        exact Or.inl hpaused
    | gameOver victory =>
      simp only [StarRunnerGame.session, StarRunnerGame.gameOver] at hpaused
      exact absurd hpaused (by decide)
    | goToMainMenu =>
      simp only [StarRunnerGame.session, StarRunnerGame.goToMainMenu] at hpaused
      exact absurd hpaused (by decide)
  · intro hp
    refine ⟨?_, rfl, fun _ => rfl, fun now rs => ?_, fun selectedLevel fetched now rs => ⟨?_, ?_⟩⟩
    · have hne : g.gameState ≠ "playing" := by rw [hp]; decide
      simp only [StarRunnerGame.session, StarRunnerGame.pauseGame, if_neg hne]
    · exact ((g.resumeGame_spec now rs).2 hp).1
    · intro hok
      exact ((g.startGame_spec selectedLevel fetched now rs).1 hok).1
    · intro hok
      exact ((g.startGame_spec selectedLevel fetched now rs).2 hok).1

/-! ## The delta-time of a tick -/

/-- The delta-time `gameLoop` passes to `update` is at most 0.016; it is non-negative when
the timestamp is not before `lastTime`, and negative when it is. -/
theorem StarRunnerGame.gameLoop_delta (g : StarRunnerGame) (currentTime : ℚ) (rs : Randoms)
    (delta : ℚ) (h : (g.gameLoop currentTime rs).2 = some delta) :
    delta ≤ 0.016 ∧ (g.lastTime ≤ currentTime → 0 ≤ delta) ∧
    (currentTime < g.lastTime → delta < 0) := by
  by_cases hplaying : g.gameState = "playing"
  · rw [((g.gameLoop_spec currentTime rs).2 hplaying).2] at h
    have hdelta := Option.some.inj h
    subst hdelta
    refine ⟨min_le_right _ _, fun hle => le_min ?_ (by norm_num), fun hlt => ?_⟩
    · exact div_nonneg (by linarith) (by norm_num)
    · exact lt_of_le_of_lt (min_le_left _ _) (div_neg_of_neg_of_pos (by linarith) (by norm_num))
  · rw [(g.gameLoop_spec currentTime rs).1 hplaying] at h
    cases h

/-- C24, evaluation of the code: `resumeGame` on the paused example session with the
clock at 5000 ms, and `startGame` of level 1 from the menu with the clock at 5000 ms, both
run their first tick with `lastTime = 5000` and the default timestamp 0, and pass the
delta-time -5 to `update`, which is below 0; the game time becomes -5. -/
theorem first_tick_delta_is_negative :
    pausedSession.gameState = "paused" ∧
    (pausedSession.resumeGame 5000 halfRandoms).2 = some (-5) ∧
    (pausedSession.resumeGame 5000 halfRandoms).1.gameTime = -5 ∧
    (exampleSession.goToMainMenu.startGame 1 (LevelManager.fetchLevelData 1) 5000
      halfRandoms).2 = some (-5) ∧
    (exampleSession.goToMainMenu.startGame 1 (LevelManager.fetchLevelData 1) 5000
      halfRandoms).1.player.lastShot = -5 ∧
    ¬ ((0 : ℚ) ≤ -5) := by
  decide!

/-! ## Event bus subscriptions -/

/-- Reading back the property that was just written. -/
theorem EventBus.lookup_setProperty_self (events : List (String × List ℕ)) (event : String)
    (list : List ℕ) : (EventBus.setProperty events event list).lookup event = some list := by
  induction events with
  | nil => simp only [EventBus.setProperty, List.lookup_cons, beq_self_eq_true]
  | cons entry rest ih =>
    obtain ⟨key, value⟩ := entry
    by_cases hkey : key = event
    · subst hkey
      simp only [EventBus.setProperty, if_true, List.lookup_cons, beq_self_eq_true]
    · have hne : (event == key) = false := by
        rw [beq_eq_false_iff_ne]; exact fun h => hkey h.symm
      simp only [EventBus.setProperty, if_neg hkey, List.lookup_cons, hne]
      exact ih

/-- Writing one property leaves every other property as it is. -/
theorem EventBus.lookup_setProperty_other (events : List (String × List ℕ))
    (event other : String) (list : List ℕ) (hne : other ≠ event) :
    (EventBus.setProperty events event list).lookup other = events.lookup other := by
  have hbeq : (other == event) = false := by
    rw [beq_eq_false_iff_ne]; exact hne
  induction events with
  | nil => simp only [EventBus.setProperty, List.lookup_cons, hbeq, List.lookup_nil]
  | cons entry rest ih =>
    obtain ⟨key, value⟩ := entry
    by_cases hkey : key = event
    · subst hkey
      simp only [EventBus.setProperty, if_true, List.lookup_cons, hbeq]
    · simp only [EventBus.setProperty, if_neg hkey, List.lookup_cons, ih]

/-- The count of a bus in terms of the array stored under the event name. -/
theorem EventBus.getSubscriberCount_eq (bus : EventBus) (event : String)
    (hevent : event ∉ EventBus.objectPrototype) :
    bus.getSubscriberCount event = some ((bus.events.lookup event).getD []).length := by
  simp only [EventBus.getSubscriberCount, if_neg hevent]
  cases bus.events.lookup event <;> rfl

/-- The function returned by `subscribe`, called on a bus whose array for the event is
`list`: the first occurrence of the callback is removed, and nothing happens when there is
none. -/
theorem EventBus.unsubscribe_eq (bus : EventBus) (event : String) (callback : ℕ)
    (list : List ℕ) (hevent : event ∉ EventBus.objectPrototype)
    (hlist : bus.events.lookup event = some list) :
    ∃ after, bus.unsubscribe event callback = some after ∧
      after.events.lookup event = some (list.erase callback) ∧
      (callback ∉ list → after = bus) ∧
      ∀ other, other ≠ event → after.events.lookup other = bus.events.lookup other := by
  simp only [EventBus.unsubscribe, if_neg hevent, hlist]
  by_cases hmem : callback ∈ list
  · rw [if_pos hmem]
    exact ⟨_, rfl, EventBus.lookup_setProperty_self _ _ _, fun h => absurd hmem h,
      fun other hne => EventBus.lookup_setProperty_other _ _ _ _ hne⟩
  · rw [if_neg hmem]
    refine ⟨_, rfl, ?_, fun _ => rfl, fun _ _ => rfl⟩
    rw [hlist, List.erase_of_not_mem hmem]

/-- C29, counterexample: the callback 7 is subscribed twice to `playerHit`; the first
call of the first returned function leaves one subscriber, and calling the same function
again is not a no-op: it removes the other subscription and leaves none. -/
theorem second_unsubscribe_removes_other_subscription :
    doubleSubscription.bind (fun bus => bus.getSubscriberCount "playerHit") = some 2 ∧
    (doubleSubscription.bind (fun bus => bus.unsubscribe "playerHit" 7)).bind
      (fun bus => bus.getSubscriberCount "playerHit") = some 1 ∧
    ((doubleSubscription.bind (fun bus => bus.unsubscribe "playerHit" 7)).bind
      (fun bus => bus.unsubscribe "playerHit" 7)).bind
      (fun bus => bus.getSubscriberCount "playerHit") = some 0 ∧
    (doubleSubscription.bind (fun bus => bus.unsubscribe "playerHit" 7)).bind
      (fun bus => bus.unsubscribe "playerHit" 7) ≠
    doubleSubscription.bind (fun bus => bus.unsubscribe "playerHit" 7) := by
  decide

/-- C29, amended: for every bus and every `subscribe(event, callback)` that returns (the
event name is not an inherited member), the subscription is appended to the event's array;
the first call of the returned function removes the earliest subscription of that callback
from that array, so the subscriber count is back to what it was and other events are
untouched, and the array is the one from before when the callback was not subscribed
before.  A second call of the same function is a no-op exactly when the callback was not
subscribed before; otherwise it removes one more subscription of that callback and the
count drops by one more. -/
theorem unsubscribe_removes_earliest_subscription (bus : EventBus) (event : String)
    (callback : ℕ) (hevent : event ∉ EventBus.objectPrototype) :
    ∃ subscribed once twice : EventBus,
      bus.subscribe event callback = some subscribed ∧
      subscribed.unsubscribe event callback = some once ∧
      once.unsubscribe event callback = some twice ∧
      subscribed.events.lookup event =
        some ((bus.events.lookup event).getD [] ++ [callback]) ∧
      once.events.lookup event =
        some (((bus.events.lookup event).getD [] ++ [callback]).erase callback) ∧
      subscribed.getSubscriberCount event = (bus.getSubscriberCount event).map (· + 1) ∧
      once.getSubscriberCount event = bus.getSubscriberCount event ∧
      (∀ other, other ≠ event →
        subscribed.events.lookup other = bus.events.lookup other ∧
        once.events.lookup other = bus.events.lookup other ∧
        twice.events.lookup other = bus.events.lookup other) ∧
      (callback ∉ (bus.events.lookup event).getD [] →
        once.events.lookup event = some ((bus.events.lookup event).getD []) ∧ twice = once) ∧
      (callback ∈ (bus.events.lookup event).getD [] →
        once.events.lookup event =
          some (((bus.events.lookup event).getD []).erase callback ++ [callback]) ∧
        twice.events.lookup event =
          some ((((bus.events.lookup event).getD []).erase callback ++ [callback]).erase
            callback) ∧
        once.getSubscriberCount event = (twice.getSubscriberCount event).map (· + 1) ∧
        twice ≠ once) := by
  obtain ⟨list, hlist⟩ : ∃ list, list = (bus.events.lookup event).getD [] := ⟨_, rfl⟩
  rw [← hlist]
  obtain ⟨subscribed, hsub⟩ : ∃ subscribed : EventBus, subscribed =
      { events := EventBus.setProperty bus.events event (list ++ [callback]) } := ⟨_, rfl⟩
  have hsubscribe : bus.subscribe event callback = some subscribed := by
    simp only [EventBus.subscribe, if_neg hevent, hsub, hlist]
  have hlook1 : subscribed.events.lookup event = some (list ++ [callback]) := by
    rw [hsub]; exact EventBus.lookup_setProperty_self _ _ _
  have hother1 : ∀ other, other ≠ event →
      subscribed.events.lookup other = bus.events.lookup other := by
    intro other hne
    rw [hsub]; exact EventBus.lookup_setProperty_other _ _ _ _ hne
  obtain ⟨once, honce, hlook2, _, hother2⟩ :=
    subscribed.unsubscribe_eq event callback _ hevent hlook1
  obtain ⟨twice, htwice, hlook3, hnoop3, hother3⟩ :=
    once.unsubscribe_eq event callback _ hevent hlook2
  have hcount0 := bus.getSubscriberCount_eq event hevent
  have hcount1 := subscribed.getSubscriberCount_eq event hevent
  have hcount2 := once.getSubscriberCount_eq event hevent
  have hcount3 := twice.getSubscriberCount_eq event hevent
  rw [← hlist] at hcount0
  rw [hlook1] at hcount1
  rw [hlook2] at hcount2
  rw [hlook3] at hcount3
  simp only [Option.getD_some] at hcount1 hcount2 hcount3
  have hlen2 : ((list ++ [callback]).erase callback).length = list.length := by
    rw [List.length_erase_of_mem (List.mem_append_right _ (List.mem_singleton_self _))]
    simp
  refine ⟨subscribed, once, twice, hsubscribe, honce, htwice, hlook1, hlook2, ?_, ?_, ?_, ?_, ?_⟩
  · rw [hcount1, hcount0]; simp
  · rw [hcount2, hcount0, hlen2]
  · intro other hne
    exact ⟨hother1 other hne, (hother2 other hne).trans (hother1 other hne),
      (hother3 other hne).trans ((hother2 other hne).trans (hother1 other hne))⟩
  · intro hnot
    have herase : (list ++ [callback]).erase callback = list := by
      rw [List.erase_append_right _ hnot]; simp
    rw [herase] at hlook2
    refine ⟨hlook2, hnoop3 ?_⟩
    rw [herase]; exact hnot
  · intro hmem
    have herase : (list ++ [callback]).erase callback = list.erase callback ++ [callback] :=
      List.erase_append_left _ hmem
    have hmem2 : callback ∈ (list ++ [callback]).erase callback := by
      rw [herase]; exact List.mem_append_right _ (List.mem_singleton_self _)
    have hlen3 : ((list ++ [callback]).erase callback).length =
        (((list ++ [callback]).erase callback).erase callback).length + 1 := by
      have hpos := List.length_pos_of_mem hmem2
      rw [List.length_erase_of_mem hmem2]
      omega
    refine ⟨by rw [hlook2, herase], by rw [hlook3, herase], ?_, ?_⟩
    · rw [hcount2, hcount3, hlen3]; rfl
    · intro heq
      rw [heq, hlook2] at hlook3
      have hlen := congrArg List.length (Option.some.inj hlook3)
      omega

/-- C29 amended, at a concrete input: on a new bus, `subscribe('playerHit', 7)` followed
by two calls of the returned function leaves no subscriber after the first call, and the
second call changes nothing. -/
theorem unsubscribe_removes_earliest_subscription_witness :
    "playerHit" ∉ EventBus.objectPrototype ∧
    ∃ subscribed once twice : EventBus,
      EventBus.new.subscribe "playerHit" 7 = some subscribed ∧
      subscribed.unsubscribe "playerHit" 7 = some once ∧
      once.unsubscribe "playerHit" 7 = some twice ∧
      subscribed.getSubscriberCount "playerHit" = some 1 ∧
      once.getSubscriberCount "playerHit" = some 0 ∧ twice = once := by
  obtain ⟨subscribed, once, twice, h1, h2, h3, _, _, hc1, hc2, _, hnew, _⟩ :=
    unsubscribe_removes_earliest_subscription EventBus.new "playerHit" 7 (by decide)
  exact ⟨by decide, subscribed, once, twice, h1, h2, h3, by rw [hc1]; rfl, by rw [hc2]; rfl,
    (hnew (by decide)).2⟩

/-! ## The monolithic variant: lives and health -/

/-- C28, counterexample: three ticks after `Space` started the game, the fifth enemy that
rams the player in the last tick hits it after the last life was lost, and the lives
counter ends at -1, with the health at 0 and the state `gameOver`. -/
theorem lives_counter_becomes_negative :
    (Script.pressSpace (Script.start 800 600) 800 600).gameState.lives = 3 ∧
    (Script.pressSpace (Script.start 800 600) 800 600).player.health = 100 ∧
    Script.rammedGame.gameState.lives = -1 ∧
    Script.rammedGame.gameState.lives < 0 ∧
    Script.rammedGame.player.health = 0 ∧
    Script.rammedGame.gameState.current = "gameOver" := by
  decide!

/-- One `takeDamage` with a non-negative damage keeps the health within `0..maxHealth`,
leaves `maxHealth` and the session state alone, and takes at most one life. -/
theorem Script.Player.takeDamage_spec (g : Script.Game) (damage : ℚ) (hdamage : 0 ≤ damage)
    (h0 : 0 ≤ g.player.health) (h1 : g.player.health ≤ g.player.maxHealth) :
    0 ≤ (Script.Player.takeDamage g damage).player.health ∧
    (Script.Player.takeDamage g damage).player.health ≤
      (Script.Player.takeDamage g damage).player.maxHealth ∧
    (Script.Player.takeDamage g damage).player.maxHealth = g.player.maxHealth ∧
    (Script.Player.takeDamage g damage).gameState.current = g.gameState.current ∧
    (Script.Player.takeDamage g damage).gameState.lives ≤ g.gameState.lives ∧
    g.gameState.lives - 1 ≤ (Script.Player.takeDamage g damage).gameState.lives := by
  have hmax : 0 ≤ g.player.maxHealth := le_trans h0 h1
  simp only [Script.Player.takeDamage]
  split
  · exact ⟨h0, h1, rfl, rfl, le_refl _, by omega⟩
  · split
    · split
      · exact ⟨hmax, le_refl _, rfl, rfl, by simp only; omega, le_refl _⟩
      · exact ⟨le_refl _, hmax, rfl, rfl, by simp only; omega, le_refl _⟩
    · rename_i hpos
      exact ⟨le_of_lt (not_le.mp hpos), by simp only; linarith, rfl, rfl, le_refl _,
        by simp only; omega⟩

/-- One `applyTo` keeps the health within `0..maxHealth` and leaves `maxHealth` alone. -/
theorem Script.PowerUp.applyTo_spec (powerUp : Script.PowerUp) (player : Script.Player)
    (h0 : 0 ≤ player.health) (h1 : player.health ≤ player.maxHealth) :
    0 ≤ (powerUp.applyTo player).health ∧
    (powerUp.applyTo player).health ≤ (powerUp.applyTo player).maxHealth ∧
    (powerUp.applyTo player).maxHealth = player.maxHealth := by
  simp only [Script.PowerUp.applyTo]
  split
  · exact ⟨le_min (le_trans h0 h1) (by linarith), min_le_left _ _, rfl⟩
  · split
    · exact ⟨h0, h1, rfl⟩
    · split
      · exact ⟨h0, h1, rfl⟩
      · split
        · exact ⟨h0, h1, rfl⟩
        · exact ⟨h0, h1, rfl⟩

/-- The enemy-bullet pass keeps the health within `0..maxHealth`, leaves `maxHealth` and
the session state alone, and never adds a life. -/
theorem Script.enemyBulletsVsPlayer_health (n : ℕ) :
    ∀ g : Script.Game, 0 ≤ g.player.health → g.player.health ≤ g.player.maxHealth →
      0 ≤ (Script.enemyBulletsVsPlayer g n).player.health ∧
      (Script.enemyBulletsVsPlayer g n).player.health ≤
        (Script.enemyBulletsVsPlayer g n).player.maxHealth ∧
      (Script.enemyBulletsVsPlayer g n).player.maxHealth = g.player.maxHealth ∧
      (Script.enemyBulletsVsPlayer g n).gameState.current = g.gameState.current ∧
      (Script.enemyBulletsVsPlayer g n).gameState.lives ≤ g.gameState.lives := by
  induction n with
  | zero => intro g h0 h1; exact ⟨h0, h1, rfl, rfl, le_refl _⟩
  | succ i ih =>
    intro g h0 h1
    simp only [Script.enemyBulletsVsPlayer]
    split
    · exact ih g h0 h1
    · split
      · exact ih g h0 h1
      · split
        · obtain ⟨a0, a1, a2, a3, a4, _⟩ := Script.Player.takeDamage_spec
            { g with bullets := g.bullets.eraseIdx i } 15 (by norm_num) h0 h1
          obtain ⟨b0, b1, b2, b3, b4⟩ := ih _ a0 a1
          exact ⟨b0, b1, b2.trans a2, b3.trans a3, le_trans b4 a4⟩
        · exact ih g h0 h1

/-- The enemy-body pass keeps the health within `0..maxHealth`, leaves `maxHealth` and
the session state alone, and never adds a life. -/
theorem Script.playerVsEnemies_health (n : ℕ) :
    ∀ g : Script.Game, 0 ≤ g.player.health → g.player.health ≤ g.player.maxHealth →
      0 ≤ (Script.playerVsEnemies g n).player.health ∧
      (Script.playerVsEnemies g n).player.health ≤
        (Script.playerVsEnemies g n).player.maxHealth ∧
      (Script.playerVsEnemies g n).player.maxHealth = g.player.maxHealth ∧
      (Script.playerVsEnemies g n).gameState.current = g.gameState.current ∧
      (Script.playerVsEnemies g n).gameState.lives ≤ g.gameState.lives := by
  induction n with
  | zero => intro g h0 h1; exact ⟨h0, h1, rfl, rfl, le_refl _⟩
  | succ i ih =>
    intro g h0 h1
    simp only [Script.playerVsEnemies]
    split
    · exact ih g h0 h1
    · split
      · obtain ⟨a0, a1, a2, a3, a4, _⟩ := Script.Player.takeDamage_spec
          { g with enemies := g.enemies.eraseIdx i } 25 (by norm_num) h0 h1
        obtain ⟨b0, b1, b2, b3, b4⟩ := ih _ a0 a1
        exact ⟨b0, b1, b2.trans a2, b3.trans a3, le_trans b4 a4⟩
      · exact ih g h0 h1

/-- The power-up pass keeps the health within `0..maxHealth` and leaves `maxHealth`, the
session state and the lives alone. -/
theorem Script.playerVsPowerUps_health (n : ℕ) :
    ∀ g : Script.Game, 0 ≤ g.player.health → g.player.health ≤ g.player.maxHealth →
      0 ≤ (Script.playerVsPowerUps g n).player.health ∧
      (Script.playerVsPowerUps g n).player.health ≤
        (Script.playerVsPowerUps g n).player.maxHealth ∧
      (Script.playerVsPowerUps g n).player.maxHealth = g.player.maxHealth ∧
      (Script.playerVsPowerUps g n).gameState = g.gameState := by
  induction n with
  | zero => intro g h0 h1; exact ⟨h0, h1, rfl, rfl⟩
  | succ i ih =>
    intro g h0 h1
    simp only [Script.playerVsPowerUps]
    split
    · exact ih g h0 h1
    · split
      · rename_i powerUp _ _
        obtain ⟨a0, a1, a2⟩ := powerUp.applyTo_spec g.player h0 h1
        obtain ⟨b0, b1, b2, b3⟩ := ih
          { g with player := powerUp.applyTo g.player, powerUps := g.powerUps.eraseIdx i } a0 a1
        exact ⟨b0, b1, b2.trans a2, b3⟩
      · exact ih g h0 h1

/-- The player passes of `checkCollisions` keep the health within `0..maxHealth`, leave
`maxHealth` and the session state alone, and never add a life. -/
theorem Script.checkCollisions_health (g : Script.Game) (h0 : 0 ≤ g.player.health)
    (h1 : g.player.health ≤ g.player.maxHealth) :
    0 ≤ (Script.checkCollisions g).player.health ∧
    (Script.checkCollisions g).player.health ≤ (Script.checkCollisions g).player.maxHealth ∧
    (Script.checkCollisions g).player.maxHealth = g.player.maxHealth ∧
    (Script.checkCollisions g).gameState.current = g.gameState.current ∧
    (Script.checkCollisions g).gameState.lives ≤ g.gameState.lives := by
  obtain ⟨a0, a1, a2, a3, a4⟩ := Script.enemyBulletsVsPlayer_health g.bullets.length g h0 h1
  obtain ⟨b0, b1, b2, b3, b4⟩ := Script.playerVsEnemies_health
    (Script.enemyBulletsVsPlayer g g.bullets.length).enemies.length _ a0 a1
  obtain ⟨c0, c1, c2, c3⟩ := Script.playerVsPowerUps_health
    (Script.playerVsEnemies (Script.enemyBulletsVsPlayer g g.bullets.length)
      (Script.enemyBulletsVsPlayer g g.bullets.length).enemies.length).powerUps.length _ b0 b1
  simp only [Script.checkCollisions]
  refine ⟨c0, c1, c2.trans (b2.trans a2), ?_, ?_⟩
  · rw [c3]; exact b3.trans a3
  · rw [c3]; exact le_trans b4 a4
/-- Every reachable state of the monolithic game: the health is within `0..maxHealth`,
`maxHealth` is 100, there are at most 3 lives, at least 1 while the state is `playing`, and
a counter at or below 0 only in the state `gameOver`. -/
theorem Script.Reachable.sound {canvasWidth canvasHeight : ℚ} {g : Script.Game}
    (hreach : Script.Reachable canvasWidth canvasHeight g) :
    0 ≤ g.player.health ∧ g.player.health ≤ g.player.maxHealth ∧ g.player.maxHealth = 100 ∧
    g.gameState.lives ≤ 3 ∧ (g.gameState.current = "playing" → 1 ≤ g.gameState.lives) ∧
    (g.gameState.lives ≤ 0 → g.gameState.current = "gameOver") := by
  induction hreach with
  | start =>
    refine ⟨?_, ?_, rfl, ?_, ?_, ?_⟩
    · simp [Script.start, Script.initGame, Script.Player.new]
    · simp [Script.start, Script.initGame, Script.Player.new]
    · simp [Script.start, Script.initGame]
    · intro _; simp [Script.start, Script.initGame]
    · intro h; simp [Script.start, Script.initGame] at h
  | @pressSpace g _ ih =>
    simp only [Script.pressSpace]
    split
    · refine ⟨?_, ?_, rfl, ?_, ?_, ?_⟩
      · simp [Script.initGame, Script.Player.new]
      · simp [Script.initGame, Script.Player.new]
      · simp [Script.initGame]
      · intro _; simp [Script.initGame]
      · intro h; simp [Script.initGame] at h
    · exact ih
  | @update g deltaTime keys bullets enemies powerUps _ ih =>
    obtain ⟨h0, h1, hmax, hlives, hplay, hover⟩ := ih
    simp only [Script.update]
    split
    · exact ⟨h0, h1, hmax, hlives, hplay, hover⟩
    · rename_i hplaying
      have hcurrent : g.gameState.current = "playing" := not_not.mp hplaying
      obtain ⟨c0, c1, c2, c3, c4⟩ := Script.checkCollisions_health
        { g with player := g.player.update deltaTime keys canvasWidth canvasHeight,
                 bullets := bullets, enemies := enemies, powerUps := powerUps } h0 h1
      split
      · rename_i hdead
        exact ⟨c0, c1, c2.trans hmax, le_trans c4 hlives,
          fun h => absurd (show ("gameOver" : String) = "playing" from h) (by decide),
          fun _ => rfl⟩
      · rename_i halive
        refine ⟨c0, c1, c2.trans hmax, le_trans c4 hlives, fun _ => ?_, fun h => ?_⟩
        · omega
        · exact absurd h halive

/-- C28, amended: in every state of the monolithic game reached from the start by `Space`
presses and `update` ticks, the player's health is within `0..maxHealth` (which is 100) and
stays there through any further hit or power-up; the lives counter is at most 3 and at
least 1 while the state is `playing`; it is at or below 0 only in the state `gameOver`,
and a hit takes at most one life. -/
theorem health_in_range_and_lives_positive_while_playing (canvasWidth canvasHeight : ℚ)
    (g : Script.Game) (hreach : Script.Reachable canvasWidth canvasHeight g) :
    0 ≤ g.player.health ∧ g.player.health ≤ g.player.maxHealth ∧ g.player.maxHealth = 100 ∧
    g.gameState.lives ≤ 3 ∧ (g.gameState.current = "playing" → 1 ≤ g.gameState.lives) ∧
    (g.gameState.lives ≤ 0 → g.gameState.current = "gameOver") ∧
    (∀ damage : ℚ, 0 ≤ damage →
      0 ≤ (Script.Player.takeDamage g damage).player.health ∧
      (Script.Player.takeDamage g damage).player.health ≤
        (Script.Player.takeDamage g damage).player.maxHealth ∧
      g.gameState.lives - 1 ≤ (Script.Player.takeDamage g damage).gameState.lives) ∧
    (∀ powerUp : Script.PowerUp,
      0 ≤ (powerUp.applyTo g.player).health ∧
      (powerUp.applyTo g.player).health ≤ (powerUp.applyTo g.player).maxHealth) := by
  obtain ⟨h0, h1, hmax, hlives, hplay, hover⟩ := hreach.sound
  refine ⟨h0, h1, hmax, hlives, hplay, hover, fun damage hdamage => ?_, fun powerUp => ?_⟩
  · obtain ⟨a0, a1, _, _, _, a5⟩ := Script.Player.takeDamage_spec g damage hdamage h0 h1
    exact ⟨a0, a1, a5⟩
  · obtain ⟨a0, a1, _⟩ := powerUp.applyTo_spec g.player h0 h1
    exact ⟨a0, a1⟩

/-- C28 amended, at a concrete input: the game rammed through its three lives is
reachable; its health 0 is within 0..100 and its negative counter comes with the state
`gameOver`. -/
theorem health_in_range_and_lives_positive_while_playing_witness :
    Script.rammedGame.player.health = 0 ∧ Script.rammedGame.player.maxHealth = 100 ∧
    Script.rammedGame.gameState.lives ≤ 3 ∧
    Script.rammedGame.gameState.current = "gameOver" := by
  have hreach : Script.Reachable 800 600 Script.rammedGame :=
    Script.Reachable.update 3000 Script.noKeys [] _ []
      (Script.Reachable.update 3000 Script.noKeys [] _ []
        (Script.Reachable.update 16 Script.noKeys [] _ []
          (Script.Reachable.pressSpace Script.Reachable.start)))
  have h := health_in_range_and_lives_positive_while_playing 800 600 Script.rammedGame hreach
  exact ⟨by decide!, h.2.2.1, h.2.2.2.1, h.2.2.2.2.2.1 (by decide!)⟩

/-! ## The calculator -/

/-- The look-up in `operations` finds a function for each of the four operators. -/
theorem Calculator.operations_isSome {α : Type} (builtins : NumberBuiltins α) (op : String)
    (hop : op ∈ ["+", "-", "*", "/"]) :
    ∃ operation, Calculator.operations builtins (some op) = some operation := by
  simp only [List.mem_cons, List.mem_nil_iff, or_false] at hop
  rcases hop with rfl | rfl | rfl | rfl <;> exact ⟨_, rfl⟩

/-- A `previousInput` that parses as a number is not empty. -/
theorem Calculator.previousInput_ne_empty {α : Type} (builtins : NumberBuiltins α)
    (c : Calculator) (hprev : builtins.isNaN (builtins.parseFloat c.previousInput) = false) :
    c.previousInput ≠ "" := by
  intro hempty
  rw [hempty, builtins.parseFloat_empty] at hprev
  cases hprev

/-- The method `calculate` on a state whose `previousInput` is non-empty only while one
of the four operators is stored: it does not throw; it returns at once when an input does
not parse, and otherwise stores the result and resets the operator and `previousInput`. -/
theorem Calculator.calculate_ok {α : Type} (builtins : NumberBuiltins α) (c : Calculator)
    (hinv : c.previousInput ≠ "" → ∃ op ∈ ["+", "-", "*", "/"], c.operator = some op) :
    ∃ after, c.calculate builtins = some after ∧
      (after = c ∨ (after.operator = none ∧ after.previousInput = "")) := by
  simp only [Calculator.calculate]
  split
  · exact ⟨c, rfl, Or.inl rfl⟩
  · rename_i hparse
    have hprev : builtins.isNaN (builtins.parseFloat c.previousInput) = false := by
      cases h : builtins.isNaN (builtins.parseFloat c.previousInput) with
      | false => rfl
      | true => exact absurd (Or.inl h) hparse
    obtain ⟨op, hop, hstored⟩ := hinv (Calculator.previousInput_ne_empty builtins c hprev)
    obtain ⟨operation, hoperation⟩ := Calculator.operations_isSome builtins op hop
    rw [hstored, hoperation]
    exact ⟨_, rfl, Or.inr ⟨rfl, rfl⟩⟩

/-- One click keeps the calculator running and keeps `previousInput` non-empty only
while one of the four operators is stored. -/
theorem Calculator.call_ok {α : Type} (builtins : NumberBuiltins α) (c : Calculator)
    (call : CalculatorCall)
    (hcall : ∀ op, call = CalculatorCall.chooseOperator op → op ∈ ["+", "-", "*", "/"])
    (hinv : c.previousInput ≠ "" → ∃ op ∈ ["+", "-", "*", "/"], c.operator = some op) :
    ∃ next, c.call builtins call = some next ∧
      (next.previousInput ≠ "" → ∃ op ∈ ["+", "-", "*", "/"], next.operator = some op) := by
  cases call with
  | appendNumber num =>
    refine ⟨c.appendNumber num, rfl, ?_⟩
    simp only [Calculator.appendNumber]
    split <;> exact hinv
  | chooseOperator op =>
    have hop := hcall op rfl
    simp only [Calculator.call, Calculator.chooseOperator]
    split
    · exact ⟨c, rfl, hinv⟩
    · split
      · obtain ⟨after, hafter, _⟩ := Calculator.calculate_ok builtins c hinv
        rw [hafter]
        exact ⟨_, rfl, fun _ => ⟨op, hop, rfl⟩⟩
      · exact ⟨_, rfl, fun _ => ⟨op, hop, rfl⟩⟩
  | calculate =>
    obtain ⟨after, hafter, hcases⟩ := Calculator.calculate_ok builtins c hinv
    refine ⟨after, hafter, ?_⟩
    rcases hcases with rfl | ⟨_, hprev⟩
    · exact hinv
    · exact fun h => absurd hprev h
  | clear => exact ⟨c.clear, rfl, fun h => absurd rfl h⟩

/-- Every sequence of clicks whose operators are among the four runs without a throw and
ends in a state where `previousInput` is non-empty only while one of them is stored. -/
theorem Calculator.run_ok {α : Type} (builtins : NumberBuiltins α) (calls : List CalculatorCall) :
    ∀ c : Calculator,
      (∀ op, CalculatorCall.chooseOperator op ∈ calls → op ∈ ["+", "-", "*", "/"]) →
      (c.previousInput ≠ "" → ∃ op ∈ ["+", "-", "*", "/"], c.operator = some op) →
      ∃ final, Calculator.run builtins c calls = some final ∧
        (final.previousInput ≠ "" → ∃ op ∈ ["+", "-", "*", "/"], final.operator = some op) := by
  induction calls with
  | nil => intro c _ hinv; exact ⟨c, rfl, hinv⟩
  | cons call rest ih =>
    intro c hcalls hinv
    obtain ⟨next, hnext, hinv2⟩ := Calculator.call_ok builtins c call
      (fun op h => hcalls op (by rw [h]; exact List.mem_cons_self _ _)) hinv
    obtain ⟨final, hfinal, hinv3⟩ := ih next
      (fun op h => hcalls op (List.mem_cons_of_mem _ h)) hinv2
    refine ⟨final, ?_, hinv3⟩
    simp only [Calculator.run, hnext]
    exact hfinal

/-- C30: for every sequence of `appendNumber`, `chooseOperator` (with one of `+ - * /`),
`calculate` and `clear` clicks from the initial state, and whatever the number built-ins
compute, no handler throws; in the state reached `previousInput` is non-empty only while
one of the four operators is stored, so whenever both inputs parse as numbers the stored
operator is one of the four and `calculate` returns; and a division whose right operand
is 0 stores the result `Error` and resets the operator and `previousInput`. -/
theorem calculate_never_applies_missing_operation {α : Type} (builtins : NumberBuiltins α)
    (calls : List CalculatorCall)
    (hcalls : ∀ op, CalculatorCall.chooseOperator op ∈ calls → op ∈ ["+", "-", "*", "/"]) :
    ∃ c, Calculator.run builtins Calculator.initial calls = some c ∧
      (c.previousInput ≠ "" → ∃ op ∈ ["+", "-", "*", "/"], c.operator = some op) ∧
      (builtins.isNaN (builtins.parseFloat c.previousInput) = false →
        builtins.isNaN (builtins.parseFloat c.currentInput) = false →
        ∃ op ∈ ["+", "-", "*", "/"], c.operator = some op ∧
          ∃ operation, Calculator.operations builtins c.operator = some operation) ∧
      (∃ after, c.calculate builtins = some after) ∧
      (c.operator = some "/" →
        builtins.isNaN (builtins.parseFloat c.previousInput) = false →
        builtins.isNaN (builtins.parseFloat c.currentInput) = false →
        builtins.isZero (builtins.parseFloat c.currentInput) = true →
        c.calculate builtins =
          some { currentInput := "Error", operator := none, previousInput := "" }) := by
  obtain ⟨c, hrun, hinv⟩ := Calculator.run_ok builtins calls Calculator.initial hcalls
    (fun h => absurd rfl h)
  refine ⟨c, hrun, hinv, ?_, ?_, ?_⟩
  · intro hprev _
    obtain ⟨op, hop, hstored⟩ := hinv (Calculator.previousInput_ne_empty builtins c hprev)
    obtain ⟨operation, hoperation⟩ := Calculator.operations_isSome builtins op hop
    exact ⟨op, hop, hstored, operation, by rw [hstored]; exact hoperation⟩
  · obtain ⟨after, hafter, _⟩ := Calculator.calculate_ok builtins c hinv
    exact ⟨after, hafter⟩
  · intro hdiv hprev hcurr hzero
    simp only [Calculator.calculate, hprev, hcurr, Bool.false_eq_true, or_self, if_false, hdiv,
      Calculator.operations, Option.some.injEq, String.reduceEq, if_true, hzero,
      Calculator.Result.toString]

/-- C30 at a concrete input: with the exact-decimal built-ins the clicks `8`, `/`, `0`
leave the inputs `8` and `0` with the operator `/` stored, and `=` then stores `Error`. -/
theorem calculate_never_applies_missing_operation_witness :
    Calculator.run exactDecimals Calculator.initial
      [CalculatorCall.appendNumber "8", CalculatorCall.chooseOperator "/",
       CalculatorCall.appendNumber "0"] =
      some { currentInput := "0", operator := some "/", previousInput := "8" } ∧
    Calculator.run exactDecimals Calculator.initial divisionByZeroClicks =
      some { currentInput := "Error", operator := none, previousInput := "" } ∧
    ∃ c, Calculator.run exactDecimals Calculator.initial divisionByZeroClicks = some c ∧
      ∃ after, c.calculate exactDecimals = some after := by
  obtain ⟨c, hrun, _, _, hafter, _⟩ :=
    calculate_never_applies_missing_operation exactDecimals divisionByZeroClicks (by
      intro op hmem
      simp [divisionByZeroClicks] at hmem
      rw [hmem]
      decide)
  exact ⟨by decide!, by decide!, c, hrun, hafter⟩

end StarRunner
